import Mathlib

/-!
# Tiled texture cache of the Android WebKit port

A shallow embedding of

* `Source/WebCore/platform/graphics/android/BaseTileTexture.cpp`
  (the ownership and producer operations of a reusable texture),
* `Source/WebCore/platform/graphics/android/TilesManager.cpp`
  (the texture pools, their allocation, the per-frame snapshots and
  `getAvailableTexture`), and
* `Source/WebCore/platform/graphics/android/TiledTexture.cpp`
  (the tile set of a surface: the grid `prepare` computes, `prepareTile`,
  `getTile` and `draw`).

The methods of `BaseTile` that this code calls are declared in `BaseTile.h`;
their bodies (`BaseTile.cpp`) are not among the sources at hand.  They are
either parameters of the definitions here or definitions whose comment starts
with "Modelled from the spec".

Objects live in a heap indexed by their identity: a C++ pointer is an
`Option` of an identity, `none` being the null pointer.  Code whose behaviour
is undefined in C++ (a null dereference, `Vector::remove` at `notFound`,
dereferencing the end iterator of the surface map) or that blocks for ever in
a single-threaded run (waiting for the busy condition) yields `none`.

The state also keeps a record of the calls made (`World.trace`): every entry
into `acquire` and every `removeTexture` call with its answer, so that
statements such as "the texture on which `acquire` is called" or "the owner
accepted the steal" can be made about a run.
-/

namespace WebCore

/-- Identity of a `BaseTileTexture` object. -/
abbrev TexId := Nat

/-- Identity of a `BaseTile` object, the only `TextureOwner` of this code. -/
abbrev TileId := Nat

/-- Identity of a `GLWebViewState` object (a surface). -/
abbrev StateId := Nat

/-- Identity of a `TilePainter` object. -/
abbrev PainterId := Nat

/-- A `float` scale factor.  The code only compares scales for equality, so a
scale is represented by a code with decidable equality (NaN left out). -/
abbrev Scale := Int

/-- The largest `unsigned int`, the value of `~0` in `getAvailableTexture`. -/
def UINT_MAX : Nat := 4294967295

/-- The record `TextureTileInfo` kept in `m_ownTextureTileInfo`. -/
structure TextureTileInfo where
  m_x : Int
  m_y : Int
  m_scale : Scale
  m_painter : Option PainterId
  m_picture : Nat
  m_inverted : Bool
  deriving DecidableEq, Repr

/-- The fields of `BaseTileTexture` that the ownership protocol reads and
writes (`BaseTileTexture.cpp`, constructor at lines 52-60). -/
structure BaseTileTexture where
  m_usedLevel : Int
  m_owner : Option TileId
  m_delayedReleaseOwner : Option TileId
  m_delayedRelease : Bool
  m_busy : Bool
  m_ownTextureTileInfo : TextureTileInfo
  deriving DecidableEq, Repr

/-- The fields of `BaseTile` (`BaseTile.h`, lines 107-147) used here. -/
structure BaseTile where
  m_glWebViewState : Option StateId
  m_painter : Option PainterId
  m_x : Int
  m_y : Int
  m_usedLevel : Int
  m_texture : Option TexId
  m_scale : Scale
  m_dirty : Bool
  m_repaintPending : Bool
  m_usable : Bool
  m_isLayerTile : Bool
  deriving DecidableEq, Repr

/-- The virtual method `TextureOwner::removeTexture(BaseTileTexture*)`.  Its
body (`BaseTile.cpp`) is not part of the sources at hand, so it is a parameter
of the development: called on the owner object with the texture, it answers
whether the owner gives the texture up and leaves the owner object updated. -/
abbrev RemoveTexture := BaseTile → TexId → Bool × BaseTile

/-- Calls recorded while the code runs: every entry into
`BaseTileTexture::acquire` and every `removeTexture` call with its answer. -/
inductive Event where
  | acquire (texture : TexId) (candidate : Option TileId) (force : Bool)
  | removeTexture (owner : TileId) (texture : TexId) (accepted : Bool)
  deriving DecidableEq, Repr

/-- The fields of `TilesManager` (constructor at `TilesManager.cpp:90-106`). -/
structure TilesManager where
  m_textures : List TexId
  m_availableTextures : List TexId
  m_tilesTextures : List TexId
  m_availableTilesTextures : List TexId
  m_maxTextureCount : Int
  m_glWebViewStateMap : StateId → Option Nat
  m_drawRegistrationCount : Nat
  m_invertedScreen : Bool

/-- The whole state: the texture objects, the tile objects, the manager
singleton and the record of calls made so far. -/
structure World where
  textures : TexId → BaseTileTexture
  tiles : TileId → BaseTile
  manager : TilesManager
  trace : List Event

/-! ## BaseTileTexture -/

/-- A metadata record that describes no painted tile.  (The default
constructor of `TextureTileInfo` is in `BaseTileTexture.h`, which is not among
the sources at hand; the ownership protocol never reads the record.) -/
def TextureTileInfo.blank : TextureTileInfo :=
  { m_x := -1, m_y := -1, m_scale := 0, m_painter := none, m_picture := 0, m_inverted := false }

/-- The state the constructor leaves (`BaseTileTexture.cpp:52-60`):
`m_usedLevel(-1)`, `m_owner(0)`, `m_delayedReleaseOwner(0)`,
`m_delayedRelease(false)`, `m_busy(false)`. -/
def BaseTileTexture.fresh : BaseTileTexture :=
  { m_usedLevel := -1, m_owner := none, m_delayedReleaseOwner := none,
    m_delayedRelease := false, m_busy := false, m_ownTextureTileInfo := TextureTileInfo.blank }

/-- `BaseTileTexture::producerLock` (lines 100-106): sets `m_busy`. -/
def BaseTileTexture.producerLock (t : BaseTileTexture) : BaseTileTexture :=
  { t with m_busy := true }

/-- `BaseTileTexture::setNotBusy` (lines 120-132). -/
def BaseTileTexture.setNotBusy (t : BaseTileTexture) : BaseTileTexture :=
  let t1 := { t with m_busy := false }
  if t1.m_delayedRelease then
    let t2 := if t1.m_owner = t1.m_delayedReleaseOwner then { t1 with m_owner := none } else t1
    { t2 with m_delayedRelease := false, m_delayedReleaseOwner := none }
  else t1

/-- `BaseTileTexture::producerRelease` (lines 108-112). -/
def BaseTileTexture.producerRelease (t : BaseTileTexture) : BaseTileTexture :=
  t.setNotBusy

/-- `BaseTileTexture::producerReleaseAndSwap` (lines 114-118); the buffer swap
of `DoubleBufferedTexture` does not touch the fields modelled here. -/
def BaseTileTexture.producerReleaseAndSwap (t : BaseTileTexture) : BaseTileTexture :=
  t.setNotBusy

/-- `BaseTileTexture::release` (lines 212-225). -/
def BaseTileTexture.release (owner : Option TileId) (t : BaseTileTexture) :
    Bool × BaseTileTexture :=
  if t.m_owner ≠ owner then (false, t)
  else if !t.m_busy then (true, { t with m_owner := none })
  else (true, { t with m_delayedRelease := true, m_delayedReleaseOwner := owner })

/-- Replace the texture object `self` in the heap. -/
def World.setTexture (w : World) (self : TexId) (t : BaseTileTexture) : World :=
  { w with textures := Function.update w.textures self t }

/-- Replace the tile object `tile` in the heap. -/
def World.setTile (w : World) (tile : TileId) (b : BaseTile) : World :=
  { w with tiles := Function.update w.tiles tile b }

/-- Append one call to the record. -/
def World.log (w : World) (e : Event) : World :=
  { w with trace := w.trace ++ [e] }

/-- `BaseTileTexture::setOwner` (lines 181-210).  With `force` set the code
waits on the busy condition while the texture is busy; in a single-threaded
run nobody clears the flag, so that call does not return (`none`). -/
def setOwner (rm : RemoveTexture) (self : TexId) (owner : Option TileId) (force : Bool)
    (w : World) : Option (Bool × World) :=
  if (w.textures self).m_busy && force then none
  else
    let busy := (w.textures self).m_busy
    if !busy then
      match (w.textures self).m_owner with
      | some o =>
        if some o ≠ owner then
          let r := rm (w.tiles o) self
          let w1 := (w.setTile o r.2).log (Event.removeTexture o self r.1)
          if r.1 then
            some (true, w1.setTexture self { w1.textures self with m_owner := owner })
          else some (false, w1)
        else some (true, w.setTexture self { w.textures self with m_owner := owner })
      | none => some (true, w.setTexture self { w.textures self with m_owner := owner })
    else some (false, w)

/-- `BaseTileTexture::acquire` (lines 155-166). -/
def acquire (rm : RemoveTexture) (self : TexId) (owner : Option TileId) (force : Bool)
    (w : World) : Option (Bool × World) :=
  let w0 := w.log (Event.acquire self owner force)
  if (w0.textures self).m_owner = owner then
    if (w0.textures self).m_delayedRelease then
      some (true, w0.setTexture self
        { w0.textures self with m_delayedRelease := false, m_delayedReleaseOwner := none })
    else some (true, w0)
  else setOwner rm self owner force w0

/-- `BaseTileTexture::tryAcquire` (lines 168-179).  The candidate is
dereferenced, so it is a tile and not a nullable pointer; `state()` of a
`BaseTile` is its `m_glWebViewState` (`BaseTile.h:104`). -/
def tryAcquire (rm : RemoveTexture) (self : TexId) (owner : TileId) (w : World) :
    Option (Bool × World) :=
  if !(w.textures self).m_busy then
    match (w.textures self).m_owner with
    | some o =>
      if (w.tiles o).m_glWebViewState ≠ (w.tiles owner).m_glWebViewState then
        acquire rm self (some owner) false w
      else some (false, w)
    | none => some (false, w)
  else some (false, w)

/-- `BaseTileTexture::scale` (lines 243-247). -/
def BaseTileTexture.scale (t : BaseTileTexture) : Scale :=
  t.m_ownTextureTileInfo.m_scale

/-! ## TilesManager -/

/-- `TilesManager::gatherTextures` (lines 207-211). -/
def gatherTextures (w : World) : World :=
  { w with manager := { w.manager with m_availableTextures := w.manager.m_textures } }

/-- `TilesManager::gatherLayerTextures` (lines 213-217). -/
def gatherLayerTextures (w : World) : World :=
  { w with manager := { w.manager with m_availableTilesTextures := w.manager.m_tilesTextures } }

/-- `TilesManager::getGLWebViewStateDrawCount` (lines 377-381):
`m_glWebViewStateMap.find(state)->second`, undefined when the surface is not
in the map. -/
def getGLWebViewStateDrawCount (w : World) (state : Option StateId) : Option Nat :=
  match state with
  | some s => w.manager.m_glWebViewStateMap s
  | none => none

/-- `v.remove(v.find(x))` on a `WTF::Vector`: `find` gives the first index
holding `x`, or `notFound`, at which `remove` is undefined. -/
def removeFound (v : List TexId) (x : TexId) : Option (List TexId) :=
  if x ∈ v then some (v.erase x) else none

/-- The test `texture->owner() && texture->owner()->isRepaintPending()`
(line 240); `isRepaintPending` reads `m_repaintPending` (`BaseTile.h:89,123`). -/
def ownerRepaintPending (w : World) (texture : TexId) : Bool :=
  match (w.textures texture).m_owner with
  | some o => (w.tiles o).m_repaintPending
  | none => false

/-- A conjunct `cond && texture->acquire(owner)` of lines 242-250: `acquire`
runs only when `cond` holds (`force` has its default, `false`). -/
def guardedAcquire (rm : RemoveTexture) (cond : Bool) (texture : TexId) (owner : TileId)
    (w : World) : Option (Bool × World) :=
  if cond then acquire rm texture (some owner) false w else some (false, w)

/-- The loop of the layer path (lines 238-254) over the layer snapshot. -/
def layerScan (rm : RemoveTexture) (owner : TileId) :
    List TexId → World → Option (Option TexId × World)
  | [], w => some (none, w)
  | texture :: rest, w =>
    if ownerRepaintPending w texture then layerScan rm owner rest w
    else
      match guardedAcquire rm (w.textures texture).m_owner.isNone texture owner w with
      | none => none
      | some (true, w1) => some (some texture, w1)
      | some (false, w1) =>
        match guardedAcquire rm (decide ((w1.textures texture).m_usedLevel ≠ 0))
            texture owner w1 with
        | none => none
        | some (true, w2) => some (some texture, w2)
        | some (false, w2) =>
          match guardedAcquire rm
              (decide ((w2.textures texture).scale ≠ (w2.tiles owner).m_scale))
              texture owner w2 with
          | none => none
          | some (true, w3) => some (some texture, w3)
          | some (false, w3) => layerScan rm owner rest w3

/-- The loop of the base path (lines 265-287): the running choice is
`(farthestTexture, farthestTextureLevel, lowestDrawCount)`. -/
def farthestScan (w : World) :
    List TexId → Option TexId × Int × Nat → Option (Option TexId)
  | [], acc => some acc.1
  | texture :: rest, acc =>
    if (w.textures texture).m_usedLevel = -1 then some (some texture)
    else
      match (w.textures texture).m_owner with
      | none => none
      | some o =>
        match getGLWebViewStateDrawCount w (w.tiles o).m_glWebViewState with
        | none => none
        | some textureDrawCount =>
          if acc.2.1 < (w.textures texture).m_usedLevel
              ∨ (acc.2.1 = (w.textures texture).m_usedLevel ∧ acc.2.2 > textureDrawCount) then
            farthestScan w rest (some texture, (w.textures texture).m_usedLevel, textureDrawCount)
          else farthestScan w rest acc

/-- The test of line 224: the tile has a texture whose owner is the tile. -/
def ownsItsTexture (w : World) (owner : TileId) : Option TexId :=
  match (w.tiles owner).m_texture with
  | some tx => if (w.textures tx).m_owner = some owner then some tx else none
  | none => none

/-- `BaseTileTexture::setUsedLevel` applied to the texture object `texture`. -/
def World.setUsedLevel (w : World) (texture : TexId) (level : Int) : World :=
  w.setTexture texture { w.textures texture with m_usedLevel := level }

/-- `TilesManager::getAvailableTexture` (lines 219-303). -/
def getAvailableTexture (rm : RemoveTexture) (owner : TileId) (w : World) :
    Option (Option TexId × World) :=
  match ownsItsTexture w owner with
  | some tx =>
    let w1 := w.setUsedLevel tx 0
    if (w1.tiles owner).m_isLayerTile then
      match removeFound w1.manager.m_availableTilesTextures tx with
      | none => none
      | some l =>
        some (some tx, { w1 with manager := { w1.manager with m_availableTilesTextures := l } })
    else
      match removeFound w1.manager.m_availableTextures tx with
      | none => none
      | some l =>
        some (some tx, { w1 with manager := { w1.manager with m_availableTextures := l } })
  | none =>
    if (w.tiles owner).m_isLayerTile then
      match layerScan rm owner w.manager.m_availableTilesTextures w with
      | none => none
      | some (none, w1) => some (none, w1)
      | some (some layerTexture, w1) =>
        match removeFound w1.manager.m_availableTilesTextures layerTexture with
        | none => none
        | some l =>
          some (some layerTexture,
            { w1 with manager := { w1.manager with m_availableTilesTextures := l } })
    else
      match farthestScan w w.manager.m_availableTextures (none, 0, UINT_MAX) with
      | none => none
      | some none => some (none, w)
      | some (some farthestTexture) =>
        match acquire rm farthestTexture (some owner) false w with
        | none => none
        | some (false, w1) => some (none, w1)
        | some (true, w1) =>
          let w2 := w1.setUsedLevel farthestTexture 0
          match removeFound w2.manager.m_availableTextures farthestTexture with
          | none => none
          | some l =>
            some (some farthestTexture,
              { w2 with manager := { w2.manager with m_availableTextures := l } })

/-- The available snapshot of the pool a tile draws from: the layer snapshot
for a layer tile, the base snapshot otherwise. -/
def availableSnapshot (w : World) (tile : TileId) : List TexId :=
  if (w.tiles tile).m_isLayerTile then w.manager.m_availableTilesTextures
  else w.manager.m_availableTextures

/-- The textures on which `acquire` was entered, in order, in a record of calls. -/
def acquireTargets : List Event → List TexId
  | [] => []
  | Event.acquire t _ _ :: es => t :: acquireTargets es
  | Event.removeTexture _ _ _ :: es => acquireTargets es

/-- The draw count the base scan reads for a texture at line 278,
`getGLWebViewStateDrawCount(texture->owner()->state())`; `none` when the
texture has no owner or the owner's surface is not registered. -/
def textureDrawCount (w : World) (texture : TexId) : Option Nat :=
  match (w.textures texture).m_owner with
  | some o => getGLWebViewStateDrawCount w (w.tiles o).m_glWebViewState
  | none => none

/-! ## Sequences of ownership calls -/

/-- `BaseTileTexture::release` applied to the texture object `self` of the
heap; the answer and the new world. -/
def release (self : TexId) (owner : Option TileId) (w : World) : Bool × World :=
  (((w.textures self).release owner).1, w.setTexture self ((w.textures self).release owner).2)

/-- A non-forcing ownership call made on the GL thread by a tile on a
texture: `acquire(tile)`, `tryAcquire(tile)`, `setOwner(tile, false)` or
`release(tile)`. -/
inductive OwnershipCall where
  | acquire (texture : TexId) (tile : TileId)
  | tryAcquire (texture : TexId) (tile : TileId)
  | setOwner (texture : TexId) (tile : TileId)
  | release (texture : TexId) (tile : TileId)
  deriving DecidableEq, Repr

/-- Run one ownership call, dropping its answer. -/
def runCall (rm : RemoveTexture) (w : World) : OwnershipCall → Option World
  | OwnershipCall.acquire t c => (acquire rm t (some c) false w).map Prod.snd
  | OwnershipCall.tryAcquire t c => (tryAcquire rm t c w).map Prod.snd
  | OwnershipCall.setOwner t c => (setOwner rm t (some c) false w).map Prod.snd
  | OwnershipCall.release t c => some (release t (some c) w).2

/-- Run a sequence of ownership calls, first to last. -/
def runCalls (rm : RemoveTexture) : List OwnershipCall → World → Option World
  | [], w => some w
  | c :: cs, w =>
    match runCall rm w c with
    | none => none
    | some w1 => runCalls rm cs w1

/-! ## Producer update and tile metadata -/

/-- The call into `DoubleBufferedTexture` by which `producerUpdate` gives the
buffer back: `producerRelease` keeps the front/back pair, and
`producerReleaseAndSwap` flips it. -/
inductive ProducerExit where
  | release
  | releaseAndSwap
  deriving DecidableEq, Repr

/-- `BaseTileTexture::producerUpdate` (lines 140-153); `width` and `height`
are `bitmap.width()` and `bitmap.height()`.  The answer tells which of the two
release calls was made. -/
def BaseTileTexture.producerUpdate (width height : Int) (t : BaseTileTexture) :
    ProducerExit × BaseTileTexture :=
  if width = 0 ∧ height = 0 then (ProducerExit.release, t.producerRelease)
  else (ProducerExit.releaseAndSwap, t.producerReleaseAndSwap)

/-- `BaseTileTexture::setOwnTextureTileInfoFromQueue` (lines 251-259);
`invertedScreen` is the value of `TilesManager::instance()->invertedScreen()`. -/
def BaseTileTexture.setOwnTextureTileInfoFromQueue (info : TextureTileInfo)
    (invertedScreen : Bool) (t : BaseTileTexture) : BaseTileTexture :=
  { t with m_ownTextureTileInfo :=
      { m_x := info.m_x, m_y := info.m_y, m_scale := info.m_scale,
        m_painter := info.m_painter, m_picture := info.m_picture,
        m_inverted := invertedScreen } }

/-- `BaseTileTexture::readyFor` (lines 261-277); `invertedScreen` is the value
of `TilesManager::instance()->invertedScreen()`.  The pointer `info` is the
address of a member and never null. -/
def BaseTileTexture.readyFor (baseTile : BaseTile) (invertedScreen : Bool)
    (t : BaseTileTexture) : Bool :=
  decide (t.m_ownTextureTileInfo.m_x = baseTile.m_x)
    && decide (t.m_ownTextureTileInfo.m_y = baseTile.m_y)
    && decide (t.m_ownTextureTileInfo.m_scale = baseTile.m_scale)
    && decide (t.m_ownTextureTileInfo.m_painter = baseTile.m_painter)
    && decide (t.m_ownTextureTileInfo.m_inverted = invertedScreen)

/-- The accessor `TilesManager::invertedScreen()`.  It is declared in
`TilesManager.h`, which is not among the sources at hand; it reads the flag
`m_invertedScreen` that the constructor initialises (`TilesManager.cpp:95`). -/
def invertedScreen (w : World) : Bool :=
  w.manager.m_invertedScreen

/-- The setter of the same flag (`TilesManager.h`). -/
def setInvertedScreen (invert : Bool) (w : World) : World :=
  { w with manager := { w.manager with m_invertedScreen := invert } }

/-- `setOwnTextureTileInfoFromQueue` on the texture object `self` of the heap. -/
def setOwnTextureTileInfoFromQueue (self : TexId) (info : TextureTileInfo) (w : World) :
    World :=
  w.setTexture self
    ((w.textures self).setOwnTextureTileInfoFromQueue info (invertedScreen w))

/-- `readyFor` on the texture object `self` of the heap for the tile `baseTile`. -/
def readyFor (self : TexId) (baseTile : TileId) (w : World) : Bool :=
  (w.textures self).readyFor (w.tiles baseTile) (invertedScreen w)

/-! ## Allocation of the pools -/

/-- The cap on the base pool, `#define MAX_TEXTURE_ALLOCATION 51`. -/
def MAX_TEXTURE_ALLOCATION : Int := 51

/-- The size of the layer pool, `#define LAYER_TILES 50`. -/
def LAYER_TILES : Int := 50

/-- The manager the constructor leaves (`TilesManager.cpp:90-106`): no
texture, `m_maxTextureCount(0)`, `m_invertedScreen(false)`,
`m_drawRegistrationCount(0)` and an empty surface map. -/
def TilesManager.create : TilesManager :=
  { m_textures := [], m_availableTextures := [], m_tilesTextures := [],
    m_availableTilesTextures := [], m_maxTextureCount := 0,
    m_glWebViewStateMap := fun _ => none, m_drawRegistrationCount := 0,
    m_invertedScreen := false }

/-- The identity `new BaseTileTexture` returns: one that no texture of the two
pools has. -/
def freshTexId (w : World) : TexId :=
  (w.manager.m_textures ++ w.manager.m_tilesTextures).foldr max 0 + 1

/-- The first loop of `allocateTiles` (lines 113-123), run `n` times: create a
texture and append it to `m_textures`. -/
def allocateBaseTextures : Nat → World → World
  | 0, w => w
  | n + 1, w =>
    let w1 := w.setTexture (freshTexId w) BaseTileTexture.fresh
    allocateBaseTextures n
      { w1 with manager := { w1.manager with
          m_textures := w1.manager.m_textures ++ [freshTexId w] } }

/-- The second loop of `allocateTiles` (lines 128-138), run `n` times: create
a texture and append it to `m_tilesTextures`. -/
def allocateLayerTextures : Nat → World → World
  | 0, w => w
  | n + 1, w =>
    let w1 := w.setTexture (freshTexId w) BaseTileTexture.fresh
    allocateLayerTextures n
      { w1 with manager := { w1.manager with
          m_tilesTextures := w1.manager.m_tilesTextures ++ [freshTexId w] } }

/-- `TilesManager::allocateTiles` (lines 108-144).  A loop `for (i = 0; i < n;
i++)` with `n` negative or zero does not run. -/
def allocateTiles (w : World) : World :=
  let nbTexturesToAllocate := w.manager.m_maxTextureCount - w.manager.m_textures.length
  let w1 := allocateBaseTextures nbTexturesToAllocate.toNat w
  let nbLayersTexturesToAllocate := LAYER_TILES - w1.manager.m_tilesTextures.length
  allocateLayerTextures nbLayersTexturesToAllocate.toNat w1

/-- `TilesManager::setMaxTextureCount` (lines 321-338). -/
def setMaxTextureCount (max : Int) (w : World) : World :=
  if w.manager.m_maxTextureCount ≠ 0
      ∧ (max > MAX_TEXTURE_ALLOCATION ∨ max ≤ w.manager.m_maxTextureCount) then w
  else
    allocateTiles
      { w with manager := { w.manager with
          m_maxTextureCount := if max < MAX_TEXTURE_ALLOCATION then max
            else MAX_TEXTURE_ALLOCATION } }

/-! ## TiledTexture: the grid of a surface -/

/-- An `IntRect`: position and size, all `int`. -/
structure IntRect where
  x : Int
  y : Int
  width : Int
  height : Int
  deriving DecidableEq, Repr

/-- What `TiledTexture` reads from its `PaintedSurface` (not among the sources
at hand): `layer()`, `scale()`, and the rectangle `area` that lines 63-67 build
from `visibleArea()` and `scale()` in floating point, taken here as given. -/
structure PaintedSurface where
  layer : Option Nat
  scaledArea : IntRect
  scale : Scale
  deriving DecidableEq, Repr

/-- The fields of `TiledTexture` (`TiledTexture.cpp`). -/
structure TiledTexture where
  m_surface : Option PaintedSurface
  m_area : IntRect
  m_prevTileY : Int
  m_prevScale : Scale
  m_tiles : List TileId
  deriving DecidableEq, Repr

/-- The layer tile size, `#define LAYER_TILE_WIDTH 256` and
`LAYER_TILE_HEIGHT 256`, as the `int` of lines 80-81. -/
def LAYER_TILE_SIZE : Int := 256

/-- The spacing of single-precision floats around an `int` of magnitude `a`:
1 below 2^24, then doubling with every power of two. -/
def floatSpacing (a : Nat) : Nat :=
  if a < 16777216 then 1
  else if a < 33554432 then 2
  else if a < 67108864 then 4
  else if a < 134217728 then 8
  else if a < 268435456 then 16
  else if a < 536870912 then 32
  else if a < 1073741824 then 64
  else 128

/-- The conversion of an `int` to `float` (round to nearest, ties to even),
the value being an integer again: exact up to 2^24 in magnitude, a multiple of
the spacing beyond. -/
def floatOfInt (n : Int) : Int :=
  let a := n.natAbs
  let u := floatSpacing a
  let q := a / u
  let r := a % u
  let m := if 2 * r < u then q else if u < 2 * r then q + 1 else if q % 2 = 0 then q else q + 1
  Int.sign n * ((m * u : Nat) : Int)

/-- The value of `ceilf(n / (float) 256)` for an `int` `n`: the division of a
float by a power of two is exact, and so is `ceilf`. -/
def ceilfDivTile (n : Int) : Int :=
  -((-(floatOfInt n)) / LAYER_TILE_SIZE)

/-- The grid rectangle of lines 83-88.  `int / int` truncates toward zero;
`ceilf(right) - m_area.x()` is a difference of two integers below 2^24 in
magnitude, exact in `float` and in the conversion back to `int`.  (The `int`
sum `area.x() + area.width()` is taken not to overflow.) -/
def gridArea (area : IntRect) : IntRect :=
  { x := area.x.tdiv LAYER_TILE_SIZE,
    y := area.y.tdiv LAYER_TILE_SIZE,
    width := ceilfDivTile (area.x + area.width) - area.x.tdiv LAYER_TILE_SIZE,
    height := ceilfDivTile (area.y + area.height) - area.y.tdiv LAYER_TILE_SIZE }

/-- The inner loop of lines 106-114 for column `x`: the rows of the grid, top
to bottom when going down and bottom to top otherwise. -/
def prepareColumn (goingDown : Bool) (area : IntRect) (x : Int) : List (Int × Int) :=
  let rows := (List.range area.height.toNat).map fun j => (x, area.y + (j : Int))
  if goingDown then rows else rows.reverse

/-- The cells on which the loops of lines 105-115 call `prepareTile`, in the
order of the calls. -/
def prepareCells (goingDown : Bool) (area : IntRect) : List (Int × Int) :=
  ((List.range area.width.toNat).map fun i =>
    prepareColumn goingDown area (area.x + (i : Int))).flatten

/-- `TiledTexture::prepare` (lines 54-116) over a state `σ` of everything
outside the `TiledTexture` object.  The calls that leave the file are
parameters: `BaseTile::setUsedLevel`, `removeOperationsForFilter` with a
`ScaleFilter` of the given scale, and `prepareTile`. -/
def TiledTexture.prepare {σ : Type} (setUsedLevel : TileId → Int → σ → σ)
    (removeOperationsForFilter : Scale → σ → σ)
    (prepareTile : Bool → Int → Int → TiledTexture × σ → TiledTexture × σ)
    (repaint : Bool) (p : TiledTexture × σ) : TiledTexture × σ :=
  match p.1.m_surface with
  | none => p
  | some surface =>
    match surface.layer with
    | none => p
    | some _ =>
      let area := surface.scaledArea
      let s1 := p.1.m_tiles.foldl (fun s tile => setUsedLevel tile (-1) s) p.2
      if area.width = 0 ∧ area.height = 0 then
        ({ p.1 with m_area := { p.1.m_area with width := 0, height := 0 } }, s1)
      else
        let m_area := gridArea area
        let goingDown := decide (p.1.m_prevTileY < m_area.y)
        let s2 :=
          if surface.scale ≠ p.1.m_prevScale then removeOperationsForFilter surface.scale s1
          else s1
        (prepareCells goingDown m_area).foldl (fun q c => prepareTile repaint c.1 c.2 q)
          ({ p.1 with m_area := m_area, m_prevTileY := m_area.y, m_prevScale := surface.scale },
            s2)

/-- A sequence of `setMaxTextureCount` calls, first to last. -/
def setMaxTextureCounts (calls : List Int) (w : World) : World :=
  calls.foldl (fun w1 max => setMaxTextureCount max w1) w

/-- The test of `TiledTexture::draw` (lines 177-180) that the cell `(i, j)`
lies in the grid rectangle. -/
def IntRect.containsCell (g : IntRect) (i j : Int) : Prop :=
  i ≥ g.x ∧ i < g.x + g.width ∧ j ≥ g.y ∧ j < g.y + g.height

instance (g : IntRect) (i j : Int) : Decidable (g.containsCell i j) :=
  inferInstanceAs (Decidable (i ≥ g.x ∧ i < g.x + g.width ∧ j ≥ g.y ∧ j < g.y + g.height))

/-- The pixel square of the tile cell `(i, j)`, `[256 i, 256 (i + 1))` by
`[256 j, 256 (j + 1))`, has a pixel in common with the pixel-space area. -/
def IntRect.overlapsCell (area : IntRect) (i j : Int) : Prop :=
  LAYER_TILE_SIZE * i < area.x + area.width ∧ area.x < LAYER_TILE_SIZE * (i + 1) ∧
    LAYER_TILE_SIZE * j < area.y + area.height ∧ area.y < LAYER_TILE_SIZE * (j + 1)

instance (area : IntRect) (i j : Int) : Decidable (area.overlapsCell i j) :=
  inferInstanceAs (Decidable
    (LAYER_TILE_SIZE * i < area.x + area.width ∧ area.x < LAYER_TILE_SIZE * (i + 1) ∧
      LAYER_TILE_SIZE * j < area.y + area.height ∧ area.y < LAYER_TILE_SIZE * (j + 1)))

/-! ## BaseTile: the methods a tile set calls -/

/-- Modelled from the spec: the constructor `BaseTile::BaseTile(bool)`, whose
body (`BaseTile.cpp`) is not among the sources at hand.  A tile is created
holding no texture ("the tile remains without a texture") and with the layer
flag it is given (`BaseTile.h:64`).  The spec does not say what the other
fields start as; the constructor takes only the flag, so they are the same for
every tile it builds: the parameter `init`. -/
def BaseTile.create (init : BaseTile) (isLayerTile : Bool) : BaseTile :=
  { init with m_texture := none, m_isLayerTile := isLayerTile }

/-- Modelled from the spec: `BaseTile::setContents` (`BaseTile.cpp`, not at
hand), "binds identity to this cell": the painter, the coordinates and the
scale of the tile become the ones given. -/
def BaseTile.setContents (painter : PainterId) (x y : Int) (scale : Scale) (b : BaseTile) :
    BaseTile :=
  { b with m_painter := some painter, m_x := x, m_y := y, m_scale := scale }

/-- Modelled from the spec: `BaseTile::fullInval` (`BaseTile.cpp`, not at
hand), "equivalent to mark_dirty with the whole tile region", and `mark_dirty`
"sets dirty = true". -/
def BaseTile.fullInval (b : BaseTile) : BaseTile :=
  { b with m_dirty := true }

/-- Modelled from the spec: `BaseTile::reserveTexture` (`BaseTile.cpp`, not at
hand), "asks the manager for a texture; on success, writes it into texture". -/
def reserveTexture (rm : RemoveTexture) (tile : TileId) (w : World) : Option World :=
  match getAvailableTexture rm tile w with
  | none => none
  | some (none, w1) => some w1
  | some (some texture, w1) =>
    some (w1.setTile tile { w1.tiles tile with m_texture := some texture })

/-- Modelled from the spec: `BaseTile::setUsedLevel` (`BaseTile.cpp`, not at
hand).  The used level is part of the tile's state and is the integer the
manager reads on the texture ("written by TileSet during prepare"): the call
stores the level in the tile and in the texture the tile holds, if any. -/
def setUsedLevel (tile : TileId) (level : Int) (w : World) : World :=
  let w1 :=
    match (w.tiles tile).m_texture with
    | some texture => w.setUsedLevel texture level
    | none => w
  w1.setTile tile { w1.tiles tile with m_usedLevel := level }

/-- Modelled from the spec: `BaseTile::isTileReady` (`BaseTile.cpp`, not at
hand), "true iff texture present, texture's recorded (x,y,scale,painter,
inverted) match this tile, and not dirty"; the match is `readyFor`. -/
def isTileReady (tile : TileId) (w : World) : Bool :=
  match (w.tiles tile).m_texture with
  | some texture => readyFor texture tile w && !(w.tiles tile).m_dirty
  | none => false

/-! ## TiledTexture: the tiles of a surface -/

/-- A `PaintTileOperation(tile, m_surface)` as built at line 142. -/
structure PaintTileOperation where
  m_tile : TileId
  m_surface : PaintedSurface
  deriving DecidableEq, Repr

/-- What `prepare` works on outside the `TiledTexture` object: the objects of
`World`, the operations handed to `TilesManager::scheduleOperation` so far (in
order), and the identity that the next `new BaseTile` returns. -/
structure GLThread where
  world : World
  operations : List PaintTileOperation
  nextTile : TileId

/-- `TiledTexture::getTile` (lines 147-155): the first tile of the set with
the coordinates `(x, y)`. -/
def TiledTexture.getTile (tiles : TileId → BaseTile) (x y : Int) (t : TiledTexture) :
    Option TileId :=
  t.m_tiles.find? fun tile => decide ((tiles tile).m_x = x ∧ (tiles tile).m_y = y)

/-- Lines 120-124 of `prepareTile`: the tile `getTile` finds, or else a new
layer tile appended to the set.  The answer is the tile. -/
def TiledTexture.locateTile (init : BaseTile) (x y : Int) (p : TiledTexture × GLThread) :
    TileId × TiledTexture × GLThread :=
  match p.1.getTile p.2.world.tiles x y with
  | some tile => (tile, p.1, p.2)
  | none =>
    (p.2.nextTile, { p.1 with m_tiles := p.1.m_tiles ++ [p.2.nextTile] },
      { p.2 with
        world := p.2.world.setTile p.2.nextTile (BaseTile.create init true),
        nextTile := p.2.nextTile + 1 })

/-- Lines 129-144 of `prepareTile`, for the tile `tile` that holds a texture:
bind the contents, claim the tile for this frame, and schedule a paint
operation if one is needed.  `this` is the tile set as a `TilePainter`;
`isDirty` and `isRepaintPending` read `m_dirty` and `m_repaintPending`. -/
def TiledTexture.paintTile (this : PainterId) (surface : PaintedSurface) (repaint : Bool)
    (x y : Int) (tile : TileId) (g : GLThread) : GLThread :=
  let w3 := g.world.setTile tile ((g.world.tiles tile).setContents this x y surface.scale)
  let w4 := setUsedLevel tile 0 w3
  let w5 := if repaint then w4.setTile tile (w4.tiles tile).fullInval else w4
  let schedule := !isTileReady tile w5 || (repaint || (w5.tiles tile).m_dirty)
  if schedule && surface.layer.isSome && !(w5.tiles tile).m_repaintPending then
    { g with world := w5, operations := g.operations ++ [⟨tile, surface⟩] }
  else { g with world := w5 }

/-- `TiledTexture::prepareTile` (lines 118-145).  The call does not return
(`none`) when `getAvailableTexture` does not, or when `m_surface` is null at
line 129. -/
def TiledTexture.prepareTile (rm : RemoveTexture) (init : BaseTile) (this : PainterId)
    (repaint : Bool) (x y : Int) (p : TiledTexture × GLThread) :
    Option (TiledTexture × GLThread) :=
  let l := TiledTexture.locateTile init x y p
  match reserveTexture rm l.1 l.2.2.world with
  | none => none
  | some w2 =>
    if ((w2.tiles l.1).m_texture).isNone then some (l.2.1, { l.2.2 with world := w2 })
    else
      match l.2.1.m_surface with
      | none => none
      | some surface =>
        some (l.2.1,
          TiledTexture.paintTile this surface repaint x y l.1 { l.2.2 with world := w2 })

/-- Modelled from the spec: `TilesManager::removeOperationsForFilter` with a
`ScaleFilter` (neither is among the sources at hand), "cancel pending paint
ops whose recorded scale no longer matches": the operations recorded at the
given scale stay, in their order.  The scale an operation records is the one
of its surface when it was built. -/
def removeOperationsForFilter (scale : Scale) (g : GLThread) : GLThread :=
  { g with operations := g.operations.filter fun op => decide (op.m_surface.scale = scale) }

/-- One call of `prepareTile` within a run of `prepare`: a run in which some
call did not return has no state (`none`) from then on. -/
def prepareTileStep (rm : RemoveTexture) (init : BaseTile) (this : PainterId) (repaint : Bool)
    (x y : Int) (q : TiledTexture × Option GLThread) : TiledTexture × Option GLThread :=
  match q.2 with
  | none => q
  | some g =>
    match TiledTexture.prepareTile rm init this repaint x y (q.1, g) with
    | none => (q.1, none)
    | some r => (r.1, some r.2)

/-- The `prepare` of the source: `TiledTexture.prepare` with the calls that
leave the file filled in. -/
def prepare (rm : RemoveTexture) (init : BaseTile) (this : PainterId) (repaint : Bool)
    (p : TiledTexture × Option GLThread) : TiledTexture × Option GLThread :=
  TiledTexture.prepare
    (fun tile level s => s.map fun g => { g with world := setUsedLevel tile level g.world })
    (fun scale s => s.map (removeOperationsForFilter scale))
    (prepareTileStep rm init this) repaint p

/-- `TiledTexture::draw` (lines 157-195); `isTileReady` answers
`tile->isTileReady()` and `tiles` gives the tile objects.  `m_surface` is
dereferenced at line 171, past the test of the area: with a null surface the
call does not return (`none`).  The compositing call `tile->draw` of line 188
writes none of the fields modelled here. -/
def TiledTexture.draw (isTileReady : TileId → Bool) (tiles : TileId → BaseTile)
    (t : TiledTexture) : Option Bool :=
  if t.m_area.width = 0 ∨ t.m_area.height = 0 then some false
  else
    match t.m_surface with
    | none => none
    | some _ =>
      some (t.m_tiles.foldl
        (fun askRedraw tile =>
          if t.m_area.containsCell (tiles tile).m_x (tiles tile).m_y then
            askRedraw || !isTileReady tile
          else askRedraw)
        false)

/-- The `draw` of the source on the objects of a world. -/
def draw (t : TiledTexture) (w : World) : Option Bool :=
  t.draw (fun tile => isTileReady tile w) w.tiles

/-- `TilesManager::registerGLWebViewState` (lines 360-365); the counter is an
`unsigned int`. -/
def registerGLWebViewState (state : StateId) (w : World) : World :=
  { w with manager := { w.manager with
      m_glWebViewStateMap :=
        Function.update w.manager.m_glWebViewStateMap state
          (some w.manager.m_drawRegistrationCount),
      m_drawRegistrationCount := (w.manager.m_drawRegistrationCount + 1) % (UINT_MAX + 1) } }

/-! ## Sequences of calls on a texture -/

/-- A call on a texture by either thread: the producer calls of the paint
worker and the ownership calls of the GL thread, `setOwner` without force. -/
inductive TextureCall where
  | producerLock
  | producerRelease
  | producerReleaseAndSwap
  | producerUpdate (width height : Int)
  | acquire (owner : Option TileId) (force : Bool)
  | tryAcquire (owner : TileId)
  | setOwner (owner : Option TileId)
  | release (owner : Option TileId)
  deriving DecidableEq, Repr

/-- Run one call on the texture `self`; `none` when the call does not return. -/
def runTextureCall (rm : RemoveTexture) (self : TexId) (w : World) : TextureCall → Option World
  | TextureCall.producerLock => some (w.setTexture self (w.textures self).producerLock)
  | TextureCall.producerRelease => some (w.setTexture self (w.textures self).producerRelease)
  | TextureCall.producerReleaseAndSwap =>
    some (w.setTexture self (w.textures self).producerReleaseAndSwap)
  | TextureCall.producerUpdate width height =>
    some (w.setTexture self ((w.textures self).producerUpdate width height).2)
  | TextureCall.acquire owner force => (acquire rm self owner force w).map Prod.snd
  | TextureCall.tryAcquire owner => (tryAcquire rm self owner w).map Prod.snd
  | TextureCall.setOwner owner => (setOwner rm self owner false w).map Prod.snd
  | TextureCall.release owner => some (release self owner w).2

/-- Run a sequence of calls, each on the texture it names, first to last. -/
def runTextureCalls (rm : RemoveTexture) : List (TexId × TextureCall) → World → Option World
  | [], w => some w
  | c :: cs, w =>
    match runTextureCall rm c.1 w c.2 with
    | none => none
    | some w1 => runTextureCalls rm cs w1

/-- The tests of lines 242, 246 and 250 that let the layer scan try `acquire`
on a texture for the tile `owner`: the texture is unowned, or its used level
is not 0, or its recorded scale is not the scale of the tile. -/
def layerCandidate (w : World) (owner : TileId) (texture : TexId) : Prop :=
  (w.textures texture).m_owner = none ∨ (w.textures texture).m_usedLevel ≠ 0 ∨
    (w.textures texture).scale ≠ (w.tiles owner).m_scale

instance (w : World) (owner : TileId) (texture : TexId) :
    Decidable (layerCandidate w owner texture) :=
  inferInstanceAs (Decidable ((w.textures texture).m_owner = none ∨
    (w.textures texture).m_usedLevel ≠ 0 ∨
    (w.textures texture).scale ≠ (w.tiles owner).m_scale))

/-! ## Concrete states used to exercise the definitions -/

/-- A tile of surface 7 at cell (0, 0) and scale 1 that holds no texture. -/
def exampleTile (layer : Bool) : BaseTile :=
  { m_glWebViewState := some 7, m_painter := none, m_x := 0, m_y := 0, m_usedLevel := -1,
    m_texture := none, m_scale := 1, m_dirty := true, m_repaintPending := false,
    m_usable := true, m_isLayerTile := layer }

/-- An owner that always gives its texture up, forgetting it. -/
def removeTextureAlways : RemoveTexture :=
  fun b tx => (true, if b.m_texture = some tx then { b with m_texture := none } else b)

/-- An owner that never gives its texture up. -/
def removeTextureNever : RemoveTexture :=
  fun b _ => (false, b)

/-- A manager with base pool `[0, 1]` and layer pool `[10, 11]`, right after
both gathers, with surface 7 registered at draw count 0. -/
def exampleManager : TilesManager :=
  { m_textures := [0, 1], m_availableTextures := [0, 1],
    m_tilesTextures := [10, 11], m_availableTilesTextures := [10, 11],
    m_maxTextureCount := 2,
    m_glWebViewStateMap := fun s => if s = 7 then some 0 else none,
    m_drawRegistrationCount := 1, m_invertedScreen := false }

/-- Every texture is fresh; tiles 1 and 2 are base tiles, tiles 3, 4, ... are
layer tiles; no tile holds a texture. -/
def exampleWorld : World :=
  { textures := fun _ => BaseTileTexture.fresh,
    tiles := fun i => exampleTile (decide (3 ≤ i)),
    manager := exampleManager, trace := [] }

/-- A base pool of the single texture 0, owned by base tile 2 at used level 2;
layer textures 10 and 11 are owned by layer tiles 4 and 5 at used level 2;
tiles 2 and 4 have a repaint pending, tile 5 has none. -/
def ownedWorld : World :=
  { textures := fun t =>
      if t = 0 then { BaseTileTexture.fresh with m_usedLevel := 2, m_owner := some 2 }
      else if t = 10 then { BaseTileTexture.fresh with m_usedLevel := 2, m_owner := some 4 }
      else if t = 11 then { BaseTileTexture.fresh with m_usedLevel := 2, m_owner := some 5 }
      else BaseTileTexture.fresh,
    tiles := fun i =>
      if i = 2 then { exampleTile false with m_texture := some 0, m_repaintPending := true }
      else if i = 4 then { exampleTile true with m_texture := some 10, m_repaintPending := true }
      else if i = 5 then { exampleTile true with m_texture := some 11 }
      else exampleTile (decide (3 ≤ i)),
    manager := { exampleManager with m_textures := [0], m_availableTextures := [0] },
    trace := [] }

/-- Base tiles only, of surface 7 (draw count 0) except tile 5, of surface 8
(draw count 1).  The base snapshot is `[0, 1, 2]`: texture 0 at used level 1
owned by tile 4, texture 1 at used level 3 owned by tile 5, texture 2 at used
level 3 owned by tile 6. -/
def rankedWorld : World :=
  { textures := fun t =>
      if t = 0 then { BaseTileTexture.fresh with m_usedLevel := 1, m_owner := some 4 }
      else if t = 1 then { BaseTileTexture.fresh with m_usedLevel := 3, m_owner := some 5 }
      else if t = 2 then { BaseTileTexture.fresh with m_usedLevel := 3, m_owner := some 6 }
      else BaseTileTexture.fresh,
    tiles := fun i =>
      if i = 5 then { exampleTile false with m_glWebViewState := some 8 }
      else exampleTile false,
    manager := { exampleManager with
      m_textures := [0, 1, 2], m_availableTextures := [0, 1, 2],
      m_glWebViewStateMap := fun s => if s = 7 then some 0 else if s = 8 then some 1 else none,
      m_drawRegistrationCount := 2 },
    trace := [] }

/-- As `rankedWorld`, but texture 1 is unused (used level -1, no owner) and so
is texture 2. -/
def mixedWorld : World :=
  { rankedWorld with
    textures := fun t =>
      if t = 0 then { BaseTileTexture.fresh with m_usedLevel := 5, m_owner := some 4 }
      else BaseTileTexture.fresh }

/-- The state in which tile 1 asks a second time within one frame: tile 1 has
asked in `exampleWorld`, and `BaseTile::reserveTexture` has stored the texture
it got in the tile's `m_texture`. -/
def reservedWorld : World :=
  match getAvailableTexture removeTextureAlways 1 exampleWorld with
  | some (some tx, w1) => w1.setTile 1 { w1.tiles 1 with m_texture := some tx }
  | _ => exampleWorld

/-- As `ownedWorld`, with a paint in flight on texture 0: the paint worker has
called `producerLock` on it. -/
def busyWorld : World :=
  ownedWorld.setTexture 0 (ownedWorld.textures 0).producerLock

/-- As `busyWorld`, after tile 2 has called `release` on its busy texture 0:
a delayed release by tile 2 is recorded. -/
def delayedWorld : World :=
  (release 0 (some 2) busyWorld).2

/-- A world whose manager is as the constructor leaves it. -/
def createdWorld : World :=
  { exampleWorld with manager := TilesManager.create }

/-- A tile set without tiles whose surface, with a layer, shows an area of
width 0 and height 5 at pixel (10, 0). -/
def zeroWidthTiledTexture : TiledTexture :=
  { m_surface := some { layer := some 1, scaledArea := ⟨10, 0, 0, 5⟩, scale := 1 },
    m_area := ⟨0, 0, 0, 0⟩, m_prevTileY := 0, m_prevScale := 1, m_tiles := [] }

/-- As `exampleWorld` with an empty layer snapshot, as it is before the first
`gatherLayerTextures` and late in a frame, when every texture of the snapshot
has been handed out. -/
def exhaustedWorld : World :=
  { exampleWorld with manager := { exampleManager with m_availableTilesTextures := [] } }

/-- The GL thread in `exhaustedWorld` with nothing scheduled; the next tile
object gets the identity 100. -/
def exhaustedThread : GLThread :=
  { world := exhaustedWorld, operations := [], nextTile := 100 }

/-- A tile set without tiles whose surface, with a layer, shows the area of
768 by 256 pixels at (0, 0) at scale 1: the three cells (0, 0), (1, 0), (2, 0). -/
def threeCellTiledTexture : TiledTexture :=
  { m_surface := some { layer := some 1, scaledArea := ⟨0, 0, 768, 256⟩, scale := 1 },
    m_area := ⟨0, 0, 0, 0⟩, m_prevTileY := 0, m_prevScale := 1, m_tiles := [] }

/-- A state for the constructor of `BaseTile` to leave: the coordinates
(-1, -1), dirty, no repaint pending. -/
def unboundTile : BaseTile :=
  { exampleTile true with m_glWebViewState := none, m_x := -1, m_y := -1 }

/-- The start of a frame in a new manager: the pools are allocated for one
base texture, surface 7 is registered, and the base snapshot is taken. -/
def frameWorld : World :=
  gatherTextures (registerGLWebViewState 7 (setMaxTextureCount 1 createdWorld))

/-- A tile set with the layer tiles 3 and 4 of `exampleWorld`, both at (0, 0),
whose grid is the single cell (0, 0). -/
def oneCellTiledTexture : TiledTexture :=
  { m_surface := some { layer := some 1, scaledArea := ⟨0, 0, 256, 256⟩, scale := 1 },
    m_area := ⟨0, 0, 1, 1⟩, m_prevTileY := 0, m_prevScale := 1, m_tiles := [3, 4] }

/-- The GL thread at the start of a frame in `exampleWorld`, nothing
scheduled; the next tile object gets the identity 100. -/
def exampleThread : GLThread :=
  { world := exampleWorld, operations := [], nextTile := 100 }

/-- The world after the new tile 100, built as `unboundTile`, has reserved a
texture in `exampleWorld`. -/
def reservedLayerWorld : World :=
  match reserveTexture removeTextureAlways 100
      (exampleWorld.setTile 100 (BaseTile.create unboundTile true)) with
  | some w => w
  | none => exampleWorld

/-- The start of a frame in a new manager with a base pool of two textures:
the pools are allocated, surface 7 is registered, and the base snapshot is
taken. -/
def twoTextureFrameWorld : World :=
  gatherTextures (registerGLWebViewState 7 (setMaxTextureCount 2 createdWorld))

/-- An owner that refuses when first asked and gives its texture up when asked
again: it keeps count in `m_usable`. -/
def removeTextureOnSecondAsk : RemoveTexture :=
  fun b tx =>
    if b.m_usable then (false, { b with m_usable := false })
    else (true, if b.m_texture = some tx then { b with m_texture := none } else b)

/-! ## Predicates used in the proofs -/

/-- What one non-forcing attempt to acquire `self` for the tile `c` does to
the world, `b` being its answer.  It holds of `acquire` and of a guarded
`acquire` whose guard fails (then `b = false` and nothing changes). -/
structure AttemptOutcome (rm : RemoveTexture) (tex : TexId) (c : TileId) (w : World)
    (b : Bool) (w' : World) : Prop where
  manager_eq : w'.manager = w.manager
  others : ∀ u, u ≠ tex → w'.textures u = w.textures u
  fail_same : b = false → w'.textures = w.textures
  ok_owner : b = true → (w'.textures tex).m_owner = some c
  level_eq : (w'.textures tex).m_usedLevel = (w.textures tex).m_usedLevel
  busy_eq : (w'.textures tex).m_busy = (w.textures tex).m_busy
  info_eq : (w'.textures tex).m_ownTextureTileInfo = (w.textures tex).m_ownTextureTileInfo
  tiles : ∀ p, w'.tiles p ≠ w.tiles p →
    (w.textures tex).m_owner = some p ∧ p ≠ c ∧ (w.textures tex).m_busy = false
  trace_ext : ∃ evs, w'.trace = w.trace ++ evs
  steal : b = true → ∀ o, (w.textures tex).m_owner = some o → o ≠ c →
    (rm (w.tiles o) tex).1 = true ∧
    w'.trace = w.trace ++ [Event.acquire tex (some c) false, Event.removeTexture o tex true]

/-- The answer of a non-forcing `acquire` in the two situations where the
owner's `removeTexture` is not consulted, and the shape of its record: one
entry into `acquire`, followed by no further entry. -/
structure AcquireAnswer (tex : TexId) (c : TileId) (w : World) (b : Bool) (w' : World) :
    Prop where
  free_ok : (w.textures tex).m_owner = none → (w.textures tex).m_busy = false → b = true
  busy_fail : (w.textures tex).m_busy = true → (w.textures tex).m_owner ≠ some c → b = false
  trace_shape : ∃ evs, w'.trace = w.trace ++ Event.acquire tex (some c) false :: evs ∧
    acquireTargets evs = []

/-- The relation between the world `w` in which a layer scan starts and a
world `wi` met after some unsuccessful attempts. -/
structure ScanInv (owner : TileId) (w wi : World) : Prop where
  owner_tile : wi.tiles owner = w.tiles owner
  textures_eq : wi.textures = w.textures
  manager_eq : wi.manager = w.manager
  pending_tiles : ∀ p, (w.tiles p).m_repaintPending = true → wi.tiles p = w.tiles p
  tiles_owned : ∀ p, wi.tiles p ≠ w.tiles p → ∃ u, (w.textures u).m_owner = some p
  trace_ext : ∃ evs, wi.trace = w.trace ++ evs

/-- What a layer scan that returns the texture `t` guarantees, relative to
the world `w` in which it started. -/
structure ScanHit (rm : RemoveTexture) (owner : TileId) (w : World) (l : List TexId)
    (t : TexId) (w' : World) : Prop where
  mem : t ∈ l
  owner_tile : w'.tiles owner = w.tiles owner
  manager_eq : w'.manager = w.manager
  owner_eq : (w'.textures t).m_owner = some owner
  others : ∀ u, u ≠ t → w'.textures u = w.textures u
  level_eq : (w'.textures t).m_usedLevel = (w.textures t).m_usedLevel
  not_pending : ownerRepaintPending w t = false
  tiles_owned : ∀ p, w'.tiles p ≠ w.tiles p → ∃ u, (w.textures u).m_owner = some p
  trace_ext : ∃ evs, w'.trace = w.trace ++ evs
  steal : ∀ o, (w.textures t).m_owner = some o → o ≠ owner →
    (∃ b, (rm b t).1 = true) ∧
      ∃ evs, w'.trace = w.trace ++ evs ++ [Event.removeTexture o t true]

/-- What a call of `getAvailableTexture` that returns the texture `t`
guarantees. -/
structure Hit (rm : RemoveTexture) (owner : TileId) (w : World) (t : TexId) (w' : World) :
    Prop where
  owner_tile : w'.tiles owner = w.tiles owner
  owner_eq : (w'.textures t).m_owner = some owner
  others : ∀ u, u ≠ t → w'.textures u = w.textures u
  mem : t ∈ availableSnapshot w owner
  layer : (w.tiles owner).m_isLayerTile = true →
    w'.manager = { w.manager with
      m_availableTilesTextures := w.manager.m_availableTilesTextures.erase t }
  base : (w.tiles owner).m_isLayerTile = false →
    w'.manager = { w.manager with m_availableTextures := w.manager.m_availableTextures.erase t }
  level_zero : (w.tiles owner).m_isLayerTile = false ∨ ownsItsTexture w owner = some t →
    (w'.textures t).m_usedLevel = 0
  level_kept : (w.tiles owner).m_isLayerTile = true → ownsItsTexture w owner = none →
    (w'.textures t).m_usedLevel = (w.textures t).m_usedLevel
  layer_not_pending : (w.tiles owner).m_isLayerTile = true →
    ∀ o, (w.textures t).m_owner = some o → o ≠ owner → (w.tiles o).m_repaintPending = false
  tiles_owned : ∀ p, w'.tiles p ≠ w.tiles p → ∃ u, (w.textures u).m_owner = some p
  steal : ∀ o, (w.textures t).m_owner = some o → o ≠ owner →
    (∃ b, (rm b t).1 = true) ∧
      ∃ evs, w'.trace = w.trace ++ evs ++ [Event.removeTexture o t true]

/-- The running choice of the base scan after the textures `S`: the chosen
texture, if any, carries the recorded level and draw count, and no texture of
`S` beats the recorded pair. -/
structure ScanAcc (w : World) (S : List TexId) (acc : Option TexId × Int × Nat) : Prop where
  chosen : ∀ f, acc.1 = some f →
    f ∈ S ∧ (w.textures f).m_usedLevel = acc.2.1 ∧ textureDrawCount w f = some acc.2.2
  bound : ∀ u ∈ S, ∀ du, textureDrawCount w u = some du →
    (w.textures u).m_usedLevel < acc.2.1 ∨ ((w.textures u).m_usedLevel = acc.2.1 ∧ acc.2.2 ≤ du)

/-- The two available snapshots hold pairwise distinct textures and have no
texture in common. -/
structure SnapshotsDistinct (m : TilesManager) : Prop where
  base : m.m_availableTextures.Nodup
  layer : m.m_availableTilesTextures.Nodup
  apart : ∀ x ∈ m.m_availableTextures, x ∉ m.m_availableTilesTextures

/-- The state of a texture that is busy and owned by `A`, any pending
delayed release being one asked by `A`. -/
structure BusyOwned (w : World) (tex : TexId) (A : TileId) : Prop where
  owner_eq : (w.textures tex).m_owner = some A
  busy : (w.textures tex).m_busy = true
  delayed : (w.textures tex).m_delayedRelease = true →
    (w.textures tex).m_delayedReleaseOwner = some A

/-- The delayed-release owner is recorded only while a delayed release is:
when `m_delayedRelease` is false, `m_delayedReleaseOwner` is null.  The
constructor establishes it and every operation keeps it. -/
def BaseTileTexture.NoStaleDelayedOwner (t : BaseTileTexture) : Prop :=
  t.m_delayedRelease = false → t.m_delayedReleaseOwner = none

instance (t : BaseTileTexture) : Decidable t.NoStaleDelayedOwner :=
  inferInstanceAs (Decidable (t.m_delayedRelease = false → t.m_delayedReleaseOwner = none))

/-- The state of a tile set late in a frame in which the layer snapshot is
empty and no tile of the set was ever given a texture: every tile is as the
constructor left it. -/
structure Starved (init : BaseTile) (tt : TiledTexture) (g : GLThread) : Prop where
  exhausted : g.world.manager.m_availableTilesTextures = []
  unbound : ∀ tile ∈ tt.m_tiles, g.world.tiles tile = BaseTile.create init true

/-- `acquire` succeeds for the tile `owner` on the texture `t` in the world `w`
and leaves `w1`: the call made in `w` answers true; or it answers false, `t`
passes the used-level test of line 246 and the scale test of line 250 alike,
and the call the scan then makes again, in the world the first call left,
answers true. -/
def AcquireSucceeds (rm : RemoveTexture) (owner : TileId) (t : TexId) (w w1 : World) : Prop :=
  acquire rm t (some owner) false w = some (true, w1) ∨
    ∃ wj, acquire rm t (some owner) false w = some (false, wj) ∧
      (w.textures t).m_usedLevel ≠ 0 ∧ (w.textures t).scale ≠ (w.tiles owner).m_scale ∧
      acquire rm t (some owner) false wj = some (true, w1)

/-- The scan started in `w` takes the texture `t` that follows the textures
`pre` in the snapshot, and leaves `w1`: the scan of `pre` takes none and ends
in the world `wp`, in which the owner of `t`, if any, has no repaint pending
and `t` meets one of the three tests, and `acquire` on `t` succeeds from `wp`. -/
def LayerTaken (rm : RemoveTexture) (owner : TileId) (w : World) (pre : List TexId)
    (t : TexId) (w1 : World) : Prop :=
  ∃ wp, layerScan rm owner pre w = some (none, wp) ∧ ownerRepaintPending wp t = false ∧
    layerCandidate wp owner t ∧ AcquireSucceeds rm owner t wp w1

/-- The scan started in `w` passes over the texture `u` that follows the
textures `pre` in the snapshot: the scan of `pre` takes none and ends in the
world `wu`, in which the owner of `u` has a repaint pending, or `u` meets none
of the three tests, or `acquire` on `u` does not succeed from `wu`. -/
def LayerPassed (rm : RemoveTexture) (owner : TileId) (w : World) (pre : List TexId)
    (u : TexId) : Prop :=
  ∃ wu, layerScan rm owner pre w = some (none, wu) ∧
    (ownerRepaintPending wu u = true ∨ ¬ layerCandidate wu owner u ∨
      ¬ ∃ w1, AcquireSucceeds rm owner u wu w1)

/-- The flags of a delayed release agree: while one is pending the texture is
busy and the recorded owner is the current owner; while none is pending no
owner is recorded. -/
structure BaseTileTexture.DelayedReleaseSound (t : BaseTileTexture) : Prop where
  busy : t.m_delayedRelease = true → t.m_busy = true
  owner_eq : t.m_delayedRelease = true → t.m_delayedReleaseOwner = t.m_owner
  no_stale : t.m_delayedRelease = false → t.m_delayedReleaseOwner = none

/-! ## Frame properties of the ownership calls -/

theorem acquire_false_spec_aux (rm : RemoveTexture) (self : TexId) (c : TileId) (w : World)
    (r : Option (Bool × World)) (h : acquire rm self (some c) false w = r) :
    ∃ b w', r = some (b, w') ∧ AttemptOutcome rm self c w b w' ∧ AcquireAnswer self c w b w' := by
  simp only [acquire, setOwner, World.log, Bool.and_false, Bool.false_eq_true, if_false] at h
  split at h
  · split at h
    · subst h
      refine ⟨_, _, rfl, ?_, ?_⟩
      all_goals
        constructor <;> simp_all [World.log, World.setTexture, Function.update, acquireTargets]
    · subst h
      refine ⟨_, _, rfl, ?_, ?_⟩
      all_goals
        constructor <;> simp_all [World.log, World.setTexture, Function.update, acquireTargets]
  · split at h
    · split at h
      · split at h
        · split at h
          · subst h
            refine ⟨_, _, rfl, ?_, ?_⟩
            all_goals
              constructor <;>
                simp_all [World.log, World.setTexture, World.setTile, Function.update, acquireTargets]
          · subst h
            refine ⟨_, _, rfl, ?_, ?_⟩
            all_goals
              constructor <;>
                simp_all [World.log, World.setTexture, World.setTile, Function.update, acquireTargets]
        · subst h
          refine ⟨_, _, rfl, ?_, ?_⟩
          all_goals
            constructor <;> simp_all [World.log, World.setTexture, World.setTile, Function.update, acquireTargets]
      · subst h
        refine ⟨_, _, rfl, ?_, ?_⟩
        all_goals
          constructor <;> simp_all [World.log, World.setTexture, World.setTile, Function.update, acquireTargets]
    · subst h
      refine ⟨_, _, rfl, ?_, ?_⟩
      all_goals
        constructor <;> simp_all [World.log, World.setTexture, World.setTile, Function.update, acquireTargets]

/-- A non-forcing `acquire` always returns. -/
theorem acquire_false_spec (rm : RemoveTexture) (self : TexId) (c : TileId) (w : World) :
    ∃ b w', acquire rm self (some c) false w = some (b, w') ∧
      AttemptOutcome rm self c w b w' ∧ AcquireAnswer self c w b w' :=
  acquire_false_spec_aux rm self c w _ rfl

theorem attemptOutcome_unchanged (rm : RemoveTexture) (self : TexId) (c : TileId) (w : World) :
    AttemptOutcome rm self c w false w := by
  constructor <;> simp

/-- A guarded `acquire` always returns. -/
theorem guardedAcquire_spec (rm : RemoveTexture) (cond : Bool) (self : TexId) (c : TileId)
    (w : World) :
    ∃ b w', guardedAcquire rm cond self c w = some (b, w') ∧ AttemptOutcome rm self c w b w' := by
  cases cond
  · exact ⟨false, w, by simp [guardedAcquire], attemptOutcome_unchanged rm self c w⟩
  · obtain ⟨b, w', h, ho, _⟩ := acquire_false_spec rm self c w
    exact ⟨b, w', by simpa [guardedAcquire] using h, ho⟩

theorem scanInv_start (owner : TileId) (w : World) : ScanInv owner w w :=
  ⟨rfl, rfl, rfl, fun _ _ => rfl, fun _ h => absurd rfl h, ⟨[], by simp⟩⟩

theorem scanInv_pending {owner : TileId} {w wi : World} (hi : ScanInv owner w wi) (t : TexId)
    (h : ownerRepaintPending wi t = false) : ownerRepaintPending w t = false := by
  unfold ownerRepaintPending at h ⊢
  rw [hi.textures_eq] at h
  cases ho : (w.textures t).m_owner with
  | none => rfl
  | some o =>
    rw [ho] at h
    simp only at h ⊢
    by_contra hp
    have hp' : (w.tiles o).m_repaintPending = true := by simpa using hp
    rw [hi.pending_tiles o hp'] at h
    simp [hp'] at h

theorem scanInv_step {rm : RemoveTexture} {w wi w1 : World} {t : TexId} {c : TileId}
    (hi : ScanInv c w wi) (hp : ownerRepaintPending w t = false)
    (ha : AttemptOutcome rm t c wi false w1) : ScanInv c w w1 := by
  refine ⟨?_, ?_, ?_, ?_, ?_, ?_⟩
  · by_cases hch : w1.tiles c = wi.tiles c
    · rw [hch, hi.owner_tile]
    · exact absurd rfl (ha.tiles c hch).2.1
  · rw [ha.fail_same rfl, hi.textures_eq]
  · rw [ha.manager_eq, hi.manager_eq]
  · intro p hpp
    by_cases hch : w1.tiles p = wi.tiles p
    · rw [hch, hi.pending_tiles p hpp]
    · exfalso
      have h1 := (ha.tiles p hch).1
      rw [hi.textures_eq] at h1
      simp [ownerRepaintPending, h1, hpp] at hp
  · intro p hne
    by_cases hch : w1.tiles p = wi.tiles p
    · exact hi.tiles_owned p (by rwa [hch] at hne)
    · have h1 := (ha.tiles p hch).1
      rw [hi.textures_eq] at h1
      exact ⟨t, h1⟩
  · obtain ⟨e1, h1⟩ := hi.trace_ext
    obtain ⟨e2, h2⟩ := ha.trace_ext
    exact ⟨e1 ++ e2, by rw [h2, h1, List.append_assoc]⟩

theorem scanHit_of_attempt {rm : RemoveTexture} {w wi w1 : World} {t : TexId} {c : TileId}
    (l : List TexId) (hi : ScanInv c w wi) (hp : ownerRepaintPending w t = false)
    (ha : AttemptOutcome rm t c wi true w1) : ScanHit rm c w (t :: l) t w1 := by
  refine ⟨by simp, ?_, ?_, ha.ok_owner rfl, ?_, ?_, hp, ?_, ?_, ?_⟩
  · by_cases hch : w1.tiles c = wi.tiles c
    · rw [hch, hi.owner_tile]
    · exact absurd rfl (ha.tiles c hch).2.1
  · rw [ha.manager_eq, hi.manager_eq]
  · intro u hu
    rw [ha.others u hu, hi.textures_eq]
  · rw [ha.level_eq, hi.textures_eq]
  · intro p hne
    by_cases hch : w1.tiles p = wi.tiles p
    · exact hi.tiles_owned p (by rwa [hch] at hne)
    · have h1 := (ha.tiles p hch).1
      rw [hi.textures_eq] at h1
      exact ⟨t, h1⟩
  · obtain ⟨e1, h1⟩ := hi.trace_ext
    obtain ⟨e2, h2⟩ := ha.trace_ext
    exact ⟨e1 ++ e2, by rw [h2, h1, List.append_assoc]⟩
  · intro o ho hne
    rw [← hi.textures_eq] at ho
    obtain ⟨h1, h2⟩ := ha.steal rfl o ho hne
    obtain ⟨e1, he1⟩ := hi.trace_ext
    refine ⟨⟨_, h1⟩, e1 ++ [Event.acquire t (some c) false], ?_⟩
    rw [h2, he1]
    simp

theorem scanHit_cons {rm : RemoveTexture} {owner : TileId} {w w' : World} {l : List TexId}
    {t : TexId} (x : TexId) (h : ScanHit rm owner w l t w') : ScanHit rm owner w (x :: l) t w' :=
  { h with mem := List.mem_cons_of_mem x h.mem }

/-- The layer scan never fails; a hit has the properties of `ScanHit`, and a
miss leaves every texture and the manager as they were. -/
theorem layerScan_spec (rm : RemoveTexture) (owner : TileId) (w : World) (l : List TexId) :
    ∀ wi, ScanInv owner w wi → ∃ r w', layerScan rm owner l wi = some (r, w') ∧
      (∀ t, r = some t → ScanHit rm owner w l t w') ∧ (r = none → ScanInv owner w w') := by
  induction l with
  | nil =>
    intro wi hi
    exact ⟨none, wi, rfl, by simp, fun _ => hi⟩
  | cons x rest ih =>
    intro wi hi
    by_cases hpend : ownerRepaintPending wi x = true
    · obtain ⟨r, w', h, h1, h2⟩ := ih wi hi
      refine ⟨r, w', by simp [layerScan, hpend, h], fun t ht => scanHit_cons x (h1 t ht), h2⟩
    · have hpend' : ownerRepaintPending wi x = false := by simpa using hpend
      have hp := scanInv_pending hi x hpend'
      obtain ⟨b1, w1, e1, a1⟩ :=
        guardedAcquire_spec rm (wi.textures x).m_owner.isNone x owner wi
      cases b1 with
      | true =>
        refine ⟨some x, w1, by simp only [layerScan, hpend', e1, Bool.false_eq_true, ↓reduceIte], fun t ht => ?_, by simp⟩
        cases ht
        exact scanHit_of_attempt rest hi hp a1
      | false =>
        have hi1 := scanInv_step hi hp a1
        obtain ⟨b2, w2, e2, a2⟩ :=
          guardedAcquire_spec rm (decide ((w1.textures x).m_usedLevel ≠ 0)) x owner w1
        cases b2 with
        | true =>
          refine ⟨some x, w2, by simp only [layerScan, hpend', e1, e2, Bool.false_eq_true, ↓reduceIte], fun t ht => ?_, by simp⟩
          cases ht
          exact scanHit_of_attempt rest hi1 hp a2
        | false =>
          have hi2 := scanInv_step hi1 hp a2
          obtain ⟨b3, w3, e3, a3⟩ :=
            guardedAcquire_spec rm
              (decide ((w2.textures x).scale ≠ (w2.tiles owner).m_scale)) x owner w2
          cases b3 with
          | true =>
            refine ⟨some x, w3, by simp only [layerScan, hpend', e1, e2, e3, Bool.false_eq_true, ↓reduceIte],
              fun t ht => ?_, by simp⟩
            cases ht
            exact scanHit_of_attempt rest hi2 hp a3
          | false =>
            have hi3 := scanInv_step hi2 hp a3
            obtain ⟨r, w', h, h1, h2⟩ := ih w3 hi3
            exact ⟨r, w', by simp only [layerScan, hpend', e1, e2, e3, h, Bool.false_eq_true, ↓reduceIte],
              fun t ht => scanHit_cons x (h1 t ht), h2⟩

theorem removeFound_eq_some {v l : List TexId} {x : TexId} (h : removeFound v x = some l) :
    x ∈ v ∧ l = v.erase x := by
  unfold removeFound at h
  split at h
  · exact ⟨by assumption, by simpa using h.symm⟩
  · simp at h

theorem ownsItsTexture_eq_some {w : World} {owner : TileId} {tx : TexId} :
    ownsItsTexture w owner = some tx ↔
      (w.tiles owner).m_texture = some tx ∧ (w.textures tx).m_owner = some owner := by
  unfold ownsItsTexture
  cases h : (w.tiles owner).m_texture with
  | none => simp
  | some t =>
    by_cases ho : (w.textures t).m_owner = some owner
    · simp only [ho, if_true, Option.some.injEq]
      constructor
      · rintro rfl; exact ⟨rfl, ho⟩
      · rintro ⟨h1, _⟩; exact h1
    · simp only [ho, if_false, Option.some.injEq, false_iff, not_and, reduceCtorEq]
      rintro rfl; exact ho

theorem getAvailableTexture_hit (rm : RemoveTexture) (owner : TileId) (w : World) (t : TexId)
    (w' : World) (h : getAvailableTexture rm owner w = some (some t, w')) :
    Hit rm owner w t w' := by
  unfold getAvailableTexture at h
  cases hown : ownsItsTexture w owner with
  | some tx =>
    have hown' := ownsItsTexture_eq_some.mp hown
    rw [hown] at h
    simp only [World.setUsedLevel, World.setTexture] at h
    by_cases hl : (w.tiles owner).m_isLayerTile = true
    · simp only [hl, if_true] at h
      cases hr : removeFound w.manager.m_availableTilesTextures tx with
      | none => simp [hr] at h
      | some l =>
        rw [hr] at h
        obtain ⟨hm, hl'⟩ := removeFound_eq_some hr
        simp only [Option.some.injEq, Prod.mk.injEq] at h
        obtain ⟨rfl, rfl⟩ := h
        constructor <;> simp_all [availableSnapshot, Function.update]
    · simp only [hl, if_false] at h
      cases hr : removeFound w.manager.m_availableTextures tx with
      | none => simp [hr] at h
      | some l =>
        rw [hr] at h
        obtain ⟨hm, hl'⟩ := removeFound_eq_some hr
        simp only [Option.some.injEq, Prod.mk.injEq] at h
        obtain ⟨rfl, rfl⟩ := h
        constructor <;> simp_all [availableSnapshot, Function.update]
  | none =>
    rw [hown] at h
    by_cases hl : (w.tiles owner).m_isLayerTile = true
    · simp only [hl, if_true] at h
      obtain ⟨r, w1, hs, h1, -⟩ :=
        layerScan_spec rm owner w w.manager.m_availableTilesTextures w (scanInv_start owner w)
      rw [hs] at h
      cases r with
      | none => simp at h
      | some lt =>
        have hh := h1 lt rfl
        simp only at h
        cases hr : removeFound w1.manager.m_availableTilesTextures lt with
        | none => simp [hr] at h
        | some l =>
          rw [hr] at h
          obtain ⟨hm, hl'⟩ := removeFound_eq_some hr
          rw [hh.manager_eq] at hm hl'
          simp only [Option.some.injEq, Prod.mk.injEq] at h
          obtain ⟨rfl, rfl⟩ := h
          refine ⟨hh.owner_tile, hh.owner_eq, hh.others, by simpa [availableSnapshot, hl] using hm,
            fun _ => by simp [hh.manager_eq, hl'], fun hb => by simp [hl] at hb, ?_,
            fun _ _ => hh.level_eq, ?_, hh.tiles_owned, hh.steal⟩
          · rintro (hb | hb)
            · simp [hl] at hb
            · simp [hown] at hb
          · intro _ o ho hne
            have hp := hh.not_pending
            simpa [ownerRepaintPending, ho] using hp
    · have hl' : (w.tiles owner).m_isLayerTile = false := by simpa using hl
      simp only [hl', Bool.false_eq_true, if_false] at h
      cases hf : farthestScan w w.manager.m_availableTextures (none, 0, UINT_MAX) with
      | none => simp [hf] at h
      | some r =>
        cases r with
        | none => simp [hf] at h
        | some ft =>
          rw [hf] at h
          simp only at h
          obtain ⟨b, w1, ha, ao, aa⟩ := acquire_false_spec rm ft owner w
          rw [ha] at h
          cases b with
          | false => simp at h
          | true =>
            simp only [World.setUsedLevel, World.setTexture] at h
            cases hr : removeFound w1.manager.m_availableTextures ft with
            | none => simp [hr] at h
            | some l =>
              rw [hr] at h
              obtain ⟨hm, hle⟩ := removeFound_eq_some hr
              rw [ao.manager_eq] at hm hle
              simp only [Option.some.injEq, Prod.mk.injEq] at h
              obtain ⟨rfl, rfl⟩ := h
              refine ⟨?_, by simpa using ao.ok_owner rfl, ?_,
                by simpa [availableSnapshot, hl'] using hm, fun hb => by simp [hl'] at hb,
                fun _ => by simp [ao.manager_eq, hle], fun _ => by simp,
                fun hb => by simp [hl'] at hb, fun hb => by simp [hl'] at hb,
                fun p hne => ⟨ft, (ao.tiles p hne).1⟩, ?_⟩
              · by_cases hch : w1.tiles owner = w.tiles owner
                · exact hch
                · exact absurd rfl (ao.tiles owner hch).2.1
              · intro u hu
                simpa [Function.update, hu] using ao.others u hu
              · intro o ho hne
                obtain ⟨h1, h2⟩ := ao.steal rfl o ho hne
                exact ⟨⟨_, h1⟩, [Event.acquire ft (some owner) false], by simp [h2]⟩

theorem availableSnapshot_after_hit {rm : RemoveTexture} {owner : TileId} {w w' : World}
    {t : TexId} (h : Hit rm owner w t w') :
    availableSnapshot w' owner = (availableSnapshot w owner).erase t := by
  unfold availableSnapshot
  rw [h.owner_tile]
  by_cases hl : (w.tiles owner).m_isLayerTile = true
  · simp [hl, h.layer hl]
  · have hl' : (w.tiles owner).m_isLayerTile = false := by simpa using hl
    simp [hl', h.base hl']

/-! ## The base scan -/

theorem farthestScan_cons (w : World) (x : TexId) (rest : List TexId)
    (acc : Option TexId × Int × Nat) (d : Nat) (hx : (w.textures x).m_usedLevel ≠ -1)
    (hd : textureDrawCount w x = some d) :
    farthestScan w (x :: rest) acc =
      if acc.2.1 < (w.textures x).m_usedLevel
          ∨ (acc.2.1 = (w.textures x).m_usedLevel ∧ acc.2.2 > d) then
        farthestScan w rest (some x, (w.textures x).m_usedLevel, d)
      else farthestScan w rest acc := by
  unfold textureDrawCount at hd
  cases ho : (w.textures x).m_owner with
  | none => simp [ho] at hd
  | some o =>
    rw [ho] at hd
    simp only at hd
    simp only [farthestScan, hx, if_false, ho, hd]

theorem farthestScan_mem (w : World) (l : List TexId) :
    ∀ (acc : Option TexId × Int × Nat) (t : TexId),
      farthestScan w l acc = some (some t) → t ∈ l ∨ acc.1 = some t := by
  induction l with
  | nil =>
    intro acc t h
    right
    simpa [farthestScan] using h
  | cons x rest ih =>
    intro acc t h
    unfold farthestScan at h
    split at h
    · left
      simp only [Option.some.injEq] at h
      simp [h]
    · split at h
      · simp at h
      · split at h
        · simp at h
        · split at h
          · rcases ih _ t h with h1 | h1
            · left; exact List.mem_cons_of_mem x h1
            · left
              simp only [Option.some.injEq] at h1
              simp [h1]
          · rcases ih _ t h with h1 | h1
            · left; exact List.mem_cons_of_mem x h1
            · right; exact h1

/-- A texture with used level -1 ends the base scan at once, whatever was
scanned before it. -/
theorem farthestScan_first_unused (w : World) (pre : List TexId) (t : TexId)
    (post : List TexId) (ht : (w.textures t).m_usedLevel = -1)
    (hpre : ∀ u ∈ pre, (w.textures u).m_usedLevel ≠ -1 ∧ (textureDrawCount w u).isSome) :
    ∀ acc : Option TexId × Int × Nat, farthestScan w (pre ++ t :: post) acc = some (some t) := by
  induction pre with
  | nil =>
    intro acc
    simp [farthestScan, ht]
  | cons x rest ih =>
    intro acc
    obtain ⟨hx, hd⟩ := hpre x (by simp)
    obtain ⟨d, hd⟩ := Option.isSome_iff_exists.mp hd
    have ih' := ih (fun u hu => hpre u (List.mem_cons_of_mem x hu))
    rw [List.cons_append, farthestScan_cons w x _ acc d hx hd]
    split
    · exact ih' _
    · exact ih' _

/-- On textures that all have a used level other than -1 and a draw count,
the base scan returns, and what it returns is farthest, and oldest among the
farthest, of everything scanned. -/
theorem farthestScan_best (w : World) (l : List TexId) :
    ∀ (S : List TexId) (acc : Option TexId × Int × Nat), ScanAcc w S acc →
      (∀ u ∈ l, (w.textures u).m_usedLevel ≠ -1 ∧ (textureDrawCount w u).isSome) →
      ∃ r, farthestScan w l acc = some r ∧ ∀ f, r = some f →
        f ∈ S ++ l ∧ ∃ df, textureDrawCount w f = some df ∧
          ∀ u ∈ S ++ l, ∀ du, textureDrawCount w u = some du →
            (w.textures u).m_usedLevel < (w.textures f).m_usedLevel
              ∨ ((w.textures u).m_usedLevel = (w.textures f).m_usedLevel ∧ df ≤ du) := by
  induction l with
  | nil =>
    intro S acc hacc _
    refine ⟨acc.1, rfl, fun f hf => ?_⟩
    obtain ⟨h1, h2, h3⟩ := hacc.chosen f hf
    refine ⟨by simpa using h1, acc.2.2, h3, fun u hu du hdu => ?_⟩
    rw [h2]
    exact hacc.bound u (by simpa using hu) du hdu
  | cons x rest ih =>
    intro S acc hacc hall
    obtain ⟨hx, hd⟩ := hall x (by simp)
    obtain ⟨d, hd⟩ := Option.isSome_iff_exists.mp hd
    have hall' : ∀ u ∈ rest, (w.textures u).m_usedLevel ≠ -1 ∧ (textureDrawCount w u).isSome :=
      fun u hu => hall u (List.mem_cons_of_mem x hu)
    rw [farthestScan_cons w x rest acc d hx hd]
    have hS : S ++ x :: rest = (S ++ [x]) ++ rest := by simp
    rw [hS]
    split
    · rename_i hbeat
      refine ih (S ++ [x]) _ ⟨?_, ?_⟩ hall'
      · intro f hf
        simp only [Option.some.injEq] at hf
        subst hf
        exact ⟨by simp, rfl, hd⟩
      · intro u hu du hdu
        simp only [List.mem_append, List.mem_singleton] at hu
        rcases hu with hu | rfl
        · have hb := hacc.bound u hu du hdu
          simp only at hbeat ⊢
          omega
        · rw [hd] at hdu
          simp only [Option.some.injEq] at hdu
          right
          exact ⟨rfl, by simp only; omega⟩
    · rename_i hbeat
      refine ih (S ++ [x]) acc ⟨?_, ?_⟩ hall'
      · intro f hf
        obtain ⟨h1, h2⟩ := hacc.chosen f hf
        exact ⟨by simp [h1], h2⟩
      · intro u hu du hdu
        simp only [List.mem_append, List.mem_singleton] at hu
        rcases hu with hu | rfl
        · exact hacc.bound u hu du hdu
        · rw [hd] at hdu
          simp only [Option.some.injEq] at hdu
          omega

/-- On such textures the base scan chooses a texture as soon as one of them
beats the running pair, or one is chosen already. -/
theorem farthestScan_chooses (w : World) (l : List TexId) :
    ∀ acc : Option TexId × Int × Nat,
      (∀ u ∈ l, (w.textures u).m_usedLevel ≠ -1 ∧ (textureDrawCount w u).isSome) →
      (acc.1 ≠ none ∨ ∃ u ∈ l, ∃ d, textureDrawCount w u = some d ∧
        (acc.2.1 < (w.textures u).m_usedLevel
          ∨ (acc.2.1 = (w.textures u).m_usedLevel ∧ acc.2.2 > d))) →
      ∃ f, farthestScan w l acc = some (some f) := by
  induction l with
  | nil =>
    intro acc _ h
    rcases h with h | ⟨u, hu, _⟩
    · obtain ⟨f, hf⟩ := Option.ne_none_iff_exists'.mp h
      exact ⟨f, by simp [farthestScan, hf]⟩
    · simp at hu
  | cons x rest ih =>
    intro acc hall h
    obtain ⟨hx, hd⟩ := hall x (by simp)
    obtain ⟨d, hd⟩ := Option.isSome_iff_exists.mp hd
    have hall' : ∀ u ∈ rest, (w.textures u).m_usedLevel ≠ -1 ∧ (textureDrawCount w u).isSome :=
      fun u hu => hall u (List.mem_cons_of_mem x hu)
    rw [farthestScan_cons w x rest acc d hx hd]
    split
    · exact ih _ hall' (Or.inl (by simp))
    · rename_i hbeat
      refine ih acc hall' ?_
      rcases h with h | ⟨u, hu, du, hdu, hb⟩
      · exact Or.inl h
      · right
        rcases List.mem_cons.mp hu with rfl | hu'
        · rw [hd] at hdu
          simp only [Option.some.injEq] at hdu
          subst hdu
          exact absurd hb hbeat
        · exact ⟨u, hu', du, hdu, hb⟩

/-- The first texture of the tile's snapshot is handed out when it is unused:
no owner, used level -1, not busy. -/
theorem getAvailableTexture_first_free (rm : RemoveTexture) (w : World) (tile : TileId)
    (ft : TexId) (rest : List TexId) (hnot : ownsItsTexture w tile = none)
    (hsnap : availableSnapshot w tile = ft :: rest) (hfree : (w.textures ft).m_owner = none)
    (hlevel : (w.textures ft).m_usedLevel = -1) (hbusy : (w.textures ft).m_busy = false) :
    ∃ w', getAvailableTexture rm tile w = some (some ft, w') := by
  obtain ⟨b, w1, ha, ao, aa⟩ := acquire_false_spec rm ft tile w
  have hb : b = true := aa.free_ok hfree hbusy
  subst hb
  unfold getAvailableTexture
  by_cases hl : (w.tiles tile).m_isLayerTile = true
  · have hs : w.manager.m_availableTilesTextures = ft :: rest := by
      simpa [availableSnapshot, hl] using hsnap
    have hscan : layerScan rm tile (ft :: rest) w = some (some ft, w1) := by
      simp only [layerScan, ownerRepaintPending, hfree, guardedAcquire, Option.isNone_none,
        if_true, ha, Bool.false_eq_true, if_false]
    simp only [hnot, hl, if_true, hs, hscan, removeFound, ao.manager_eq, List.mem_cons, true_or]
    exact ⟨_, rfl⟩
  · have hl' : (w.tiles tile).m_isLayerTile = false := by simpa using hl
    have hs : w.manager.m_availableTextures = ft :: rest := by
      simpa [availableSnapshot, hl'] using hsnap
    have hscan : farthestScan w (ft :: rest) (none, 0, UINT_MAX) = some (some ft) := by
      simp [farthestScan, hlevel]
    simp only [hnot, hl', Bool.false_eq_true, if_false, hs, hscan, ha, World.setUsedLevel,
      World.setTexture, removeFound, ao.manager_eq, List.mem_cons, true_or, if_true]
    exact ⟨_, rfl⟩

/-- On the base path the only `acquire` of the run is the one on the texture
the scan chose, and the call returns. -/
theorem getAvailableTexture_base_trace (rm : RemoveTexture) (w : World) (tile : TileId)
    (r : Option TexId) (hbase : (w.tiles tile).m_isLayerTile = false)
    (hnot : ownsItsTexture w tile = none)
    (hf : farthestScan w w.manager.m_availableTextures (none, 0, UINT_MAX) = some r) :
    ∃ res w', getAvailableTexture rm tile w = some (res, w') ∧
      ∃ evs, w'.trace = w.trace ++ evs ∧ acquireTargets evs = r.toList := by
  unfold getAvailableTexture
  simp only [hnot, hbase, Bool.false_eq_true, if_false, hf]
  cases r with
  | none => exact ⟨none, w, rfl, [], by simp, rfl⟩
  | some ft =>
    have hmem : ft ∈ w.manager.m_availableTextures := by
      rcases farthestScan_mem w _ _ ft hf with h | h
      · exact h
      · simp at h
    obtain ⟨b, w1, ha, ao, aa⟩ := acquire_false_spec rm ft tile w
    obtain ⟨evs, he, ht⟩ := aa.trace_shape
    simp only [ha]
    cases b with
    | false =>
      exact ⟨none, w1, rfl, _, he, by simp [acquireTargets, ht]⟩
    | true =>
      simp only [World.setUsedLevel, World.setTexture, removeFound, ao.manager_eq, hmem, if_true]
      exact ⟨_, _, rfl, _, he, by simp [acquireTargets, ht]⟩

/-- The used level of a returned texture: 0 for a base tile and on the
same-owner branch, unchanged when a layer tile takes it from the layer scan. -/
theorem getAvailableTexture_usedLevel (rm : RemoveTexture) (w : World) (tile : TileId)
    (t : TexId) (w' : World) (hret : getAvailableTexture rm tile w = some (some t, w')) :
    ((w.tiles tile).m_isLayerTile = false ∨ ownsItsTexture w tile = some t →
        (w'.textures t).m_usedLevel = 0) ∧
      ((w.tiles tile).m_isLayerTile = true → ownsItsTexture w tile = none →
        (w'.textures t).m_usedLevel = (w.textures t).m_usedLevel) :=
  ⟨(getAvailableTexture_hit rm tile w t w' hret).level_zero,
    (getAvailableTexture_hit rm tile w t w' hret).level_kept⟩

/-! ## The snapshots within a frame -/

/-- The gathers at the start of a frame copy the pools, so the snapshots are
distinct and apart when the pools are. -/
theorem gather_snapshotsDistinct (w : World) (hb : w.manager.m_textures.Nodup)
    (hl : w.manager.m_tilesTextures.Nodup)
    (ha : ∀ x ∈ w.manager.m_textures, x ∉ w.manager.m_tilesTextures) :
    SnapshotsDistinct (gatherLayerTextures (gatherTextures w)).manager :=
  ⟨hb, hl, ha⟩

/-- A call that returns no texture leaves the manager as it was. -/
theorem getAvailableTexture_miss_manager (rm : RemoveTexture) (owner : TileId) (w w' : World)
    (h : getAvailableTexture rm owner w = some (none, w')) : w'.manager = w.manager := by
  unfold getAvailableTexture at h
  cases hown : ownsItsTexture w owner with
  | some tx =>
    rw [hown] at h
    simp only at h
    split at h
    · split at h <;> simp at h
    · split at h <;> simp at h
  | none =>
    rw [hown] at h
    simp only at h
    by_cases hl : (w.tiles owner).m_isLayerTile = true
    · simp only [hl, if_true] at h
      obtain ⟨r, w1, hs, -, h2⟩ :=
        layerScan_spec rm owner w w.manager.m_availableTilesTextures w (scanInv_start owner w)
      rw [hs] at h
      cases r with
      | none =>
        simp only [Option.some.injEq, Prod.mk.injEq, true_and] at h
        subst h
        exact (h2 rfl).manager_eq
      | some lt =>
        simp only at h
        split at h <;> simp at h
    · have hl' : (w.tiles owner).m_isLayerTile = false := by simpa using hl
      simp only [hl', Bool.false_eq_true, if_false] at h
      cases hf : farthestScan w w.manager.m_availableTextures (none, 0, UINT_MAX) with
      | none => simp [hf] at h
      | some r =>
        rw [hf] at h
        cases r with
        | none =>
          simp only [Option.some.injEq, Prod.mk.injEq, true_and] at h
          subst h
          rfl
        | some ft =>
          simp only at h
          obtain ⟨b, w1, ha, ao, -⟩ := acquire_false_spec rm ft owner w
          rw [ha] at h
          cases b with
          | false =>
            simp only [Option.some.injEq, Prod.mk.injEq, true_and] at h
            subst h
            exact ao.manager_eq
          | true =>
            simp only at h
            split at h <;> simp at h

/-- Every request keeps the snapshots distinct and apart: a frame that starts
with the gathers stays in such states. -/
theorem getAvailableTexture_snapshotsDistinct (rm : RemoveTexture) (owner : TileId)
    (w : World) (r : Option TexId) (w' : World)
    (h : getAvailableTexture rm owner w = some (r, w')) (hs : SnapshotsDistinct w.manager) :
    SnapshotsDistinct w'.manager := by
  cases r with
  | none =>
    rw [getAvailableTexture_miss_manager rm owner w w' h]
    exact hs
  | some t =>
    have hh := getAvailableTexture_hit rm owner w t w' h
    by_cases hl : (w.tiles owner).m_isLayerTile = true
    · rw [hh.layer hl]
      exact ⟨hs.base, hs.layer.erase t, fun x hx hm => hs.apart x hx (List.mem_of_mem_erase hm)⟩
    · have hl' : (w.tiles owner).m_isLayerTile = false := by simpa using hl
      rw [hh.base hl']
      exact ⟨hs.base.erase t, hs.layer, fun x hx => hs.apart x (List.mem_of_mem_erase hx)⟩

/-- A request only ever shortens the snapshots: until the next gather, the
snapshots of a later state are contained in those of an earlier one. -/
theorem getAvailableTexture_snapshots_shrink (rm : RemoveTexture) (owner : TileId)
    (w : World) (r : Option TexId) (w' : World)
    (h : getAvailableTexture rm owner w = some (r, w')) :
    (∀ x ∈ w'.manager.m_availableTextures, x ∈ w.manager.m_availableTextures) ∧
      (∀ x ∈ w'.manager.m_availableTilesTextures, x ∈ w.manager.m_availableTilesTextures) := by
  cases r with
  | none =>
    rw [getAvailableTexture_miss_manager rm owner w w' h]
    exact ⟨fun _ hx => hx, fun _ hx => hx⟩
  | some t =>
    have hh := getAvailableTexture_hit rm owner w t w' h
    by_cases hl : (w.tiles owner).m_isLayerTile = true
    · rw [hh.layer hl]
      exact ⟨fun _ hx => hx, fun _ hx => List.mem_of_mem_erase hx⟩
    · have hl' : (w.tiles owner).m_isLayerTile = false := by simpa using hl
      rw [hh.base hl']
      exact ⟨fun _ hx => List.mem_of_mem_erase hx, fun _ hx => hx⟩

/-! ## A busy texture under ownership calls -/

theorem setOwner_keeps_busyOwned (rm : RemoveTexture) (w : World) (self : TexId) (A : TileId)
    (t : TexId) (c : TileId) (h : BusyOwned w self A) :
    ∃ r, setOwner rm t (some c) false w = some r ∧ BusyOwned r.2 self A := by
  obtain ⟨h1, h2, h3⟩ := h
  by_cases hts : t = self
  · subst hts
    exact ⟨(false, w), by simp [setOwner, h2], ⟨h1, h2, h3⟩⟩
  · have hst : self ≠ t := fun e => hts e.symm
    simp only [setOwner, Bool.and_false, Bool.false_eq_true, if_false]
    split
    · split
      · split
        · split
          · refine ⟨_, rfl, ?_⟩
            constructor <;>
              simp_all [World.setTexture, World.setTile, World.log, Function.update]
          · refine ⟨_, rfl, ?_⟩
            constructor <;>
              simp_all [World.setTexture, World.setTile, World.log, Function.update]
        · refine ⟨_, rfl, ?_⟩
          constructor <;>
            simp_all [World.setTexture, World.setTile, World.log, Function.update]
      · refine ⟨_, rfl, ?_⟩
        constructor <;>
          simp_all [World.setTexture, World.setTile, World.log, Function.update]
    · exact ⟨_, rfl, ⟨h1, h2, h3⟩⟩

theorem acquire_keeps_busyOwned (rm : RemoveTexture) (w : World) (self : TexId) (A : TileId)
    (t : TexId) (c : TileId) (h : BusyOwned w self A) :
    ∃ r, acquire rm t (some c) false w = some r ∧ BusyOwned r.2 self A := by
  have hlog : BusyOwned (w.log (Event.acquire t (some c) false)) self A :=
    ⟨h.owner_eq, h.busy, h.delayed⟩
  unfold acquire
  simp only
  split
  · split
    · refine ⟨_, rfl, ?_⟩
      obtain ⟨h1, h2, h3⟩ := h
      by_cases hts : t = self
      · subst hts
        constructor <;> simp_all [World.setTexture, World.log, Function.update]
      · have hst : self ≠ t := fun e => hts e.symm
        constructor <;> simp_all [World.setTexture, World.log, Function.update]
    · exact ⟨_, rfl, hlog⟩
  · exact setOwner_keeps_busyOwned rm _ self A t c hlog

theorem tryAcquire_keeps_busyOwned (rm : RemoveTexture) (w : World) (self : TexId) (A : TileId)
    (t : TexId) (c : TileId) (h : BusyOwned w self A) :
    ∃ r, tryAcquire rm t c w = some r ∧ BusyOwned r.2 self A := by
  unfold tryAcquire
  split
  · split
    · split
      · exact acquire_keeps_busyOwned rm w self A t c h
      · exact ⟨_, rfl, h⟩
    · exact ⟨_, rfl, h⟩
  · exact ⟨_, rfl, h⟩

theorem release_keeps_busyOwned (w : World) (self : TexId) (A : TileId) (t : TexId)
    (c : TileId) (h : BusyOwned w self A) : BusyOwned (release t (some c) w).2 self A := by
  obtain ⟨h1, h2, h3⟩ := h
  by_cases hts : t = self
  · subst hts
    by_cases hc : c = A
    · subst hc
      constructor <;>
        simp_all [release, BaseTileTexture.release, World.setTexture, Function.update]
    · have hc' : ¬ A = c := fun e => hc e.symm
      constructor <;>
        simp_all [release, BaseTileTexture.release, World.setTexture, Function.update]
  · have hst : self ≠ t := fun e => hts e.symm
    constructor <;>
      simp_all [release, BaseTileTexture.release, World.setTexture, Function.update]

/-- No sequence of non-forcing ownership calls blocks or fails, and none
takes a busy texture away from its owner. -/
theorem runCalls_keeps_busyOwned (rm : RemoveTexture) (self : TexId) (A : TileId)
    (calls : List OwnershipCall) :
    ∀ w, BusyOwned w self A → ∃ w2, runCalls rm calls w = some w2 ∧ BusyOwned w2 self A := by
  induction calls with
  | nil => exact fun w h => ⟨w, rfl, h⟩
  | cons c cs ih =>
    intro w h
    have hstep : ∃ w1, runCall rm w c = some w1 ∧ BusyOwned w1 self A := by
      cases c with
      | acquire t c =>
        obtain ⟨r, hr, hb⟩ := acquire_keeps_busyOwned rm w self A t c h
        exact ⟨r.2, by simp [runCall, hr], hb⟩
      | tryAcquire t c =>
        obtain ⟨r, hr, hb⟩ := tryAcquire_keeps_busyOwned rm w self A t c h
        exact ⟨r.2, by simp [runCall, hr], hb⟩
      | setOwner t c =>
        obtain ⟨r, hr, hb⟩ := setOwner_keeps_busyOwned rm w self A t c h
        exact ⟨r.2, by simp [runCall, hr], hb⟩
      | release t c => exact ⟨_, rfl, release_keeps_busyOwned w self A t c h⟩
    obtain ⟨w1, h1, hb1⟩ := hstep
    obtain ⟨w2, h2, hb2⟩ := ih w1 hb1
    exact ⟨w2, by simp [runCalls, h1, h2], hb2⟩

/-! ## Properties of the specification -/

/-- C1: whenever `getAvailableTexture` returns a texture `t` to the requesting
tile (base or layer), then after the call the owner of `t` is that tile and
`t` is no longer in the available snapshot of the tile's pool.  The snapshot
is a copy of a pool of separately allocated textures, so it holds pairwise
distinct identities (`hnd`). -/
theorem getAvailableTexture_owner_and_removed (rm : RemoveTexture) (w : World) (tile : TileId)
    (t : TexId) (w' : World) (hnd : (availableSnapshot w tile).Nodup)
    (hret : getAvailableTexture rm tile w = some (some t, w')) :
    (w'.textures t).m_owner = some tile ∧ t ∉ availableSnapshot w' tile := by
  have hh := getAvailableTexture_hit rm tile w t w' hret
  refine ⟨hh.owner_eq, ?_⟩
  rw [availableSnapshot_after_hit hh]
  exact fun hm => ((List.Nodup.mem_erase_iff hnd).mp hm).1 rfl

/-- C1 at work: base tile 1 takes texture 0 away from tile 2 in `ownedWorld`. -/
theorem getAvailableTexture_owner_and_removed_witness :
    ∃ w', getAvailableTexture removeTextureAlways 1 ownedWorld = some (some 0, w') ∧
      (w'.textures 0).m_owner = some 1 ∧ 0 ∉ availableSnapshot w' 1 :=
  ⟨_, rfl, getAvailableTexture_owner_and_removed removeTextureAlways ownedWorld 1 0 _
    (by decide) rfl⟩

/-- C2 does not hold on the layer scan: right after both gathers on fresh
pools, layer tile 3 asks for a texture; the layer scan hands out texture 10
and leaves its used level at -1, where the same-owner branch and the base path
set it to 0 (`getAvailableTexture_usedLevel`). -/
theorem layer_scan_leaves_usedLevel :
    ∃ w', getAvailableTexture removeTextureAlways 3 exampleWorld = some (some 10, w') ∧
      (w'.textures 10).m_usedLevel = -1 :=
  ⟨_, rfl, by decide⟩

/-- C3 as stated fails for base tiles: in `ownedWorld` base tile 1 is handed
texture 0, which at the time of the call is owned by tile 2, a different tile
whose repaint is pending. -/
theorem base_scan_returns_repaintPending_owner :
    ¬ ∀ (rm : RemoveTexture) (w : World) (tile : TileId) (t : TexId) (w' : World),
      getAvailableTexture rm tile w = some (some t, w') →
      ∀ o, (w.textures t).m_owner = some o → o ≠ tile → (w.tiles o).m_repaintPending = false := by
  intro h
  have h1 := h removeTextureAlways ownedWorld 1 0 _ rfl 2 rfl (by decide)
  exact absurd h1 (by decide)

/-- C3 (amended): for every manager state and every requesting layer tile, the
texture returned by `getAvailableTexture` was not, at the time of the call,
owned by a different tile whose `repaint_pending` flag was set. -/
theorem getAvailableTexture_layer_skips_repaintPending (rm : RemoveTexture) (w : World)
    (tile : TileId) (t : TexId) (w' : World) (o : TileId)
    (hlayer : (w.tiles tile).m_isLayerTile = true)
    (hret : getAvailableTexture rm tile w = some (some t, w'))
    (howner : (w.textures t).m_owner = some o) (hne : o ≠ tile) :
    (w.tiles o).m_repaintPending = false :=
  (getAvailableTexture_hit rm tile w t w' hret).layer_not_pending hlayer o howner hne

/-- C3 (amended) at work: in `ownedWorld` layer tile 3 passes over texture 10,
whose owner has a repaint pending, and takes texture 11 from tile 5, which has
none. -/
theorem getAvailableTexture_layer_skips_repaintPending_witness :
    (∃ w', getAvailableTexture removeTextureAlways 3 ownedWorld = some (some 11, w')) ∧
      (ownedWorld.tiles 5).m_repaintPending = false :=
  ⟨⟨_, rfl⟩, getAvailableTexture_layer_skips_repaintPending removeTextureAlways ownedWorld
    3 11 _ 5 (by decide) rfl rfl (by decide)⟩

/-- C4: if `getAvailableTexture` returns a texture that had a different owner
`o` when the call was made, then `o`s `removeTexture` accepted the steal: the
last call recorded in the run is `o.removeTexture(t)` answering true, and that
answer is the one `removeTexture` gives in the state `o` was in.  Hence a
texture whose owner refuses (whatever its state) is never returned. -/
theorem getAvailableTexture_steal_accepted (rm : RemoveTexture) (w : World) (tile : TileId)
    (t : TexId) (w' : World) (o : TileId)
    (hret : getAvailableTexture rm tile w = some (some t, w'))
    (howner : (w.textures t).m_owner = some o) (hne : o ≠ tile) :
    (∃ evs, w'.trace = w.trace ++ evs ++ [Event.removeTexture o t true]) ∧
      (∃ b, (rm b t).1 = true) ∧ ¬ (∀ b, (rm b t).1 = false) := by
  obtain ⟨⟨b, hb⟩, htr⟩ := (getAvailableTexture_hit rm tile w t w' hret).steal o howner hne
  exact ⟨htr, ⟨b, hb⟩, fun hall => by simp [hall b] at hb⟩

/-- C4 at work: base tile 1 is handed texture 0 of `ownedWorld` after its
owner, tile 2, accepted. -/
theorem getAvailableTexture_steal_accepted_witness :
    ∃ w', getAvailableTexture removeTextureAlways 1 ownedWorld = some (some 0, w') ∧
      (∃ evs, w'.trace = ownedWorld.trace ++ evs ++ [Event.removeTexture 2 0 true]) ∧
      (∃ b, (removeTextureAlways b 0).1 = true) ∧ ¬ (∀ b, (removeTextureAlways b 0).1 = false) :=
  ⟨_, rfl, getAvailableTexture_steal_accepted removeTextureAlways ownedWorld 1 0 _ 2 rfl rfl
    (by decide)⟩

/-- C5: for a base tile that does not already own its texture and a base
snapshot in which every texture has a non-negative used level and an owner
whose surface is registered, `getAvailableTexture` returns, it calls `acquire`
on at most one texture, and that texture has the highest used level of the
snapshot and, among the textures with that used level, the lowest registered
draw count.  A texture is chosen as soon as some texture has a positive used
level or a draw count below `UINT_MAX`. -/
theorem getAvailableTexture_base_takes_farthest_oldest (rm : RemoveTexture) (w : World)
    (tile : TileId) (hbase : (w.tiles tile).m_isLayerTile = false)
    (hnot : ownsItsTexture w tile = none)
    (hall : ∀ u ∈ w.manager.m_availableTextures,
      0 ≤ (w.textures u).m_usedLevel ∧ (textureDrawCount w u).isSome) :
    ∃ res w', getAvailableTexture rm tile w = some (res, w') ∧
      ∃ evs, w'.trace = w.trace ++ evs ∧ (acquireTargets evs).length ≤ 1 ∧
        (∀ t ∈ acquireTargets evs, t ∈ w.manager.m_availableTextures ∧
          ∃ dt, textureDrawCount w t = some dt ∧
            ∀ u ∈ w.manager.m_availableTextures,
              (w.textures u).m_usedLevel ≤ (w.textures t).m_usedLevel ∧
              ((w.textures u).m_usedLevel = (w.textures t).m_usedLevel →
                ∀ du, textureDrawCount w u = some du → dt ≤ du)) ∧
        ((∃ u ∈ w.manager.m_availableTextures, 0 < (w.textures u).m_usedLevel
            ∨ ∃ d, textureDrawCount w u = some d ∧ d < UINT_MAX) →
          acquireTargets evs ≠ []) := by
  have hall' : ∀ u ∈ w.manager.m_availableTextures,
      (w.textures u).m_usedLevel ≠ -1 ∧ (textureDrawCount w u).isSome := by
    intro u hu
    obtain ⟨h1, h2⟩ := hall u hu
    exact ⟨by omega, h2⟩
  obtain ⟨r, hf, hbest⟩ := farthestScan_best w w.manager.m_availableTextures []
    (none, 0, UINT_MAX) ⟨by simp, by simp⟩ hall'
  obtain ⟨res, w', hret, evs, he, ht⟩ := getAvailableTexture_base_trace rm w tile r hbase hnot hf
  refine ⟨res, w', hret, evs, he, ?_, ?_, ?_⟩
  · rw [ht]; cases r <;> simp
  · intro t htm
    rw [ht] at htm
    have hr : r = some t := by
      cases r with
      | none => simp at htm
      | some f => simp at htm; simp [htm]
    obtain ⟨hm, dt, hdt, hb⟩ := hbest t hr
    refine ⟨by simpa using hm, dt, hdt, fun u hu => ?_⟩
    obtain ⟨du, hdu⟩ := Option.isSome_iff_exists.mp (hall u hu).2
    have h1 := hb u (by simpa using hu) du hdu
    refine ⟨by omega, fun heq du' hdu' => ?_⟩
    rw [hdu] at hdu'
    simp only [Option.some.injEq] at hdu'
    omega
  · rintro ⟨u, hu, hcond⟩
    obtain ⟨du, hdu⟩ := Option.isSome_iff_exists.mp (hall u hu).2
    have h0 := (hall u hu).1
    obtain ⟨f, hf'⟩ := farthestScan_chooses w w.manager.m_availableTextures (none, 0, UINT_MAX)
      hall' (Or.inr ⟨u, hu, du, hdu, by
        rcases hcond with h | ⟨d, hd, hlt⟩
        · exact Or.inl h
        · rw [hdu] at hd
          simp only [Option.some.injEq] at hd
          simp only
          omega⟩)
    rw [hf] at hf'
    simp only [Option.some.injEq] at hf'
    rw [ht, hf']
    simp

/-- C5 at work: in `rankedWorld` the highest used level is 3, held by textures
1 and 2, and the owner of texture 2 has the lower draw count. -/
theorem getAvailableTexture_base_takes_farthest_oldest_witness :
    (∃ w', getAvailableTexture removeTextureAlways 1 rankedWorld = some (some 2, w')) ∧
    ∃ res w', getAvailableTexture removeTextureAlways 1 rankedWorld = some (res, w') ∧
      ∃ evs, w'.trace = rankedWorld.trace ++ evs ∧ (acquireTargets evs).length ≤ 1 ∧
        (∀ t ∈ acquireTargets evs, t ∈ rankedWorld.manager.m_availableTextures ∧
          ∃ dt, textureDrawCount rankedWorld t = some dt ∧
            ∀ u ∈ rankedWorld.manager.m_availableTextures,
              (rankedWorld.textures u).m_usedLevel ≤ (rankedWorld.textures t).m_usedLevel ∧
              ((rankedWorld.textures u).m_usedLevel = (rankedWorld.textures t).m_usedLevel →
                ∀ du, textureDrawCount rankedWorld u = some du → dt ≤ du)) ∧
        ((∃ u ∈ rankedWorld.manager.m_availableTextures,
            0 < (rankedWorld.textures u).m_usedLevel
            ∨ ∃ d, textureDrawCount rankedWorld u = some d ∧ d < UINT_MAX) →
          acquireTargets evs ≠ []) :=
  ⟨⟨_, rfl⟩, getAvailableTexture_base_takes_farthest_oldest removeTextureAlways rankedWorld 1
    (by decide) (by decide) (by decide)⟩

set_option maxRecDepth 100000 in
/-- C6 fails when a texture that was released comes before the unused one: in
`twoTextureFrameWorld` base tile 1 gets texture 1 (used level 0) and releases
it, which clears the owner and leaves the used level.  After the next
`gatherTextures` the base snapshot is `[1, 2]` and texture 2 is the first of
used level -1, but when base tile 2, which holds no texture, asks, the scan
reaches texture 1 first and dereferences its null owner at line 278: the call
has no defined result and `acquire` is not tried on texture 2. -/
theorem base_scan_faults_before_first_unused :
    ∃ w1, getAvailableTexture removeTextureAlways 1 twoTextureFrameWorld = some (some 1, w1) ∧
      ((gatherTextures (release 1 (some 1) w1).2).tiles 2).m_isLayerTile = false ∧
      ownsItsTexture (gatherTextures (release 1 (some 1) w1).2) 2 = none ∧
      (gatherTextures (release 1 (some 1) w1).2).manager.m_availableTextures = [1, 2] ∧
      ((gatherTextures (release 1 (some 1) w1).2).textures 2).m_usedLevel = -1 ∧
      ((gatherTextures (release 1 (some 1) w1).2).textures 1).m_usedLevel = 0 ∧
      ((gatherTextures (release 1 (some 1) w1).2).textures 1).m_owner = none ∧
      getAvailableTexture removeTextureAlways 2 (gatherTextures (release 1 (some 1) w1).2)
        = none :=
  ⟨_, rfl, by decide, by decide, by decide, by decide, by decide, by decide, rfl⟩

/-- The first unused texture wins when the scan gets to it: for a base tile
that does not already own its texture, if the base snapshot holds a texture of
used level -1 and each texture `pre` scanned before the first such texture `t`
has a draw count (an owner whose surface is registered), then
`getAvailableTexture` enters `acquire` exactly once, on `t`, whatever the used
levels and draw counts of the textures of `pre`. -/
theorem getAvailableTexture_base_takes_first_unused (rm : RemoveTexture) (w : World)
    (tile : TileId) (pre : List TexId) (t : TexId) (post : List TexId)
    (hbase : (w.tiles tile).m_isLayerTile = false) (hnot : ownsItsTexture w tile = none)
    (hsnap : w.manager.m_availableTextures = pre ++ t :: post)
    (ht : (w.textures t).m_usedLevel = -1)
    (hpre : ∀ u ∈ pre, (w.textures u).m_usedLevel ≠ -1 ∧ (textureDrawCount w u).isSome) :
    ∃ res w', getAvailableTexture rm tile w = some (res, w') ∧
      ∃ evs, w'.trace = w.trace ++ evs ∧ acquireTargets evs = [t] := by
  have hf := farthestScan_first_unused w pre t post ht hpre (none, 0, UINT_MAX)
  rw [← hsnap] at hf
  simpa using getAvailableTexture_base_trace rm w tile (some t) hbase hnot hf

/-- The first unused texture at work: in `mixedWorld` texture 0 (used level 5)
is scanned first, and the call acquires texture 1, the first of used level -1. -/
theorem getAvailableTexture_base_takes_first_unused_witness :
    (∃ w', getAvailableTexture removeTextureAlways 1 mixedWorld = some (some 1, w')) ∧
    ∃ res w', getAvailableTexture removeTextureAlways 1 mixedWorld = some (res, w') ∧
      ∃ evs, w'.trace = mixedWorld.trace ++ evs ∧ acquireTargets evs = [1] :=
  ⟨⟨_, rfl⟩, getAvailableTexture_base_takes_first_unused removeTextureAlways mixedWorld 1
    [0] 1 [2] (by decide) (by decide) rfl (by decide) (by decide)⟩

/-- C7 fails when the tile's texture is not in the snapshot: in
`reservedWorld` tile 1 holds texture 0 and is its owner, but texture 0 left the
base snapshot when tile 1 took it earlier in the frame; the same-owner branch
runs, `find` at line 231 answers `notFound`, `remove` is called out of range
and the call does not return the texture. -/
theorem getAvailableTexture_absent_texture_faults :
    (reservedWorld.tiles 1).m_texture = some 0 ∧ (reservedWorld.textures 0).m_owner = some 1 ∧
      0 ∉ availableSnapshot reservedWorld 1 ∧
      getAvailableTexture removeTextureAlways 1 reservedWorld = none :=
  ⟨by decide, by decide, by decide, rfl⟩

/-- The same-owner branch when the index is in range: for every tile whose
texture field is set, whose texture's owner is that tile and whose texture is
present in the available snapshot of the tile's pool, `getAvailableTexture`
returns exactly that texture, sets its
used level to 0 and changes nothing else of it, removes it from that snapshot
(layer snapshot for layer tiles, base snapshot otherwise) and leaves the other
snapshot alone, changes no other texture and no tile, and calls neither
`acquire` nor `removeTexture`. -/
theorem getAvailableTexture_same_owner (rm : RemoveTexture) (w : World) (tile : TileId)
    (tx : TexId) (htex : (w.tiles tile).m_texture = some tx)
    (hown : (w.textures tx).m_owner = some tile) (hmem : tx ∈ availableSnapshot w tile) :
    ∃ w', getAvailableTexture rm tile w = some (some tx, w') ∧
      w'.textures tx = { w.textures tx with m_usedLevel := 0 } ∧
      (∀ u, u ≠ tx → w'.textures u = w.textures u) ∧
      availableSnapshot w' tile = (availableSnapshot w tile).erase tx ∧
      ((availableSnapshot w tile).Nodup → tx ∉ availableSnapshot w' tile) ∧
      ((w.tiles tile).m_isLayerTile = true →
        w'.manager.m_availableTextures = w.manager.m_availableTextures) ∧
      ((w.tiles tile).m_isLayerTile = false →
        w'.manager.m_availableTilesTextures = w.manager.m_availableTilesTextures) ∧
      w'.tiles = w.tiles ∧ w'.trace = w.trace := by
  have ho : ownsItsTexture w tile = some tx := ownsItsTexture_eq_some.mpr ⟨htex, hown⟩
  have hnd : ∀ l : List TexId, l.Nodup → tx ∉ l.erase tx :=
    fun l hl hm => ((List.Nodup.mem_erase_iff hl).mp hm).1 rfl
  unfold getAvailableTexture
  by_cases hl : (w.tiles tile).m_isLayerTile = true
  · have hm : tx ∈ w.manager.m_availableTilesTextures := by
      simpa [availableSnapshot, hl] using hmem
    simp only [ho, World.setUsedLevel, World.setTexture, hl, if_true, removeFound, hm]
    refine ⟨_, rfl, by simp, fun u hu => by simp [hu], by simp [availableSnapshot, hl],
      fun h => ?_, fun _ => rfl, fun h => by simp [hl] at h, rfl, rfl⟩
    simpa [availableSnapshot, hl] using hnd _ (by simpa [availableSnapshot, hl] using h)
  · have hl' : (w.tiles tile).m_isLayerTile = false := by simpa using hl
    have hm : tx ∈ w.manager.m_availableTextures := by
      simpa [availableSnapshot, hl'] using hmem
    simp only [ho, World.setUsedLevel, World.setTexture, hl', Bool.false_eq_true, if_false,
      removeFound, hm, if_true]
    refine ⟨_, rfl, by simp, fun u hu => by simp [hu], by simp [availableSnapshot, hl'],
      fun h => ?_, fun h => by simp [hl'] at h, fun _ => rfl, rfl, rfl⟩
    simpa [availableSnapshot, hl'] using hnd _ (by simpa [availableSnapshot, hl'] using h)

/-- The same-owner branch at work: in `ownedWorld` tile 2 holds texture 0,
owns it, and texture 0 is in the base snapshot. -/
theorem getAvailableTexture_same_owner_witness :
    ∃ w', getAvailableTexture removeTextureAlways 2 ownedWorld = some (some 0, w') ∧
      w'.textures 0 = { ownedWorld.textures 0 with m_usedLevel := 0 } ∧
      (∀ u, u ≠ 0 → w'.textures u = ownedWorld.textures u) ∧
      availableSnapshot w' 2 = (availableSnapshot ownedWorld 2).erase 0 ∧
      ((availableSnapshot ownedWorld 2).Nodup → 0 ∉ availableSnapshot w' 2) ∧
      ((ownedWorld.tiles 2).m_isLayerTile = true →
        w'.manager.m_availableTextures = ownedWorld.manager.m_availableTextures) ∧
      ((ownedWorld.tiles 2).m_isLayerTile = false →
        w'.manager.m_availableTilesTextures = ownedWorld.manager.m_availableTilesTextures) ∧
      w'.tiles = ownedWorld.tiles ∧ w'.trace = ownedWorld.trace :=
  getAvailableTexture_same_owner removeTextureAlways ownedWorld 2 0 (by decide) (by decide)
    (by decide)

/-- C8: within one frame, that is, from a state whose two snapshots hold
pairwise distinct textures and share none (as after the gathers, and after any
number of requests since), for every two distinct tiles `A` and `B`: if
`getAvailableTexture(A)` returns `t` and a following `getAvailableTexture(B)`
returns `t'`, then `t` and `t'` differ.  The second request may run in any
later state of the frame: one whose snapshots are contained in those the first
request left (no gather in between; other requests, `reserveTexture` writing
tile fields and paints may have happened).  And when the snapshot of
their common pool consists of 2 unclaimed textures (no owner, used level -1,
not busy) and neither tile owns a texture, both requests succeed, each tile
owns one of the two, and the snapshot ends empty. -/
theorem getAvailableTexture_distinct_within_frame (rm : RemoveTexture) (w : World)
    (A B : TileId) (hAB : A ≠ B)
    (hnd : w.manager.m_availableTextures.Nodup)
    (hndl : w.manager.m_availableTilesTextures.Nodup)
    (hdisj : ∀ x ∈ w.manager.m_availableTextures, x ∉ w.manager.m_availableTilesTextures) :
    (∀ t t' w1 w1' w2, getAvailableTexture rm A w = some (some t, w1) →
        (∀ x ∈ w1'.manager.m_availableTextures, x ∈ w1.manager.m_availableTextures) →
        (∀ x ∈ w1'.manager.m_availableTilesTextures,
          x ∈ w1.manager.m_availableTilesTextures) →
        getAvailableTexture rm B w1' = some (some t', w2) → t ≠ t') ∧
    (∀ t1 t2, availableSnapshot w A = [t1, t2] →
        (w.tiles B).m_isLayerTile = (w.tiles A).m_isLayerTile →
        (∀ u, (w.textures u).m_owner ≠ some A ∧ (w.textures u).m_owner ≠ some B) →
        (∀ u ∈ [t1, t2], (w.textures u).m_owner = none ∧ (w.textures u).m_usedLevel = -1 ∧
          (w.textures u).m_busy = false) →
        ∃ w1 w2, getAvailableTexture rm A w = some (some t1, w1) ∧
          getAvailableTexture rm B w1 = some (some t2, w2) ∧
          availableSnapshot w2 B = [] ∧
          (w2.textures t1).m_owner = some A ∧ (w2.textures t2).m_owner = some B) := by
  have herase : ∀ l : List TexId, l.Nodup → ∀ x, x ∉ l.erase x :=
    fun l hl x hm => ((List.Nodup.mem_erase_iff hl).mp hm).1 rfl
  constructor
  · intro t t' w1 w1' w2 h1 hsub hsubl h2 heq
    subst heq
    have hh1 := getAvailableTexture_hit rm A w t w1 h1
    have hh2 := getAvailableTexture_hit rm B w1' t w2 h2
    have hgone : t ∉ w1.manager.m_availableTextures ∧
        t ∉ w1.manager.m_availableTilesTextures := by
      have hm := hh1.mem
      by_cases hl : (w.tiles A).m_isLayerTile = true
      · simp only [availableSnapshot, hl, if_true] at hm
        rw [hh1.layer hl]
        exact ⟨fun hx => hdisj t hx hm, herase _ hndl t⟩
      · have hl' : (w.tiles A).m_isLayerTile = false := by simpa using hl
        simp only [availableSnapshot, hl', Bool.false_eq_true, if_false] at hm
        rw [hh1.base hl']
        exact ⟨herase _ hnd t, hdisj t hm⟩
    have hm2 := hh2.mem
    unfold availableSnapshot at hm2
    split at hm2
    · exact hgone.2 (hsubl t hm2)
    · exact hgone.1 (hsub t hm2)
  · intro t1 t2 hsnap hkind hown hfree
    have hne : t1 ≠ t2 := by
      have hnds : (availableSnapshot w A).Nodup := by
        unfold availableSnapshot
        split
        · exact hndl
        · exact hnd
      rw [hsnap] at hnds
      simpa using hnds
    have hnotA : ownsItsTexture w A = none := by
      cases h : ownsItsTexture w A with
      | none => rfl
      | some tx => exact absurd (ownsItsTexture_eq_some.mp h).2 (hown tx).1
    obtain ⟨f1, f2, f3⟩ := hfree t1 (by simp)
    obtain ⟨w1, h1⟩ := getAvailableTexture_first_free rm w A t1 [t2] hnotA hsnap f1 f2 f3
    have hh1 := getAvailableTexture_hit rm A w t1 w1 h1
    have hB : w1.tiles B = w.tiles B := by
      by_contra hch
      obtain ⟨u, hu⟩ := hh1.tiles_owned B hch
      exact (hown u).2 hu
    have hsnap1 : availableSnapshot w1 B = [t2] := by
      have h := availableSnapshot_after_hit hh1
      rw [hsnap] at h
      unfold availableSnapshot at h ⊢
      rw [hB, hkind]
      rw [hh1.owner_tile] at h
      simpa using h
    have htex2 : w1.textures t2 = w.textures t2 := hh1.others t2 (Ne.symm hne)
    have hnotB : ownsItsTexture w1 B = none := by
      cases h : ownsItsTexture w1 B with
      | none => rfl
      | some tx =>
        have ho := (ownsItsTexture_eq_some.mp h).2
        by_cases htx : tx = t1
        · subst htx
          rw [hh1.owner_eq] at ho
          simp only [Option.some.injEq] at ho
          exact absurd ho hAB
        · rw [hh1.others tx htx] at ho
          exact absurd ho (hown tx).2
    obtain ⟨g1, g2, g3⟩ := hfree t2 (by simp)
    obtain ⟨w2, h2⟩ := getAvailableTexture_first_free rm w1 B t2 [] hnotB hsnap1
      (by rw [htex2]; exact g1) (by rw [htex2]; exact g2) (by rw [htex2]; exact g3)
    have hh2 := getAvailableTexture_hit rm B w1 t2 w2 h2
    refine ⟨w1, w2, h1, h2, ?_, ?_, hh2.owner_eq⟩
    · rw [availableSnapshot_after_hit hh2, hsnap1]
      simp
    · rw [hh2.others t1 hne, hh1.owner_eq]

/-- C8 at work: scenario 1 of the specification on `exampleWorld`, a base pool
of the 2 fresh textures 0 and 1, with the base tiles 1 and 2. -/
theorem getAvailableTexture_distinct_within_frame_witness :
    (0 : TexId) ≠ 1 ∧
    ∃ w1 w2, getAvailableTexture removeTextureAlways 1 exampleWorld = some (some 0, w1) ∧
      getAvailableTexture removeTextureAlways 2 w1 = some (some 1, w2) ∧
      availableSnapshot w2 2 = [] ∧
      (w2.textures 0).m_owner = some 1 ∧ (w2.textures 1).m_owner = some 2 :=
  ⟨(getAvailableTexture_distinct_within_frame removeTextureAlways exampleWorld 1 2 (by decide)
      (by decide) (by decide) (by decide)).1 0 1 _ _ _ rfl (fun _ hx => hx) (fun _ hx => hx)
      rfl,
    (getAvailableTexture_distinct_within_frame removeTextureAlways exampleWorld 1 2 (by decide)
      (by decide) (by decide) (by decide)).2 0 1 rfl rfl
      (fun _ => by simp [exampleWorld, BaseTileTexture.fresh]) (by decide)⟩

/-- C9: for every texture that is busy and owned by tile `A`, `release(A)`
answers true and leaves the owner equal to `A`; after it, every sequence of
non-forcing ownership calls (`acquire`, `tryAcquire`, `setOwner` without force,
`release`, by any tiles, on any textures) runs to its end and leaves the
texture busy and owned by `A`, and the `setNotBusy` that follows clears the
owner exactly when the delayed release is still recorded.  In every texture
state `setNotBusy` changes the owner only when a delayed release is recorded
and the owner equals the delayed-release owner, and then it clears it. -/
theorem release_while_busy_keeps_owner (rm : RemoveTexture) (w : World) (self : TexId)
    (A : TileId) (hbusy : (w.textures self).m_busy = true)
    (hown : (w.textures self).m_owner = some A) :
    (release self (some A) w).1 = true ∧
    ((release self (some A) w).2.textures self).m_owner = some A ∧
    (∀ calls, ∃ w2, runCalls rm calls (release self (some A) w).2 = some w2 ∧
      (w2.textures self).m_owner = some A ∧ (w2.textures self).m_busy = true ∧
      (w2.textures self).setNotBusy.m_owner =
        if (w2.textures self).m_delayedRelease then none else some A) ∧
    (∀ t : BaseTileTexture, t.setNotBusy.m_owner ≠ t.m_owner →
      t.m_delayedRelease = true ∧ t.m_owner = t.m_delayedReleaseOwner ∧
        t.setNotBusy.m_owner = none) := by
  have h1 : BusyOwned (release self (some A) w).2 self A := by
    constructor <;>
      simp_all [release, BaseTileTexture.release, World.setTexture, Function.update]
  refine ⟨by simp [release, BaseTileTexture.release, hown, hbusy], h1.owner_eq, ?_, ?_⟩
  · intro calls
    obtain ⟨w2, hr, hb⟩ := runCalls_keeps_busyOwned rm self A calls _ h1
    refine ⟨w2, hr, hb.owner_eq, hb.busy, ?_⟩
    by_cases hd : (w2.textures self).m_delayedRelease = true
    · simp [BaseTileTexture.setNotBusy, hd, hb.owner_eq, hb.delayed hd]
    · simp [BaseTileTexture.setNotBusy, hd, hb.owner_eq]
  · intro t hne
    unfold BaseTileTexture.setNotBusy at hne ⊢
    by_cases hd : t.m_delayedRelease = true
    · by_cases ho : t.m_owner = t.m_delayedReleaseOwner
      · simp [hd, ho]
      · simp [hd, ho] at hne
    · simp [hd] at hne

/-- C9 at work: texture 0 of `busyWorld` is busy and owned by tile 2; after
`release(2)`, five calls by tiles 1 and 2 leave it busy and owned by tile 2,
and the next `setNotBusy` clears the owner. -/
theorem release_while_busy_keeps_owner_witness :
    ∃ w2, runCalls removeTextureAlways
        [OwnershipCall.tryAcquire 0 1, OwnershipCall.acquire 0 1, OwnershipCall.setOwner 0 1,
          OwnershipCall.release 0 1, OwnershipCall.release 0 2]
        (release 0 (some 2) busyWorld).2 = some w2 ∧
      (w2.textures 0).m_owner = some 2 ∧ (w2.textures 0).m_busy = true ∧
      (w2.textures 0).setNotBusy.m_owner =
        if (w2.textures 0).m_delayedRelease then none else some 2 :=
  (release_while_busy_keeps_owner removeTextureAlways busyWorld 0 2 (by decide)
    (by decide)).2.2.1 _

/-- C10: `release(owner)` in every texture state: if the caller is not the
recorded owner it answers false and changes nothing; if the caller is the
recorded owner it answers true and, when the texture is not busy, clears the
owner and changes nothing else (the delayed-release fields stay as they were),
and when the texture is busy, keeps the owner and records
`m_delayedRelease = true` with `m_delayedReleaseOwner` the caller. -/
theorem release_spec (t : BaseTileTexture) (caller : Option TileId) :
    (t.m_owner ≠ caller → BaseTileTexture.release caller t = (false, t)) ∧
    (t.m_owner = caller → t.m_busy = false →
      BaseTileTexture.release caller t = (true, { t with m_owner := none })) ∧
    (t.m_owner = caller → t.m_busy = true →
      BaseTileTexture.release caller t =
        (true, { t with m_delayedRelease := true, m_delayedReleaseOwner := caller })) := by
  refine ⟨fun h => ?_, fun h hb => ?_, fun h hb => ?_⟩
  · simp [BaseTileTexture.release, h]
  · simp [BaseTileTexture.release, h, hb]
  · simp [BaseTileTexture.release, h, hb]

/-- C10 at work on texture 0 of `ownedWorld` (owned by tile 2, not busy) and
of `busyWorld` (owned by tile 2, busy). -/
theorem release_spec_witness :
    BaseTileTexture.release (some 1) (ownedWorld.textures 0) = (false, ownedWorld.textures 0) ∧
    BaseTileTexture.release (some 2) (ownedWorld.textures 0) =
      (true, { ownedWorld.textures 0 with m_owner := none }) ∧
    BaseTileTexture.release (some 2) (busyWorld.textures 0) =
      (true, { busyWorld.textures 0 with
        m_delayedRelease := true, m_delayedReleaseOwner := some 2 }) :=
  ⟨(release_spec (ownedWorld.textures 0) (some 1)).1 (by decide),
    (release_spec (ownedWorld.textures 0) (some 2)).2.1 (by decide) (by decide),
    (release_spec (busyWorld.textures 0) (some 2)).2.2 (by decide) (by decide)⟩

/-! ## The delayed-release owner is never stale -/

theorem noStaleDelayedOwner_fresh : BaseTileTexture.fresh.NoStaleDelayedOwner :=
  fun _ => rfl

theorem noStaleDelayedOwner_producerLock (t : BaseTileTexture)
    (h : t.NoStaleDelayedOwner) : t.producerLock.NoStaleDelayedOwner :=
  h

theorem setNotBusy_noStaleDelayedOwner (t : BaseTileTexture) (h : t.NoStaleDelayedOwner) :
    t.setNotBusy.NoStaleDelayedOwner := by
  unfold BaseTileTexture.NoStaleDelayedOwner at h ⊢
  unfold BaseTileTexture.setNotBusy
  by_cases hd : t.m_delayedRelease = true
  · simp [hd]
  · simp only [hd, Bool.false_eq_true, if_false]
    intro _
    exact h (by simpa using hd)

theorem release_noStaleDelayedOwner (t : BaseTileTexture) (caller : Option TileId)
    (h : t.NoStaleDelayedOwner) : (BaseTileTexture.release caller t).2.NoStaleDelayedOwner := by
  unfold BaseTileTexture.NoStaleDelayedOwner at h ⊢
  unfold BaseTileTexture.release
  split
  · exact h
  · split
    · exact h
    · simp

theorem setOwner_noStaleDelayedOwner (rm : RemoveTexture) (self : TexId)
    (c : Option TileId) (force : Bool) (w : World) (r : Bool × World)
    (hr : setOwner rm self c force w = some r)
    (h : ∀ u, (w.textures u).NoStaleDelayedOwner) :
    ∀ u, (r.2.textures u).NoStaleDelayedOwner := by
  intro u
  have hu := h u
  have hs := h self
  unfold BaseTileTexture.NoStaleDelayedOwner at hu hs ⊢
  unfold setOwner at hr
  simp only at hr
  repeat' split at hr
  all_goals cases hr
  all_goals
    by_cases hus : u = self <;>
      simp_all [World.setTexture, World.setTile, World.log, Function.update]

theorem acquire_noStaleDelayedOwner (rm : RemoveTexture) (self : TexId)
    (c : Option TileId) (force : Bool) (w : World) (r : Bool × World)
    (hr : acquire rm self c force w = some r)
    (h : ∀ u, (w.textures u).NoStaleDelayedOwner) :
    ∀ u, (r.2.textures u).NoStaleDelayedOwner := by
  unfold acquire at hr
  simp only at hr
  split at hr
  · split at hr
    · simp only [Option.some.injEq] at hr
      subst hr
      intro u
      have hu := h u
      unfold BaseTileTexture.NoStaleDelayedOwner at hu ⊢
      by_cases hus : u = self
      · subst hus
        simp [World.setTexture, World.log, Function.update]
      · simpa [World.setTexture, World.log, Function.update, hus] using hu
    · simp only [Option.some.injEq] at hr
      subst hr
      exact h
  · exact setOwner_noStaleDelayedOwner rm self c force _ r hr h

/-! ## Producer release and the ownership calls one by one -/

/-- C11: for every texture state, after `producerRelease` and after
`producerReleaseAndSwap` (each runs `setNotBusy`): `m_busy` is false,
`m_delayedRelease` is false and `m_delayedReleaseOwner` is null (it is cleared
when a delayed release was set, and was null already otherwise, see
`NoStaleDelayedOwner`); the owner is null if a delayed release was set and the
owner equalled the delayed-release owner, and is unchanged otherwise.  In
particular, for a texture owned by `A`, the sequence `producerLock`,
`release(A)`, `producerReleaseAndSwap` ends with no owner, not busy, and the
delayed release cleared. -/
theorem producerRelease_spec (t : BaseTileTexture) :
    (∀ r, r = t.producerRelease ∨ r = t.producerReleaseAndSwap →
      r.m_busy = false ∧ r.m_delayedRelease = false ∧
      (t.NoStaleDelayedOwner → r.m_delayedReleaseOwner = none) ∧
      (t.m_delayedRelease = true → r.m_delayedReleaseOwner = none) ∧
      (t.m_delayedRelease = true → t.m_owner = t.m_delayedReleaseOwner → r.m_owner = none) ∧
      (¬ (t.m_delayedRelease = true ∧ t.m_owner = t.m_delayedReleaseOwner) →
        r.m_owner = t.m_owner)) ∧
    (∀ A : TileId, t.m_owner = some A →
      (BaseTileTexture.release (some A) t.producerLock).2.producerReleaseAndSwap =
        { t with m_owner := none, m_busy := false, m_delayedRelease := false,
                 m_delayedReleaseOwner := none }) := by
  constructor
  · intro r hr
    have hr' : r = t.setNotBusy := by
      rcases hr with h | h <;> exact h
    subst hr'
    unfold BaseTileTexture.NoStaleDelayedOwner BaseTileTexture.setNotBusy
    by_cases hd : t.m_delayedRelease = true
    · by_cases ho : t.m_owner = t.m_delayedReleaseOwner
      · simp [hd, ho]
      · simp [hd, ho]
    · have hd' : t.m_delayedRelease = false := by simpa using hd
      simp [hd']
  · intro A hA
    simp [BaseTileTexture.producerReleaseAndSwap, BaseTileTexture.setNotBusy,
      BaseTileTexture.release, BaseTileTexture.producerLock, hA]

/-- C11 at work on texture 0 of `delayedWorld` (busy, owned by tile 2, delayed
release by tile 2 recorded) and of `ownedWorld` (scenario 4 of the
specification). -/
theorem producerRelease_spec_witness :
    (delayedWorld.textures 0).producerReleaseAndSwap.m_owner = none ∧
    (delayedWorld.textures 0).producerReleaseAndSwap.m_delayedReleaseOwner = none ∧
    (BaseTileTexture.release (some 2) (ownedWorld.textures 0).producerLock).2.producerReleaseAndSwap
      = { ownedWorld.textures 0 with
          m_owner := none, m_busy := false,
          m_delayedRelease := false, m_delayedReleaseOwner := none } :=
  ⟨((producerRelease_spec (delayedWorld.textures 0)).1 _ (Or.inr rfl)).2.2.2.2.1 (by decide)
      (by decide),
    ((producerRelease_spec (delayedWorld.textures 0)).1 _ (Or.inr rfl)).2.2.1 (by decide),
    (producerRelease_spec (ownedWorld.textures 0)).2 2 (by decide)⟩

/-- C12: `acquire(candidate, force)` when the candidate is already the
recorded owner: for every busy value and every force value it returns true
without waiting; the only call of the run is the entry into `acquire` (no
`removeTexture`); no tile, no other texture and nothing of the manager
changes; owner and busy are unchanged; `m_delayedRelease` is false afterwards
and `m_delayedReleaseOwner` null (cleared with a delayed release, null already
without one); so the `setNotBusy` of a following producer release leaves the
owner in place. -/
theorem acquire_by_owner (rm : RemoveTexture) (self : TexId) (c : Option TileId)
    (force : Bool) (w : World) (hown : (w.textures self).m_owner = c) :
    ∃ w', acquire rm self c force w = some (true, w') ∧
      w'.trace = w.trace ++ [Event.acquire self c force] ∧
      w'.tiles = w.tiles ∧ w'.manager = w.manager ∧
      (∀ u, u ≠ self → w'.textures u = w.textures u) ∧
      (w'.textures self).m_owner = c ∧
      (w'.textures self).m_busy = (w.textures self).m_busy ∧
      (w'.textures self).m_delayedRelease = false ∧
      ((w.textures self).NoStaleDelayedOwner →
        (w'.textures self).m_delayedReleaseOwner = none) ∧
      ((w.textures self).m_delayedRelease = true →
        (w'.textures self).m_delayedReleaseOwner = none) ∧
      (w'.textures self).setNotBusy.m_owner = c := by
  unfold BaseTileTexture.NoStaleDelayedOwner
  by_cases hd : (w.textures self).m_delayedRelease = true
  · simp only [acquire, World.log, hown, hd, if_true]
    refine ⟨_, rfl, ?_⟩
    simp [World.setTexture, Function.update, BaseTileTexture.setNotBusy]
    intro u hu
    simp [hu]
  · have hd' : (w.textures self).m_delayedRelease = false := by simpa using hd
    simp only [acquire, World.log, hown, hd', Bool.false_eq_true, if_true, if_false]
    refine ⟨_, rfl, ?_⟩
    simp [BaseTileTexture.setNotBusy, hown, hd']

/-- C12 at work: tile 2 re-acquires its busy texture 0 in `delayedWorld`, with
force, and the pending delayed release is cancelled. -/
theorem acquire_by_owner_witness :
    ∃ w', acquire removeTextureNever 0 (some 2) true delayedWorld = some (true, w') ∧
      w'.trace = delayedWorld.trace ++ [Event.acquire 0 (some 2) true] ∧
      w'.tiles = delayedWorld.tiles ∧ w'.manager = delayedWorld.manager ∧
      (∀ u, u ≠ 0 → w'.textures u = delayedWorld.textures u) ∧
      (w'.textures 0).m_owner = some 2 ∧
      (w'.textures 0).m_busy = (delayedWorld.textures 0).m_busy ∧
      (w'.textures 0).m_delayedRelease = false ∧
      ((delayedWorld.textures 0).NoStaleDelayedOwner →
        (w'.textures 0).m_delayedReleaseOwner = none) ∧
      ((delayedWorld.textures 0).m_delayedRelease = true →
        (w'.textures 0).m_delayedReleaseOwner = none) ∧
      (w'.textures 0).setNotBusy.m_owner = some 2 :=
  acquire_by_owner removeTextureNever 0 (some 2) true delayedWorld (by decide)

theorem setOwner_spec_aux (rm : RemoveTexture) (self : TexId) (c : Option TileId) (w : World)
    (r : Option (Bool × World)) (h : setOwner rm self c false w = r) :
    ∃ b w', r = some (b, w') ∧
      (b = true ↔ (w.textures self).m_busy = false ∧
        ((w.textures self).m_owner = none ∨ (w.textures self).m_owner = c ∨
          ∃ o, (w.textures self).m_owner = some o ∧ (rm (w.tiles o) self).1 = true)) ∧
      (b = true → (w'.textures self).m_owner = c) ∧
      (b = false → w'.textures = w.textures) ∧
      ((w.textures self).m_busy = true → w' = w) := by
  simp only [setOwner, Bool.and_false, Bool.false_eq_true, if_false] at h
  repeat' split at h
  all_goals subst h
  all_goals refine ⟨_, _, rfl, ?_⟩
  all_goals simp_all [World.setTexture, World.setTile, World.log, Function.update]

/-- C13: `setOwner(candidate, force = false)` returns in every state, and it
returns true if and only if the texture is not busy and either there is no
prior owner, or the prior owner is the candidate, or the prior owner's
`removeTexture` returns true.  When it returns true the owner is the
candidate; when it returns false (texture busy, or steal refused) no texture
changes, so the owner is unchanged; and on a busy texture nothing at all
happens: `removeTexture` is not called. -/
theorem setOwner_spec (rm : RemoveTexture) (self : TexId) (c : Option TileId) (w : World) :
    ∃ b w', setOwner rm self c false w = some (b, w') ∧
      (b = true ↔ (w.textures self).m_busy = false ∧
        ((w.textures self).m_owner = none ∨ (w.textures self).m_owner = c ∨
          ∃ o, (w.textures self).m_owner = some o ∧ (rm (w.tiles o) self).1 = true)) ∧
      (b = true → (w'.textures self).m_owner = c) ∧
      (b = false → w'.textures = w.textures) ∧
      ((w.textures self).m_busy = true → w' = w) :=
  setOwner_spec_aux rm self c w _ rfl

/-- C13 at work on texture 0: busy in `busyWorld` (nothing happens), and not
busy in `ownedWorld` with an owner that refuses and with one that accepts. -/
theorem setOwner_spec_witness :
    setOwner removeTextureAlways 0 (some 1) false busyWorld = some (false, busyWorld) ∧
    (∃ w', setOwner removeTextureNever 0 (some 1) false ownedWorld = some (false, w') ∧
      (w'.textures 0).m_owner = some 2) ∧
    (∃ w', setOwner removeTextureAlways 0 (some 1) false ownedWorld = some (true, w') ∧
      (w'.textures 0).m_owner = some 1) := by
  refine ⟨?_, ?_, ?_⟩
  · obtain ⟨b, w', h, -, -, -, h4⟩ := setOwner_spec removeTextureAlways 0 (some 1) busyWorld
    have hw : w' = busyWorld := h4 (by decide)
    subst hw
    exact rfl
  · exact ⟨_, rfl, by decide⟩
  · exact ⟨_, rfl, by decide⟩

/-- C14: `tryAcquire(candidate)` returns in every state; it returns true only
if, at the call, the texture is not busy and has an owner whose surface state
differs from the candidate's; when it returns true the owner is the
candidate, and whenever it returns false (busy, no owner, same surface state,
or the owner refused) no texture changes, so the owner is unchanged. -/
theorem tryAcquire_spec (rm : RemoveTexture) (self : TexId) (c : TileId) (w : World) :
    ∃ b w', tryAcquire rm self c w = some (b, w') ∧
      (b = true → (w.textures self).m_busy = false ∧
        ∃ o, (w.textures self).m_owner = some o ∧
          (w.tiles o).m_glWebViewState ≠ (w.tiles c).m_glWebViewState) ∧
      (b = true → (w'.textures self).m_owner = some c) ∧
      (b = false → w'.textures = w.textures ∧
        (w'.textures self).m_owner = (w.textures self).m_owner) := by
  have hmiss : ∀ x : Option (Bool × World), x = some (false, w) →
      ∃ b w', x = some (b, w') ∧
        (b = true → (w.textures self).m_busy = false ∧
          ∃ o, (w.textures self).m_owner = some o ∧
            (w.tiles o).m_glWebViewState ≠ (w.tiles c).m_glWebViewState) ∧
        (b = true → (w'.textures self).m_owner = some c) ∧
        (b = false → w'.textures = w.textures ∧
          (w'.textures self).m_owner = (w.textures self).m_owner) :=
    fun x hx => ⟨false, w, hx, by simp, by simp, fun _ => ⟨rfl, rfl⟩⟩
  by_cases hb : (w.textures self).m_busy = true
  · exact hmiss _ (by simp [tryAcquire, hb])
  · have hb' : (w.textures self).m_busy = false := by simpa using hb
    rcases Option.eq_none_or_eq_some (w.textures self).m_owner with ho | ⟨o, ho⟩
    · exact hmiss _ (by simp [tryAcquire, hb', ho])
    · by_cases hs : (w.tiles o).m_glWebViewState = (w.tiles c).m_glWebViewState
      · exact hmiss _ (by simp [tryAcquire, hb', ho, hs])
      · obtain ⟨b, w', ha, ao, -⟩ := acquire_false_spec rm self c w
        refine ⟨b, w', by simp [tryAcquire, hb', ho, hs, ha], fun _ => ⟨hb', o, ho, hs⟩,
          ao.ok_owner, fun hf => ?_⟩
        have := ao.fail_same hf
        exact ⟨this, by rw [this]⟩

/-- C14 at work: in `ownedWorld` every tile is of surface 7, so `tryAcquire`
by tile 1 on texture 0 fails and leaves it with tile 2; in `rankedWorld` tile
5 is of surface 8 and takes texture 0 from tile 4 of surface 7. -/
theorem tryAcquire_spec_witness :
    (∃ w', tryAcquire removeTextureAlways 0 1 ownedWorld = some (false, w') ∧
      (w'.textures 0).m_owner = some 2) ∧
    (∃ w', tryAcquire removeTextureAlways 0 5 rankedWorld = some (true, w') ∧
      (w'.textures 0).m_owner = some 5) := by
  refine ⟨?_, ?_⟩
  · obtain ⟨b, w', h, -, -, h3⟩ := tryAcquire_spec removeTextureAlways 0 1 ownedWorld
    have hb : b = false := by
      have h' : tryAcquire removeTextureAlways 0 1 ownedWorld = some (false, ownedWorld) := rfl
      rw [h'] at h
      simp only [Option.some.injEq, Prod.mk.injEq] at h
      exact h.1.symm
    subst hb
    exact ⟨w', h, by rw [(h3 rfl).2]; decide⟩
  · obtain ⟨b, w', h, -, h2, -⟩ := tryAcquire_spec removeTextureAlways 0 5 rankedWorld
    have hb : b = true := by
      have h' : ∃ w1, tryAcquire removeTextureAlways 0 5 rankedWorld = some (true, w1) :=
        ⟨_, rfl⟩
      obtain ⟨w1, h1⟩ := h'
      rw [h1] at h
      simp only [Option.some.injEq, Prod.mk.injEq] at h
      exact h.1.symm
    subst hb
    exact ⟨w', h, h2 rfl⟩

/-- The two cases of `producerUpdate`: a bitmap of width 0 and height 0 is
released without a swap, every other bitmap with one; in both cases the
texture is not busy afterwards. -/
theorem producerUpdate_spec (width height : Int) (t : BaseTileTexture) :
    (width = 0 ∧ height = 0 →
      (t.producerUpdate width height).1 = ProducerExit.release) ∧
    (¬ (width = 0 ∧ height = 0) →
      (t.producerUpdate width height).1 = ProducerExit.releaseAndSwap) ∧
    (t.producerUpdate width height).2.m_busy = false := by
  unfold BaseTileTexture.producerUpdate
  refine ⟨fun h => by simp [h], fun h => by simp [h], ?_⟩
  have hb : t.setNotBusy.m_busy = false := by
    unfold BaseTileTexture.setNotBusy
    by_cases hd : t.m_delayedRelease = true
    · by_cases ho : t.m_owner = t.m_delayedReleaseOwner <;> simp [hd, ho]
    · simp [hd]
  split <;> exact hb

/-- C15 does not hold for a bitmap with one zero dimension: for a bitmap of
width 0 and height 5 (zero area) `producerUpdate` on the busy texture 0 of
`busyWorld` takes the `producerReleaseAndSwap` path; the test of line 143 asks
for both dimensions to be zero, where the comment of line 142 speaks of an
empty bitmap. -/
theorem producerUpdate_swaps_empty_bitmap :
    ((busyWorld.textures 0).producerUpdate 0 5).1 = ProducerExit.releaseAndSwap ∧
      ((busyWorld.textures 0).producerUpdate 5 0).1 = ProducerExit.releaseAndSwap ∧
      ((busyWorld.textures 0).producerUpdate 0 0).1 = ProducerExit.release := by
  decide

/-! ## Tile metadata -/

/-- C16: `readyFor(tile)` is true if and only if the recorded metadata has
`x`, `y`, `scale` and `painter` equal to the tile's and its recorded inversion
flag equals the manager's current `inverted_screen` flag; right after
`setOwnTextureTileInfoFromQueue(info)` that means the `x`, `y`, `scale` and
`painter` of `info`.  Consequently, in any state in which the recorded flag
differs from the manager's, as after the manager's flag is toggled following a
recording, `readyFor` is false for every tile; and the recorded picture
version never affects the result. -/
theorem readyFor_spec (w : World) (self : TexId) :
    (∀ tile, readyFor self tile w = true ↔
      (w.textures self).m_ownTextureTileInfo.m_x = (w.tiles tile).m_x ∧
      (w.textures self).m_ownTextureTileInfo.m_y = (w.tiles tile).m_y ∧
      (w.textures self).m_ownTextureTileInfo.m_scale = (w.tiles tile).m_scale ∧
      (w.textures self).m_ownTextureTileInfo.m_painter = (w.tiles tile).m_painter ∧
      (w.textures self).m_ownTextureTileInfo.m_inverted = invertedScreen w) ∧
    (∀ info tile, readyFor self tile (setOwnTextureTileInfoFromQueue self info w) = true ↔
      info.m_x = (w.tiles tile).m_x ∧ info.m_y = (w.tiles tile).m_y ∧
      info.m_scale = (w.tiles tile).m_scale ∧ info.m_painter = (w.tiles tile).m_painter) ∧
    ((w.textures self).m_ownTextureTileInfo.m_inverted ≠ invertedScreen w →
      ∀ tile, readyFor self tile w = false) ∧
    (∀ info tile,
      readyFor self tile
        (setInvertedScreen (!invertedScreen w) (setOwnTextureTileInfoFromQueue self info w))
        = false) ∧
    (∀ picture tile,
      readyFor self tile
        (w.setTexture self { w.textures self with
          m_ownTextureTileInfo :=
            { (w.textures self).m_ownTextureTileInfo with m_picture := picture } })
        = readyFor self tile w) := by
  refine ⟨fun tile => ?_, fun info tile => ?_, fun h tile => ?_, fun info tile => ?_,
    fun picture tile => ?_⟩
  · simp [readyFor, BaseTileTexture.readyFor, and_assoc]
  · simp [readyFor, BaseTileTexture.readyFor, setOwnTextureTileInfoFromQueue,
      BaseTileTexture.setOwnTextureTileInfoFromQueue, World.setTexture, invertedScreen,
      and_assoc]
  · simp only [readyFor, BaseTileTexture.readyFor, Bool.and_eq_false_iff,
      decide_eq_false_iff_not]
    exact Or.inr h
  · simp [readyFor, BaseTileTexture.readyFor, setOwnTextureTileInfoFromQueue,
      BaseTileTexture.setOwnTextureTileInfoFromQueue, World.setTexture, invertedScreen,
      setInvertedScreen]
  · simp [readyFor, BaseTileTexture.readyFor, World.setTexture, invertedScreen]

/-- C16 at work: tile 1 of `exampleWorld` sits at cell (0, 0) at scale 1 with
no painter; texture 0 is ready for it once such metadata is recorded, and not
after the manager's flag is toggled. -/
theorem readyFor_spec_witness :
    readyFor 0 1 (setOwnTextureTileInfoFromQueue 0 ⟨0, 0, 1, none, 7, false⟩ exampleWorld)
      = true ∧
    readyFor 0 1 (setInvertedScreen true
      (setOwnTextureTileInfoFromQueue 0 ⟨0, 0, 1, none, 7, false⟩ exampleWorld)) = false :=
  ⟨((readyFor_spec exampleWorld 0).2.1 ⟨0, 0, 1, none, 7, false⟩ 1).mpr (by decide),
    (readyFor_spec (setInvertedScreen true
      (setOwnTextureTileInfoFromQueue 0 ⟨0, 0, 1, none, 7, false⟩ exampleWorld)) 0).2.2.1
      (by decide) 1⟩

/-! ## The size of the base pool -/

theorem allocateBaseTextures_manager (n : Nat) :
    ∀ w, (allocateBaseTextures n w).manager.m_maxTextureCount = w.manager.m_maxTextureCount ∧
      (allocateBaseTextures n w).manager.m_textures.length = w.manager.m_textures.length + n ∧
      (allocateBaseTextures n w).manager.m_tilesTextures = w.manager.m_tilesTextures := by
  induction n with
  | zero => intro w; simp [allocateBaseTextures]
  | succ k ih =>
    intro w
    obtain ⟨h1, h2, h3⟩ := ih
      { (w.setTexture (freshTexId w) BaseTileTexture.fresh) with
        manager := { (w.setTexture (freshTexId w) BaseTileTexture.fresh).manager with
          m_textures := (w.setTexture (freshTexId w) BaseTileTexture.fresh).manager.m_textures
            ++ [freshTexId w] } }
    simp only [allocateBaseTextures]
    refine ⟨by rw [h1]; rfl, ?_, by rw [h3]; rfl⟩
    rw [h2]
    simp [World.setTexture]
    omega

theorem allocateLayerTextures_manager (n : Nat) :
    ∀ w, (allocateLayerTextures n w).manager.m_maxTextureCount = w.manager.m_maxTextureCount ∧
      (allocateLayerTextures n w).manager.m_textures = w.manager.m_textures := by
  induction n with
  | zero => intro w; simp [allocateLayerTextures]
  | succ k ih =>
    intro w
    obtain ⟨h1, h2⟩ := ih
      { (w.setTexture (freshTexId w) BaseTileTexture.fresh) with
        manager := { (w.setTexture (freshTexId w) BaseTileTexture.fresh).manager with
          m_tilesTextures :=
            (w.setTexture (freshTexId w) BaseTileTexture.fresh).manager.m_tilesTextures
              ++ [freshTexId w] } }
    simp only [allocateLayerTextures]
    exact ⟨by rw [h1]; rfl, by rw [h2]; rfl⟩

/-- After `allocateTiles` the base pool has the larger of its previous size
and `m_maxTextureCount`, which is unchanged. -/
theorem allocateTiles_manager (w : World) :
    (allocateTiles w).manager.m_maxTextureCount = w.manager.m_maxTextureCount ∧
      ((allocateTiles w).manager.m_textures.length : Int) =
        max (w.manager.m_textures.length : Int) w.manager.m_maxTextureCount := by
  unfold allocateTiles
  simp only
  obtain ⟨h1, h2, -⟩ := allocateBaseTextures_manager
    (w.manager.m_maxTextureCount - w.manager.m_textures.length).toNat w
  obtain ⟨h3, h4⟩ := allocateLayerTextures_manager
    (LAYER_TILES - (allocateBaseTextures
      (w.manager.m_maxTextureCount - w.manager.m_textures.length).toNat
      w).manager.m_tilesTextures.length).toNat
    (allocateBaseTextures (w.manager.m_maxTextureCount - w.manager.m_textures.length).toNat w)
  refine ⟨by rw [h3, h1], ?_⟩
  rw [h4, h2]
  omega

theorem setMaxTextureCount_ignored (max : Int) (w : World)
    (h : w.manager.m_maxTextureCount ≠ 0
      ∧ (max > MAX_TEXTURE_ALLOCATION ∨ max ≤ w.manager.m_maxTextureCount)) :
    setMaxTextureCount max w = w := by
  simp only [setMaxTextureCount]
  rw [if_pos h]

theorem setMaxTextureCount_effective (max : Int) (w : World)
    (h : ¬ (w.manager.m_maxTextureCount ≠ 0
      ∧ (max > MAX_TEXTURE_ALLOCATION ∨ max ≤ w.manager.m_maxTextureCount))) :
    (setMaxTextureCount max w).manager.m_maxTextureCount = min max MAX_TEXTURE_ALLOCATION ∧
      ((setMaxTextureCount max w).manager.m_textures.length : Int) =
        Max.max (w.manager.m_textures.length : Int) (min max MAX_TEXTURE_ALLOCATION) := by
  have hc : (if max < MAX_TEXTURE_ALLOCATION then max else MAX_TEXTURE_ALLOCATION)
      = min max MAX_TEXTURE_ALLOCATION := by
    unfold MAX_TEXTURE_ALLOCATION
    split <;> omega
  simp only [setMaxTextureCount]
  rw [if_neg h]
  obtain ⟨h1, h2⟩ := allocateTiles_manager
    { w with manager := { w.manager with
        m_maxTextureCount := if max < MAX_TEXTURE_ALLOCATION then max
          else MAX_TEXTURE_ALLOCATION } }
  rw [h1, h2]
  simp only [hc]
  exact ⟨trivial, trivial⟩

/-- C17 as stated fails once the count is nonzero: from a fresh manager,
after `setMaxTextureCount(10)` the call `setMaxTextureCount(60)`, with 60
greater than the current count 10, is ignored: the count stays 10 and is not
clamped to 51. -/
theorem setMaxTextureCount_above_cap_ignored :
    (setMaxTextureCount 10 createdWorld).manager.m_maxTextureCount = 10 ∧
      (setMaxTextureCount 60 (setMaxTextureCount 10 createdWorld)).manager.m_maxTextureCount
        = 10 ∧
      (10 : Int) ≠ min 60 MAX_TEXTURE_ALLOCATION := by
  have h1 : (setMaxTextureCount 10 createdWorld).manager.m_maxTextureCount = 10 :=
    (setMaxTextureCount_effective 10 createdWorld (by decide)).1
  refine ⟨h1, ?_, by decide⟩
  rw [setMaxTextureCount_ignored 60 _ (by rw [h1]; decide)]
  exact h1

/-- C17 (amended): for every manager state and every `n`: when the current max
texture count is 0, or when `n` is greater than it and at most
`MAX_TEXTURE_ALLOCATION` = 51, after `setMaxTextureCount(n)` the max texture
count equals `min(n, 51)`; when the current count is not 0 and `n` is above
51, the request is ignored and nothing changes; and for every `n` the max
texture count never decreases once it is positive. -/
theorem setMaxTextureCount_count (n : Int) (w : World) :
    (w.manager.m_maxTextureCount = 0 →
      (setMaxTextureCount n w).manager.m_maxTextureCount = min n MAX_TEXTURE_ALLOCATION) ∧
    (w.manager.m_maxTextureCount < n → n ≤ MAX_TEXTURE_ALLOCATION →
      (setMaxTextureCount n w).manager.m_maxTextureCount = min n MAX_TEXTURE_ALLOCATION) ∧
    (w.manager.m_maxTextureCount ≠ 0 → MAX_TEXTURE_ALLOCATION < n →
      setMaxTextureCount n w = w) ∧
    (0 < w.manager.m_maxTextureCount →
      w.manager.m_maxTextureCount ≤ (setMaxTextureCount n w).manager.m_maxTextureCount) := by
  refine ⟨fun h0 => ?_, fun hlt hle => ?_, fun hne hgt => ?_, fun hpos => ?_⟩
  · exact (setMaxTextureCount_effective n w (by simp [h0])).1
  · exact (setMaxTextureCount_effective n w (by
      rintro ⟨-, h | h⟩
      · exact absurd hle (not_le.mpr h)
      · exact absurd hlt (not_lt.mpr h))).1
  · exact setMaxTextureCount_ignored n w ⟨hne, Or.inl hgt⟩
  · by_cases hig : w.manager.m_maxTextureCount ≠ 0
        ∧ (n > MAX_TEXTURE_ALLOCATION ∨ n ≤ w.manager.m_maxTextureCount)
    · rw [setMaxTextureCount_ignored n w hig]
    · rw [(setMaxTextureCount_effective n w hig).1]
      have hne : w.manager.m_maxTextureCount ≠ 0 := ne_of_gt hpos
      have h1 : ¬ (n > MAX_TEXTURE_ALLOCATION ∨ n ≤ w.manager.m_maxTextureCount) :=
        fun h => hig ⟨hne, h⟩
      unfold MAX_TEXTURE_ALLOCATION at h1 ⊢
      omega

/-- C17 (amended) at work from a fresh manager: 60 is clamped to 51, and
after 10 a request of 20 is granted. -/
theorem setMaxTextureCount_count_witness :
    (setMaxTextureCount 60 createdWorld).manager.m_maxTextureCount
      = min 60 MAX_TEXTURE_ALLOCATION ∧
    (setMaxTextureCount 20 (setMaxTextureCount 10 createdWorld)).manager.m_maxTextureCount
      = min 20 MAX_TEXTURE_ALLOCATION :=
  ⟨(setMaxTextureCount_count 60 createdWorld).1 (by decide),
    (setMaxTextureCount_count 20 (setMaxTextureCount 10 createdWorld)).2.1
      (by rw [(setMaxTextureCount_count 10 createdWorld).1 (by decide)]; decide) (by decide)⟩

/-- C18: in every state reached from a freshly constructed manager by any
sequence of `setMaxTextureCount` calls with arbitrary `int` arguments, the
base pool holds at most `MAX_TEXTURE_ALLOCATION` = 51 textures; no further
call reduces its size; and after a call that takes effect (one that does not
return at line 328) the size of the base pool is the maximum of its previous
size and the new max texture count. -/
theorem basePool_bounded (w0 : World) (h0 : w0.manager = TilesManager.create)
    (calls : List Int) :
    ((setMaxTextureCounts calls w0).manager.m_textures.length : Int)
      ≤ MAX_TEXTURE_ALLOCATION ∧
    ∀ n : Int,
      (setMaxTextureCounts calls w0).manager.m_textures.length
        ≤ (setMaxTextureCount n (setMaxTextureCounts calls w0)).manager.m_textures.length ∧
      (¬ ((setMaxTextureCounts calls w0).manager.m_maxTextureCount ≠ 0
          ∧ (n > MAX_TEXTURE_ALLOCATION
            ∨ n ≤ (setMaxTextureCounts calls w0).manager.m_maxTextureCount)) →
        ((setMaxTextureCount n (setMaxTextureCounts calls w0)).manager.m_textures.length : Int)
          = Max.max ((setMaxTextureCounts calls w0).manager.m_textures.length : Int)
              (setMaxTextureCount n
                (setMaxTextureCounts calls w0)).manager.m_maxTextureCount) := by
  have hstep : ∀ (n : Int) (w : World),
      (w.manager.m_textures.length : Int) ≤ MAX_TEXTURE_ALLOCATION →
      ((setMaxTextureCount n w).manager.m_textures.length : Int) ≤ MAX_TEXTURE_ALLOCATION := by
    intro n w hw
    by_cases hig : w.manager.m_maxTextureCount ≠ 0
        ∧ (n > MAX_TEXTURE_ALLOCATION ∨ n ≤ w.manager.m_maxTextureCount)
    · rw [setMaxTextureCount_ignored n w hig]
      exact hw
    · rw [(setMaxTextureCount_effective n w hig).2]
      unfold MAX_TEXTURE_ALLOCATION at hw ⊢
      omega
  have hinv : ∀ (cs : List Int) (w : World),
      (w.manager.m_textures.length : Int) ≤ MAX_TEXTURE_ALLOCATION →
      ((setMaxTextureCounts cs w).manager.m_textures.length : Int)
        ≤ MAX_TEXTURE_ALLOCATION := by
    intro cs
    induction cs with
    | nil => exact fun w hw => hw
    | cons c cs ih =>
      intro w hw
      exact ih (setMaxTextureCount c w) (hstep c w hw)
  have hstart : (w0.manager.m_textures.length : Int) ≤ MAX_TEXTURE_ALLOCATION := by
    rw [h0]
    decide
  refine ⟨hinv calls w0 hstart, fun n => ?_⟩
  by_cases hig : (setMaxTextureCounts calls w0).manager.m_maxTextureCount ≠ 0
      ∧ (n > MAX_TEXTURE_ALLOCATION
        ∨ n ≤ (setMaxTextureCounts calls w0).manager.m_maxTextureCount)
  · rw [setMaxTextureCount_ignored n _ hig]
    exact ⟨le_refl _, fun h => absurd hig h⟩
  · obtain ⟨h1, h2⟩ := setMaxTextureCount_effective n _ hig
    refine ⟨?_, fun _ => by rw [h2, h1]⟩
    have : ((setMaxTextureCounts calls w0).manager.m_textures.length : Int)
        ≤ ((setMaxTextureCount n (setMaxTextureCounts calls w0)).manager.m_textures.length :
          Int) := by
      rw [h2]
      exact le_max_left _ _
    exact_mod_cast this

/-- C18 at work from `createdWorld` with the calls -4, 60, 10, 200: the first
call stores -4 and allocates nothing, 60 is ignored, 10 fills the pool to 10
textures and 200 is ignored. -/
theorem basePool_bounded_witness :
    ((setMaxTextureCounts [-4, 60, 10, 200] createdWorld).manager.m_textures.length : Int)
      ≤ MAX_TEXTURE_ALLOCATION ∧
    (setMaxTextureCounts [-4, 60, 10, 200] createdWorld).manager.m_textures.length
      ≤ (setMaxTextureCount 7
          (setMaxTextureCounts [-4, 60, 10, 200] createdWorld)).manager.m_textures.length :=
  ⟨(basePool_bounded createdWorld rfl [-4, 60, 10, 200]).1,
    ((basePool_bounded createdWorld rfl [-4, 60, 10, 200]).2 7).1⟩

/-! ## The grid of a tile set -/

theorem floatOfInt_exact (n : Int) (h0 : 0 ≤ n) (h : n ≤ 16777216) : floatOfInt n = n := by
  unfold floatOfInt floatSpacing
  by_cases hlt : n.natAbs < 16777216
  · simp only [hlt, if_true, Nat.div_one, Nat.mod_one, Nat.mul_zero, Nat.zero_lt_one,
      Nat.mul_one]
    rcases eq_or_lt_of_le h0 with h1 | h1
    · subst h1; rfl
    · rw [Int.sign_eq_one_of_pos h1]
      omega
  · have hn : n = 16777216 := by omega
    subst hn
    decide

theorem prepareTile_fold_area {σ : Type}
    (prepareTile : Bool → Int → Int → TiledTexture × σ → TiledTexture × σ) (repaint : Bool)
    (hkeep : ∀ r x y q, (prepareTile r x y q).1.m_area = q.1.m_area)
    (cells : List (Int × Int)) :
    ∀ q : TiledTexture × σ,
      (cells.foldl (fun q c => prepareTile repaint c.1 c.2 q) q).1.m_area = q.1.m_area := by
  induction cells with
  | nil => exact fun q => rfl
  | cons c cs ih =>
    intro q
    rw [List.foldl_cons, ih, hkeep]

/-- C19 as stated fails for an area with one zero dimension: on
`zeroWidthTiledTexture`, whose area has width 0 and height 5 at pixel (10, 0),
`prepare` does not return early; it sets the grid to one column and one row
and calls `prepareTile` on cell (0, 0) (the callback here records its
cells). -/
theorem prepare_zero_width_prepares_cell :
    TiledTexture.prepare (fun _ _ s => s) (fun _ s => s)
        (fun _ x y q => (q.1, q.2 ++ [(x, y)])) false
        (zeroWidthTiledTexture, ([] : List (Int × Int)))
      = ({ zeroWidthTiledTexture with m_area := ⟨0, 0, 1, 1⟩ }, [(0, 0)]) := by
  decide

/-- C19 (amended): for every surface with a layer whose scaled visible area
has zero width and zero height, `prepare` sets the width and the height of the
grid area to 0 and returns without calling `prepareTile` for any cell: its
result is the tile set with that grid area and the state in which the used
level of every existing tile was set to -1, whatever `prepareTile` would do;
so no tile is created and no paint operation is scheduled. -/
theorem prepare_empty_area {σ : Type} (setUsedLevel : TileId → Int → σ → σ)
    (removeOperationsForFilter : Scale → σ → σ)
    (prepareTile : Bool → Int → Int → TiledTexture × σ → TiledTexture × σ)
    (repaint : Bool) (tt : TiledTexture) (s : σ) (surface : PaintedSurface) (layer : Nat)
    (hs : tt.m_surface = some surface) (hl : surface.layer = some layer)
    (hw : surface.scaledArea.width = 0) (hh : surface.scaledArea.height = 0) :
    TiledTexture.prepare setUsedLevel removeOperationsForFilter prepareTile repaint (tt, s)
      = ({ tt with m_area := { tt.m_area with width := 0, height := 0 } },
          tt.m_tiles.foldl (fun s1 tile => setUsedLevel tile (-1) s1) s) := by
  simp [TiledTexture.prepare, hs, hl, hw, hh]

/-- C19 (amended) at work: a tile set with tiles 3 and 4 whose surface shows
the empty area at (10, 20); the callback that would record cells is not
called, and the used levels of tiles 3 and 4 are reset (recorded here in a
list). -/
theorem prepare_empty_area_witness :
    TiledTexture.prepare (fun tile level s => s ++ [(Int.ofNat tile, level)]) (fun _ s => s)
        (fun _ x y q => (q.1, q.2 ++ [(x, y)])) false
        ({ zeroWidthTiledTexture with
            m_surface := some { layer := some 1, scaledArea := ⟨10, 20, 0, 0⟩, scale := 1 },
            m_area := ⟨1, 1, 2, 2⟩, m_tiles := [3, 4] }, ([] : List (Int × Int)))
      = ({ zeroWidthTiledTexture with
            m_surface := some { layer := some 1, scaledArea := ⟨10, 20, 0, 0⟩, scale := 1 },
            m_area := ⟨1, 1, 0, 0⟩, m_tiles := [3, 4] }, [(3, -1), (4, -1)]) :=
  prepare_empty_area _ _ _ false _ _ { layer := some 1, scaledArea := ⟨10, 20, 0, 0⟩, scale := 1 }
    1 rfl rfl rfl rfl

/-- C20 as stated fails for a negative coordinate and beyond the exact range
of `float`: the area of width 20 at x = -10 overlaps cell (-1, 0), and the
area of width 257 at x = 16776960 overlaps cell (65536, 0), but neither cell
is in the grid rectangle (`int` division truncates toward zero, and the
`float` of 16777217 is 16777216). -/
theorem gridArea_misses_cell :
    ((⟨-10, 0, 20, 10⟩ : IntRect).overlapsCell (-1) 0 ∧
      ¬ (gridArea ⟨-10, 0, 20, 10⟩).containsCell (-1) 0) ∧
    ((⟨16776960, 0, 257, 10⟩ : IntRect).overlapsCell 65536 0 ∧
      ¬ (gridArea ⟨16776960, 0, 257, 10⟩).containsCell 65536 0) := by
  decide

/-- C20 (amended): outward rounding for non-negative coordinates in the exact
range of `float`: for every integer pixel-space area (x, y, w, h) with
x ≥ 0, y ≥ 0, w > 0, h > 0, x + w ≤ 2^24 and y + h ≤ 2^24, and the 256x256
layer tile size, the grid rectangle computed by `prepare` contains every tile
cell (i, j) whose pixel square overlaps the area; and that rectangle is the
`m_area` `prepare` ends with, for every `prepareTile` that leaves `m_area`
alone (as the one of the source does). -/
theorem gridArea_covers (area : IntRect) (hx : 0 ≤ area.x) (hy : 0 ≤ area.y)
    (hw : 0 < area.width) (hh : 0 < area.height)
    (hr : area.x + area.width ≤ 16777216) (hb : area.y + area.height ≤ 16777216) :
    (∀ i j, area.overlapsCell i j → (gridArea area).containsCell i j) ∧
    (∀ (σ : Type) (setUsedLevel : TileId → Int → σ → σ)
      (removeOperationsForFilter : Scale → σ → σ)
      (prepareTile : Bool → Int → Int → TiledTexture × σ → TiledTexture × σ)
      (repaint : Bool) (tt : TiledTexture) (s : σ) (surface : PaintedSurface) (layer : Nat),
      tt.m_surface = some surface → surface.layer = some layer →
      surface.scaledArea = area →
      (∀ r x y q, (prepareTile r x y q).1.m_area = q.1.m_area) →
      (TiledTexture.prepare setUsedLevel removeOperationsForFilter prepareTile repaint
        (tt, s)).1.m_area = gridArea area) := by
  constructor
  · intro i j hov
    have hfx : floatOfInt (area.x + area.width) = area.x + area.width :=
      floatOfInt_exact _ (by omega) hr
    have hfy : floatOfInt (area.y + area.height) = area.y + area.height :=
      floatOfInt_exact _ (by omega) hb
    have hdx : area.x.tdiv 256 = area.x / 256 := Int.tdiv_eq_ediv hx (by norm_num)
    have hdy : area.y.tdiv 256 = area.y / 256 := Int.tdiv_eq_ediv hy (by norm_num)
    unfold IntRect.overlapsCell at hov
    unfold IntRect.containsCell gridArea ceilfDivTile
    unfold LAYER_TILE_SIZE at hov ⊢
    simp only [hfx, hfy, hdx, hdy]
    omega
  · intro σ setUsedLevel removeOperationsForFilter prepareTile repaint tt s surface layer
      hs hl ha hkeep
    have hne : ¬ (surface.scaledArea.width = 0 ∧ surface.scaledArea.height = 0) := by
      rw [ha]
      omega
    simp only [TiledTexture.prepare, hs, hl, hne, if_false]
    rw [prepareTile_fold_area prepareTile repaint hkeep, ha]

/-- C20 (amended) at work: the area of 1000 by 300 pixels at (300, 600)
overlaps cell (5, 3), which is in the grid rectangle, columns 1 to 5 and rows
2 to 3. -/
theorem gridArea_covers_witness :
    gridArea ⟨300, 600, 1000, 300⟩ = ⟨1, 2, 5, 2⟩ ∧
      (gridArea ⟨300, 600, 1000, 300⟩).containsCell 5 3 :=
  ⟨by decide, (gridArea_covers ⟨300, 600, 1000, 300⟩ (by decide) (by decide) (by decide)
    (by decide) (by decide) (by decide)).1 5 3 (by decide)⟩

/-! ## The tiles of a tile set -/

theorem getTile_starved {init : BaseTile} {tt : TiledTexture} {g : GLThread}
    (h : Starved init tt g) (x y : Int) :
    tt.getTile g.world.tiles x y
      = if init.m_x = x ∧ init.m_y = y then tt.m_tiles.head? else none := by
  unfold TiledTexture.getTile
  have hu := h.unbound
  generalize tt.m_tiles = l at hu
  by_cases hc : init.m_x = x ∧ init.m_y = y
  · rw [if_pos hc]
    cases l with
    | nil => rfl
    | cons a rest =>
      have := hu a (by simp)
      simp [List.find?, this, BaseTile.create, hc]
  · rw [if_neg hc]
    rw [List.find?_eq_none]
    intro a ha
    have := hu a ha
    simpa [this, BaseTile.create] using hc

theorem reserveTexture_exhausted (rm : RemoveTexture) (tile : TileId) (w : World)
    (he : w.manager.m_availableTilesTextures = []) (ht : (w.tiles tile).m_texture = none)
    (hl : (w.tiles tile).m_isLayerTile = true) : reserveTexture rm tile w = some w := by
  simp [reserveTexture, getAvailableTexture, ownsItsTexture, ht, hl, he, layerScan]

theorem prepareTile_starved (rm : RemoveTexture) (init : BaseTile) (this : PainterId)
    (repaint : Bool) (x y : Int) (tt : TiledTexture) (g : GLThread) (h : Starved init tt g) :
    ∃ tt1 g1, TiledTexture.prepareTile rm init this repaint x y (tt, g) = some (tt1, g1) ∧
      Starved init tt1 g1 ∧ tt1.m_area = tt.m_area ∧ tt1.m_surface = tt.m_surface ∧
      g1.operations = g.operations ∧
      ((init.m_x = x ∧ init.m_y = y ∧ tt.m_tiles ≠ [] ∧ tt1.m_tiles = tt.m_tiles ∧
          g1.nextTile = g.nextTile) ∨
        ((¬ (init.m_x = x ∧ init.m_y = y) ∨ tt.m_tiles = []) ∧
          tt1.m_tiles = tt.m_tiles ++ [g.nextTile] ∧ g1.nextTile = g.nextTile + 1)) := by
  have hg := getTile_starved h x y
  cases hf : tt.getTile g.world.tiles x y with
  | some tile =>
    have hmem : tile ∈ tt.m_tiles := by
      unfold TiledTexture.getTile at hf
      exact List.mem_of_find?_eq_some hf
    have hst := h.unbound tile hmem
    have hr := reserveTexture_exhausted rm tile g.world h.exhausted
      (by simp [hst, BaseTile.create]) (by simp [hst, BaseTile.create])
    refine ⟨tt, g, ?_, h, rfl, rfl, rfl, Or.inl ?_⟩
    · simp only [TiledTexture.prepareTile, TiledTexture.locateTile, hf, hr, hst]
      simp [BaseTile.create]
    · rw [hf] at hg
      by_cases hc : init.m_x = x ∧ init.m_y = y
      · refine ⟨hc.1, hc.2, ?_, rfl, rfl⟩
        intro hnil
        rw [hnil] at hmem
        simp at hmem
      · rw [if_neg hc] at hg
        simp at hg
  | none =>
    have hst : (g.world.setTile g.nextTile (BaseTile.create init true)).tiles g.nextTile
        = BaseTile.create init true := by
      simp [World.setTile]
    have hr := reserveTexture_exhausted rm g.nextTile
      (g.world.setTile g.nextTile (BaseTile.create init true))
      (by simpa [World.setTile] using h.exhausted)
      (by rw [hst]; rfl) (by rw [hst]; rfl)
    refine ⟨{ tt with m_tiles := tt.m_tiles ++ [g.nextTile] },
      { g with world := g.world.setTile g.nextTile (BaseTile.create init true),
               nextTile := g.nextTile + 1 }, ?_, ?_, rfl, rfl, rfl, Or.inr ⟨?_, rfl, rfl⟩⟩
    · simp only [TiledTexture.prepareTile, TiledTexture.locateTile, hf, hr, hst]
      simp [BaseTile.create]
    · refine ⟨by simpa [World.setTile] using h.exhausted, ?_⟩
      intro tile ht
      simp only [List.mem_append, List.mem_singleton] at ht
      by_cases hn : tile = g.nextTile
      · subst hn; exact hst
      · rcases ht with ht | ht
        · simpa [World.setTile, Function.update, hn] using h.unbound tile ht
        · exact absurd ht hn
    · rw [hf] at hg
      by_cases hc : init.m_x = x ∧ init.m_y = y
      · rw [if_pos hc] at hg
        right
        cases hl : tt.m_tiles with
        | nil => rfl
        | cons a l => rw [hl] at hg; simp at hg
      · exact Or.inl hc


theorem prepare_threeCell_unfold (rm : RemoveTexture) (init : BaseTile) (this : PainterId)
    (repaint : Bool) (g : GLThread) :
    prepare rm init this repaint (threeCellTiledTexture, some g)
      = prepareTileStep rm init this repaint 2 0
          (prepareTileStep rm init this repaint 1 0
            (prepareTileStep rm init this repaint 0 0
              ({ threeCellTiledTexture with m_area := ⟨0, 0, 3, 1⟩ }, some g))) := by
  rfl

theorem prepare_threeCell_starved (rm : RemoveTexture) (init : BaseTile) (this : PainterId)
    (repaint : Bool) (g : GLThread) (hex : g.world.manager.m_availableTilesTextures = []) :
    ∃ tt1 g1, prepare rm init this repaint (threeCellTiledTexture, some g) = (tt1, some g1) ∧
      Starved init tt1 g1 ∧ tt1.m_area = ⟨0, 0, 3, 1⟩ ∧
      tt1.m_surface = threeCellTiledTexture.m_surface ∧ g1.operations = g.operations ∧
      (tt1.m_tiles = [g.nextTile, g.nextTile + 1] ∨
        tt1.m_tiles = [g.nextTile, g.nextTile + 1, g.nextTile + 2]) := by
  rw [prepare_threeCell_unfold]
  have h0 : Starved init { threeCellTiledTexture with m_area := ⟨0, 0, 3, 1⟩ } g :=
    ⟨hex, by simp [threeCellTiledTexture]⟩
  obtain ⟨ta, ga, ea, sa, aa, fa, oa, ca⟩ := prepareTile_starved rm init this repaint 0 0 _ g h0
  obtain ⟨tb, gb, eb, sb, ab, fb, ob, cb⟩ := prepareTile_starved rm init this repaint 1 0 ta ga sa
  obtain ⟨tc, gc, ec, sc, ac, fc, oc, cc⟩ := prepareTile_starved rm init this repaint 2 0 tb gb sb
  refine ⟨tc, gc, ?_, sc, ?_, ?_, ?_, ?_⟩
  · simp only [prepareTileStep, ea, eb, ec]
  · rw [ac, ab, aa]
  · rw [fc, fb, fa]
  · rw [oc, ob, oa]
  · have hta : ta.m_tiles = [g.nextTile] ∧ ga.nextTile = g.nextTile + 1 := by
      rcases ca with ⟨_, _, hne, _, _⟩ | ⟨_, h1, h2⟩
      · exact absurd rfl hne
      · exact ⟨by simpa [threeCellTiledTexture] using h1, h2⟩
    rcases cb with ⟨hx, _, _, h1, h2⟩ | ⟨_, h1, h2⟩
    · rcases cc with ⟨hx2, _, _, _, _⟩ | ⟨_, h3, _⟩
      · omega
      · left
        rw [h3, h1, hta.1, h2, hta.2]
        rfl
    · rcases cc with ⟨_, _, _, h3, _⟩ | ⟨_, h3, _⟩
      · left
        rw [h3, h1, hta.1, hta.2]
        rfl
      · right
        rw [h3, h1, hta.1, h2, hta.2]
        rfl

/-- The loop of `draw` (lines 175-193) asks for a redraw exactly when it
starts with the flag set or meets a tile inside the area that is not ready. -/
theorem drawLoop_eq_true (ready : TileId → Bool) (inside : TileId → Prop)
    [DecidablePred inside] (l : List TileId) :
    ∀ acc : Bool,
      (l.foldl (fun askRedraw tile => if inside tile then askRedraw || !ready tile else askRedraw)
          acc = true) ↔ (acc = true ∨ ∃ tile ∈ l, inside tile ∧ ready tile = false) := by
  induction l with
  | nil => intro acc; simp
  | cons a rest ih =>
    intro acc
    rw [List.foldl_cons, ih]
    by_cases hin : inside a
    · cases hr : ready a <;> cases acc <;> simp [hin, hr]
    · cases acc <;> simp [hin]


/-- The pool runs dry within one `prepare`: in `exampleThread` the layer
snapshot holds two textures and `threeCellTiledTexture` needs three.  Tiles
100 and 101 get textures 10 and 11 and are bound to (0, 0) and (1, 0), each
with a paint scheduled; tile 102, created for (2, 0), gets none and stays at
the coordinates of the constructor, so `getTile(2, 0)` is null. -/
theorem prepare_pool_of_two_leaves_third_tile_unbound :
    ∃ tt g, prepare removeTextureAlways unboundTile 9 false
        (threeCellTiledTexture, some exampleThread) = (tt, some g) ∧
      tt.m_tiles = [100, 101, 102] ∧
      (g.world.tiles 100).m_texture = some 10 ∧ (g.world.tiles 101).m_texture = some 11 ∧
      (g.world.tiles 102).m_texture = none ∧
      (g.world.tiles 102).m_x = -1 ∧ (g.world.tiles 102).m_y = -1 ∧
      g.operations.map PaintTileOperation.m_tile = [100, 101] ∧
      tt.getTile g.world.tiles 2 0 = none :=
  ⟨_, _, rfl, by decide, by decide, by decide, by decide, by decide, by decide, by decide,
    by decide⟩

/-- C21 fails when a tile is created and gets no texture: from
`threeCellTiledTexture` in `exhaustedThread` (no tile yet, the layer snapshot
empty) `prepare` sets the grid to the cells (0, 0), (1, 0), (2, 0), and
afterwards `getTile` is null for (0, 0) or for (1, 0), both inside the area,
whatever state the constructor of `BaseTile` leaves.  `prepareTile` returns at
line 127, before `setContents` at line 129 gives the tile it created its
coordinates, so `getTile` cannot find that tile. -/
theorem prepare_exhausted_pool_cell_without_tile (rm : RemoveTexture) (init : BaseTile)
    (repaint : Bool) :
    ∃ tt g, prepare rm init 9 repaint (threeCellTiledTexture, some exhaustedThread)
        = (tt, some g) ∧
      tt.m_area.containsCell 0 0 ∧ tt.m_area.containsCell 1 0 ∧
      (tt.getTile g.world.tiles 0 0 = none ∨ tt.getTile g.world.tiles 1 0 = none) := by
  obtain ⟨tt, g, h, hs, ha, -, -, -⟩ :=
    prepare_threeCell_starved rm init 9 repaint exhaustedThread rfl
  refine ⟨tt, g, h, by rw [ha]; decide, by rw [ha]; decide, ?_⟩
  rw [getTile_starved hs, getTile_starved hs]
  by_cases hx : init.m_x = 0
  · right
    rw [if_neg]
    omega
  · left
    rw [if_neg]
    exact fun h => hx h.1

/-- C22 fails for the same reason: starting from the empty set of
`threeCellTiledTexture`, one `prepare` in `exhaustedThread` leaves the two
distinct tiles 100 and 101 in the set with the same coordinates, the ones the
constructor gave them, whatever these are. -/
theorem prepare_exhausted_pool_duplicate_coordinates (rm : RemoveTexture) (init : BaseTile)
    (repaint : Bool) :
    threeCellTiledTexture.m_tiles = [] ∧
    ∃ tt g, prepare rm init 9 repaint (threeCellTiledTexture, some exhaustedThread)
        = (tt, some g) ∧
      100 ∈ tt.m_tiles ∧ 101 ∈ tt.m_tiles ∧
      (g.world.tiles 100).m_x = (g.world.tiles 101).m_x ∧
      (g.world.tiles 100).m_y = (g.world.tiles 101).m_y := by
  obtain ⟨tt, g, h, hs, -, -, -, ht⟩ :=
    prepare_threeCell_starved rm init 9 repaint exhaustedThread rfl
  have h100 : 100 ∈ tt.m_tiles := by
    rcases ht with ht | ht <;> rw [ht] <;> simp [exhaustedThread]
  have h101 : 101 ∈ tt.m_tiles := by
    rcases ht with ht | ht <;> rw [ht] <;> simp [exhaustedThread]
  refine ⟨rfl, tt, g, h, h100, h101, ?_, ?_⟩
  · rw [hs.unbound 100 h100, hs.unbound 101 h101]
  · rw [hs.unbound 100 h100, hs.unbound 101 h101]

/-- C23 fails for a cell whose tile was created by that very call: from
`threeCellTiledTexture` in `exhaustedThread`, for every state of a new tile
whose coordinates lie outside the grid, `prepare` creates tiles for the three
cells, none of them gets a texture, nothing is scheduled, and the `draw` that
follows returns false: the tiles kept the coordinates of the constructor
(`prepareTile` returned at line 127), so the loop of `draw` skips them. -/
theorem draw_after_exhausted_prepare_no_redraw (rm : RemoveTexture) (init : BaseTile)
    (repaint : Bool)
    (hout : ¬ (⟨0, 0, 3, 1⟩ : IntRect).containsCell init.m_x init.m_y) :
    ∃ tt g, prepare rm init 9 repaint (threeCellTiledTexture, some exhaustedThread)
        = (tt, some g) ∧
      tt.m_area = ⟨0, 0, 3, 1⟩ ∧ tt.m_tiles ≠ [] ∧
      (∀ tile ∈ tt.m_tiles, (g.world.tiles tile).m_texture = none) ∧
      g.operations = [] ∧ draw tt g.world = some false := by
  obtain ⟨tt, g, h, hs, ha, hsurf, hops, ht⟩ :=
    prepare_threeCell_starved rm init 9 repaint exhaustedThread rfl
  refine ⟨tt, g, h, ha, ?_, ?_, by rw [hops]; rfl, ?_⟩
  · rcases ht with ht | ht <;> rw [ht] <;> simp
  · intro tile hm
    rw [hs.unbound tile hm]
    rfl
  · unfold draw TiledTexture.draw
    rw [ha, hsurf]
    simp only [threeCellTiledTexture]
    have hz : ¬ ((⟨0, 0, 3, 1⟩ : IntRect).width = 0 ∨ (⟨0, 0, 3, 1⟩ : IntRect).height = 0) := by
      decide
    rw [if_neg hz]
    simp only [Option.some.injEq]
    have hloop := drawLoop_eq_true (fun tile => isTileReady tile g.world)
      (fun tile => (⟨0, 0, 3, 1⟩ : IntRect).containsCell (g.world.tiles tile).m_x
        (g.world.tiles tile).m_y) tt.m_tiles false
    rw [← Bool.not_eq_true, hloop]
    rintro (h0 | ⟨tile, hm, hin, -⟩)
    · simp at h0
    · rw [hs.unbound tile hm] at hin
      exact hout hin

/-- C23's failure at work for the constructor state `unboundTile`, at
(-1, -1). -/
theorem draw_after_exhausted_prepare_no_redraw_witness :
    ∃ tt g, prepare removeTextureAlways unboundTile 9 false
        (threeCellTiledTexture, some exhaustedThread) = (tt, some g) ∧
      tt.m_area = ⟨0, 0, 3, 1⟩ ∧ tt.m_tiles ≠ [] ∧
      (∀ tile ∈ tt.m_tiles, (g.world.tiles tile).m_texture = none) ∧
      g.operations = [] ∧ draw tt g.world = some false :=
  draw_after_exhausted_prepare_no_redraw removeTextureAlways unboundTile false (by decide)

/-! ## Drawing a tile set -/

/-- C24: for every tile set with a surface, `draw` returns, and it returns
true if and only if the grid area has positive width and height and some tile
of the set whose (x, y) lies inside the area is not ready.  Tiles outside the
area never influence the result: `draw` answers the same on the set without
them, and the same whatever the readiness of a tile outside the area is.  It
returns false whenever the area has zero width or zero height. -/
theorem draw_spec (isTileReady : TileId → Bool) (tiles : TileId → BaseTile) (t : TiledTexture)
    (hs : t.m_surface ≠ none) :
    ∃ b, t.draw isTileReady tiles = some b ∧
      (b = true ↔ (0 < t.m_area.width ∧ 0 < t.m_area.height ∧
        ∃ tile ∈ t.m_tiles, t.m_area.containsCell (tiles tile).m_x (tiles tile).m_y ∧
          isTileReady tile = false)) ∧
      ({ t with m_tiles := t.m_tiles.filter fun tile =>
            decide (t.m_area.containsCell (tiles tile).m_x (tiles tile).m_y) }.draw
          isTileReady tiles = some b) ∧
      (∀ ready : TileId → Bool,
        (∀ tile, t.m_area.containsCell (tiles tile).m_x (tiles tile).m_y →
          ready tile = isTileReady tile) →
        t.draw ready tiles = some b) ∧
      (t.m_area.width = 0 ∨ t.m_area.height = 0 → b = false) := by
  obtain ⟨surface, hsurf⟩ := Option.ne_none_iff_exists'.mp hs
  have key : ∀ (ready : TileId → Bool) (l : List TileId),
      ({ t with m_tiles := l }.draw ready tiles = some true ↔
        (0 < t.m_area.width ∧ 0 < t.m_area.height ∧
          ∃ tile ∈ l, t.m_area.containsCell (tiles tile).m_x (tiles tile).m_y ∧
            ready tile = false)) ∧
      ∃ b, { t with m_tiles := l }.draw ready tiles = some b := by
    intro ready l
    unfold TiledTexture.draw
    by_cases hz : t.m_area.width = 0 ∨ t.m_area.height = 0
    · simp only [hz, if_true]
      refine ⟨?_, false, rfl⟩
      simp only [Option.some.injEq, Bool.false_eq_true, false_iff, not_and]
      intro hw hh
      rcases hz with hz | hz <;> omega
    · simp only [hz, if_false, hsurf, Option.some.injEq]
      refine ⟨?_, _, rfl⟩
      rw [drawLoop_eq_true ready
        (fun tile => t.m_area.containsCell (tiles tile).m_x (tiles tile).m_y) l false]
      simp only [Bool.false_eq_true, false_or]
      constructor
      · rintro ⟨tile, hm, hin, hr⟩
        have h1 := hin
        unfold IntRect.containsCell at h1
        refine ⟨?_, ?_, tile, hm, hin, hr⟩
        · omega
        · omega
      · rintro ⟨_, _, h⟩
        exact h
  have hsame : ∀ (ready : TileId → Bool) (l : List TileId) (b : Bool),
      t.draw isTileReady tiles = some b →
      ((∃ tile ∈ l, t.m_area.containsCell (tiles tile).m_x (tiles tile).m_y ∧
          ready tile = false) ↔
        ∃ tile ∈ t.m_tiles, t.m_area.containsCell (tiles tile).m_x (tiles tile).m_y ∧
          isTileReady tile = false) →
      { t with m_tiles := l }.draw ready tiles = some b := by
    intro ready l b hb hiff
    obtain ⟨h1, b1, hb1⟩ := key ready l
    obtain ⟨h2, -⟩ := key isTileReady t.m_tiles
    have h2' : t.draw isTileReady tiles = some true ↔ _ := h2
    have e : { t with m_tiles := l }.draw ready tiles = some true ↔
        t.draw isTileReady tiles = some true := by
      rw [h1, h2', hiff]
    rw [hb1, hb] at e
    rw [hb1]
    cases b1 <;> cases b <;> simp at e ⊢
  obtain ⟨h0, b, hb⟩ := key isTileReady t.m_tiles
  have hb' : t.draw isTileReady tiles = some b := hb
  have h0' : t.draw isTileReady tiles = some true ↔ _ := h0
  refine ⟨b, hb', ?_, ?_, ?_, ?_⟩
  · rw [← h0', hb']
    simp
  · refine hsame isTileReady _ b hb' ?_
    constructor
    · rintro ⟨tile, hm, hin, hr⟩
      exact ⟨tile, (List.mem_filter.mp hm).1, hin, hr⟩
    · rintro ⟨tile, hm, hin, hr⟩
      exact ⟨tile, List.mem_filter.mpr ⟨hm, by simpa using hin⟩, hin, hr⟩
  · intro ready hready
    refine hsame ready t.m_tiles b hb' ?_
    constructor
    · rintro ⟨tile, hm, hin, hr⟩
      exact ⟨tile, hm, hin, by rw [← hready tile hin]; exact hr⟩
    · rintro ⟨tile, hm, hin, hr⟩
      exact ⟨tile, hm, hin, by rw [hready tile hin]; exact hr⟩
  · intro hz
    cases b with
    | false => rfl
    | true =>
      have := (h0'.mp hb')
      rcases hz with hz | hz <;> omega

/-- C24 at work: `oneCellTiledTexture` on `exampleWorld`, where tiles 3 and 4
lie in the cell of the grid and hold no texture, so neither is ready: `draw`
returns true. -/
theorem draw_spec_witness :
    ∃ b, oneCellTiledTexture.draw (fun tile => isTileReady tile exampleWorld)
        exampleWorld.tiles = some b ∧
      (b = true ↔ (0 < oneCellTiledTexture.m_area.width ∧
        0 < oneCellTiledTexture.m_area.height ∧
        ∃ tile ∈ oneCellTiledTexture.m_tiles,
          oneCellTiledTexture.m_area.containsCell (exampleWorld.tiles tile).m_x
            (exampleWorld.tiles tile).m_y ∧
          isTileReady tile exampleWorld = false)) ∧
      b = true := by
  obtain ⟨b, hb, hiff, -, -, -⟩ := draw_spec (fun tile => isTileReady tile exampleWorld)
    exampleWorld.tiles oneCellTiledTexture (by decide)
  refine ⟨b, hb, hiff, ?_⟩
  have h2 : oneCellTiledTexture.draw (fun tile => isTileReady tile exampleWorld)
      exampleWorld.tiles = some true := by decide
  rw [hb] at h2
  simpa using h2

/-! ## Preparing one tile -/

theorem isTileReady_setUsedLevel (tile : TileId) (level : Int) (w : World) :
    isTileReady tile (setUsedLevel tile level w) = isTileReady tile w := by
  unfold isTileReady setUsedLevel
  cases h : (w.tiles tile).m_texture with
  | none => simp [World.setTile, h]
  | some tx =>
    by_cases hx : tx = tx <;>
      simp [World.setTile, World.setUsedLevel, World.setTexture, h, readyFor,
        BaseTileTexture.readyFor, invertedScreen, Function.update]

/-- A request that finds no texture leaves the asking tile as it was. -/
theorem getAvailableTexture_miss_tile (rm : RemoveTexture) (owner : TileId) (w w' : World)
    (h : getAvailableTexture rm owner w = some (none, w')) : w'.tiles owner = w.tiles owner := by
  unfold getAvailableTexture at h
  cases hown : ownsItsTexture w owner with
  | some tx =>
    rw [hown] at h
    simp only at h
    split at h
    · split at h <;> simp at h
    · split at h <;> simp at h
  | none =>
    rw [hown] at h
    simp only at h
    by_cases hl : (w.tiles owner).m_isLayerTile = true
    · simp only [hl, if_true] at h
      obtain ⟨r, w1, hs, -, h2⟩ :=
        layerScan_spec rm owner w w.manager.m_availableTilesTextures w (scanInv_start owner w)
      rw [hs] at h
      cases r with
      | none =>
        simp only [Option.some.injEq, Prod.mk.injEq, true_and] at h
        subst h
        exact (h2 rfl).owner_tile
      | some lt =>
        simp only at h
        split at h <;> simp at h
    · have hl' : (w.tiles owner).m_isLayerTile = false := by simpa using hl
      simp only [hl', Bool.false_eq_true, if_false] at h
      cases hf : farthestScan w w.manager.m_availableTextures (none, 0, UINT_MAX) with
      | none => simp [hf] at h
      | some r =>
        rw [hf] at h
        cases r with
        | none =>
          simp only [Option.some.injEq, Prod.mk.injEq, true_and] at h
          subst h
          rfl
        | some ft =>
          simp only at h
          obtain ⟨b, w1, ha, ao, -⟩ := acquire_false_spec rm ft owner w
          rw [ha] at h
          cases b with
          | false =>
            simp only [Option.some.injEq, Prod.mk.injEq, true_and] at h
            subst h
            by_cases hch : w1.tiles owner = w.tiles owner
            · exact hch
            · exact absurd rfl (ao.tiles owner hch).2.1
          | true =>
            simp only at h
            split at h <;> simp at h

/-- A tile that holds no texture after `reserveTexture` is as it was before. -/
theorem reserveTexture_none_tile (rm : RemoveTexture) (tile : TileId) (w w2 : World)
    (hr : reserveTexture rm tile w = some w2) (hn : (w2.tiles tile).m_texture = none) :
    w2.tiles tile = w.tiles tile := by
  unfold reserveTexture at hr
  cases hg : getAvailableTexture rm tile w with
  | none => simp [hg] at hr
  | some res =>
    obtain ⟨r, w1⟩ := res
    rw [hg] at hr
    cases r with
    | none =>
      simp only [Option.some.injEq] at hr
      subst hr
      exact getAvailableTexture_miss_tile rm tile w w1 hg
    | some texture =>
      simp only [Option.some.injEq] at hr
      subst hr
      simp [World.setTile] at hn

theorem locateTile_surface (init : BaseTile) (x y : Int) (p : TiledTexture × GLThread) :
    (TiledTexture.locateTile init x y p).2.1.m_surface = p.1.m_surface ∧
      (TiledTexture.locateTile init x y p).2.1.m_area = p.1.m_area ∧
      (TiledTexture.locateTile init x y p).2.2.operations = p.2.operations := by
  unfold TiledTexture.locateTile
  split <;> simp

theorem setUsedLevel_tile (tile : TileId) (level : Int) (w : World) :
    (setUsedLevel tile level w).tiles tile = { w.tiles tile with m_usedLevel := level } := by
  unfold setUsedLevel
  cases h : (w.tiles tile).m_texture <;>
    simp [World.setTile, World.setUsedLevel, World.setTexture]

/-- Whether lines 132-144 schedule a paint operation, in terms of the tile as
`reserveTexture` left it. -/
theorem paintTile_operations (this : PainterId) (surface : PaintedSurface) (repaint : Bool)
    (x y : Int) (tile : TileId) (g : GLThread) (hl : surface.layer ≠ none) :
    (TiledTexture.paintTile this surface repaint x y tile g).operations
      = if (repaint = true ∨
            isTileReady tile
              (g.world.setTile tile ((g.world.tiles tile).setContents this x y surface.scale))
                = false ∨
            (g.world.tiles tile).m_dirty = true) ∧ (g.world.tiles tile).m_repaintPending = false
        then g.operations ++ [⟨tile, surface⟩] else g.operations := by
  obtain ⟨layer, hlayer⟩ := Option.ne_none_iff_exists'.mp hl
  have hd : ((g.world.setTile tile
      ((g.world.tiles tile).setContents this x y surface.scale)).tiles tile).m_dirty
        = (g.world.tiles tile).m_dirty := by
    simp [World.setTile, BaseTile.setContents]
  have hp : ((g.world.setTile tile
      ((g.world.tiles tile).setContents this x y surface.scale)).tiles tile).m_repaintPending
        = (g.world.tiles tile).m_repaintPending := by
    simp [World.setTile, BaseTile.setContents]
  unfold TiledTexture.paintTile
  dsimp only
  generalize g.world.setTile tile ((g.world.tiles tile).setContents this x y surface.scale)
    = w3 at hd hp ⊢
  rw [← hd, ← hp]
  cases repaint with
  | true =>
    simp only [if_true, Bool.or_true, Bool.true_or, hlayer, Option.isSome_some, Bool.and_true,
      Bool.true_and, true_or, true_and]
    simp only [World.setTile, Function.update_same, BaseTile.fullInval, setUsedLevel_tile]
    cases (w3.tiles tile).m_repaintPending <;> simp
  | false =>
    simp only [Bool.false_eq_true, if_false, Bool.false_or, false_or, hlayer,
      Option.isSome_some, Bool.and_true, isTileReady_setUsedLevel, setUsedLevel_tile]
    cases (w3.tiles tile).m_repaintPending <;> cases (w3.tiles tile).m_dirty <;>
      cases isTileReady tile w3 <;> simp

/-- C25: `prepareTile(repaint, x, y)`, called as `prepare` calls it (the tile
set has a surface and the surface a layer), returns whenever `reserveTexture`
does, and it schedules exactly one paint operation for the tile, after those
already scheduled, if the tile obtained a texture (`tile->texture()` is set
after `reserveTexture`) and (repaint is set, or the tile with its contents
bound is not ready, or the tile is dirty) and the tile has no repaint pending;
in every other case it schedules none.  When no texture was obtained the
objects are left as `reserveTexture` left them and the tile is as it was found
or created: the contents are not bound and the used level of the tile is not
set to 0. -/
theorem prepareTile_schedules (rm : RemoveTexture) (init : BaseTile) (this : PainterId)
    (repaint : Bool) (x y : Int) (p : TiledTexture × GLThread) (surface : PaintedSurface)
    (tile : TileId) (tt1 : TiledTexture) (g1 : GLThread) (w2 : World)
    (hs : p.1.m_surface = some surface) (hl : surface.layer ≠ none)
    (hloc : TiledTexture.locateTile init x y p = (tile, tt1, g1))
    (hr : reserveTexture rm tile g1.world = some w2) :
    ∃ r, TiledTexture.prepareTile rm init this repaint x y p = some r ∧ r.1 = tt1 ∧
      (((w2.tiles tile).m_texture ≠ none ∧
          (repaint = true ∨
            isTileReady tile
                (w2.setTile tile ((w2.tiles tile).setContents this x y surface.scale)) = false ∨
            (w2.tiles tile).m_dirty = true) ∧
          (w2.tiles tile).m_repaintPending = false) →
        r.2.operations = p.2.operations ++ [⟨tile, surface⟩]) ∧
      (¬ ((w2.tiles tile).m_texture ≠ none ∧
          (repaint = true ∨
            isTileReady tile
                (w2.setTile tile ((w2.tiles tile).setContents this x y surface.scale)) = false ∨
            (w2.tiles tile).m_dirty = true) ∧
          (w2.tiles tile).m_repaintPending = false) →
        r.2.operations = p.2.operations) ∧
      ((w2.tiles tile).m_texture = none →
        r.2.world = w2 ∧ r.2.world.tiles tile = g1.world.tiles tile) := by
  obtain ⟨h1, -, h3⟩ := locateTile_surface init x y p
  rw [hloc] at h1 h3
  simp only at h1 h3
  unfold TiledTexture.prepareTile
  simp only [hloc, hr]
  cases htex : (w2.tiles tile).m_texture with
  | none =>
    simp only [Option.isNone_none, if_true]
    refine ⟨_, rfl, rfl, ?_, ?_, ?_⟩
    · simp
    · intro _; exact h3
    · intro _; exact ⟨rfl, reserveTexture_none_tile rm tile g1.world w2 hr htex⟩
  | some tx =>
    simp only [Option.isNone_some, Bool.false_eq_true, if_false, h1, hs]
    refine ⟨_, rfl, rfl, ?_, ?_, ?_⟩
    · rintro ⟨-, hwant⟩
      rw [paintTile_operations _ _ _ _ _ _ _ hl, if_pos hwant, h3]
    · intro hnot
      rw [paintTile_operations _ _ _ _ _ _ _ hl, if_neg (fun h => hnot ⟨by simp, h⟩), h3]
    · simp

/-- C25 at work: the first cell of `threeCellTiledTexture` in `exampleThread`;
tile 100 is created, obtains texture 10, is not ready and has no repaint
pending, and one operation is scheduled for it. -/
theorem prepareTile_schedules_witness :
    ∃ r, TiledTexture.prepareTile removeTextureAlways unboundTile 9 false 0 0
        (threeCellTiledTexture, exampleThread) = some r ∧
      (reservedLayerWorld.tiles 100).m_texture = some 10 ∧
      r.2.operations
        = [⟨100, { layer := some 1, scaledArea := ⟨0, 0, 768, 256⟩, scale := 1 }⟩] := by
  obtain ⟨r, hr, -, h1, -, -⟩ := prepareTile_schedules removeTextureAlways unboundTile 9 false
    0 0 (threeCellTiledTexture, exampleThread)
    { layer := some 1, scaledArea := ⟨0, 0, 768, 256⟩, scale := 1 } 100
    { threeCellTiledTexture with m_tiles := [100] }
    { exampleThread with
      world := exampleWorld.setTile 100 (BaseTile.create unboundTile true), nextTile := 101 }
    reservedLayerWorld rfl (by decide) rfl rfl
  exact ⟨r, hr, by decide, h1 ⟨by decide, by decide, by decide⟩⟩

/-! ## The layer scan, texture by texture -/

theorem guardedAcquire_true {rm : RemoveTexture} {cond : Bool} {x : TexId} {c : TileId}
    {w w1 : World} (h : guardedAcquire rm cond x c w = some (true, w1)) :
    cond = true ∧ acquire rm x (some c) false w = some (true, w1) := by
  cases cond
  · simp [guardedAcquire] at h
  · exact ⟨rfl, by simpa [guardedAcquire] using h⟩

theorem guardedAcquire_false {rm : RemoveTexture} {cond : Bool} {x : TexId} {c : TileId}
    {w w1 : World} (h : guardedAcquire rm cond x c w = some (false, w1)) (hc : cond = true) :
    acquire rm x (some c) false w = some (false, w1) := by
  subst hc
  simpa [guardedAcquire] using h

theorem guardedAcquire_busy_unowned (rm : RemoveTexture) (cond : Bool) (t : TexId) (c : TileId)
    (w : World) (hb : (w.textures t).m_busy = true) (ho : (w.textures t).m_owner ≠ some c) :
    ∃ w1, guardedAcquire rm cond t c w = some (false, w1) ∧ w1.textures = w.textures ∧
      w1.tiles c = w.tiles c := by
  cases cond with
  | false => exact ⟨w, by simp [guardedAcquire], rfl, rfl⟩
  | true =>
    obtain ⟨b, w1, ha, ao, aa⟩ := acquire_false_spec rm t c w
    have hbf := aa.busy_fail hb ho
    subst hbf
    refine ⟨w1, by simpa [guardedAcquire] using ha, ao.fail_same rfl, ?_⟩
    by_cases hch : w1.tiles c = w.tiles c
    · exact hch
    · exact absurd rfl (ao.tiles c hch).2.1

theorem acquire_false_frame (rm : RemoveTexture) (t : TexId) (c : TileId) (w w1 : World)
    (h : acquire rm t (some c) false w = some (false, w1)) :
    w1.textures = w.textures ∧ w1.tiles c = w.tiles c := by
  obtain ⟨b, w', ha, ao, -⟩ := acquire_false_spec rm t c w
  rw [h] at ha
  simp only [Option.some.injEq, Prod.mk.injEq] at ha
  obtain ⟨rfl, rfl⟩ := ha
  refine ⟨ao.fail_same rfl, ?_⟩
  by_cases hch : w1.tiles c = w.tiles c
  · exact hch
  · exact absurd rfl (ao.tiles c hch).2.1

/-- The scan of a single texture: either it takes the texture, whose owner
then has no repaint pending, which meets one of the three tests and on which
`acquire` succeeds; or it passes over it, and then one of the three fails. -/
theorem layerScan_singleton (rm : RemoveTexture) (owner : TileId) (t : TexId) (w : World) :
    (∃ w1, layerScan rm owner [t] w = some (some t, w1) ∧ ownerRepaintPending w t = false ∧
        layerCandidate w owner t ∧ AcquireSucceeds rm owner t w w1) ∨
      (∃ w1, layerScan rm owner [t] w = some (none, w1) ∧
        (ownerRepaintPending w t = true ∨ ¬ layerCandidate w owner t ∨
          ¬ ∃ w2, AcquireSucceeds rm owner t w w2)) := by
  by_cases hpend : ownerRepaintPending w t = true
  · exact Or.inr ⟨w, by simp [layerScan, hpend], Or.inl hpend⟩
  have hp : ownerRepaintPending w t = false := by simpa using hpend
  obtain ⟨b1, w1, ha1, ao1, aa1⟩ := acquire_false_spec rm t owner w
  rcases Option.eq_none_or_eq_some (w.textures t).m_owner with ho | ⟨o, ho⟩
  · -- unowned: line 242 calls `acquire`
    cases b1 with
    | true =>
      exact Or.inl ⟨w1, by simp [layerScan, hp, guardedAcquire, ho, ha1], hp, Or.inl ho,
        Or.inl ha1⟩
    | false =>
      have hbusy : (w.textures t).m_busy = true := by
        by_contra hnb
        have := aa1.free_ok ho (by simpa using hnb)
        simp at this
      obtain ⟨ht1, -⟩ := acquire_false_frame rm t owner w w1 ha1
      have hb1 : (w1.textures t).m_busy = true := by rw [ht1]; exact hbusy
      have ho1 : (w1.textures t).m_owner ≠ some owner := by rw [ht1, ho]; simp
      obtain ⟨w2, e2, ht2, -⟩ := guardedAcquire_busy_unowned rm
        (decide ((w1.textures t).m_usedLevel ≠ 0)) t owner w1 hb1 ho1
      have hb2 : (w2.textures t).m_busy = true := by rw [ht2]; exact hb1
      have ho2 : (w2.textures t).m_owner ≠ some owner := by rw [ht2]; exact ho1
      obtain ⟨w3, e3, -, -⟩ := guardedAcquire_busy_unowned rm
        (decide ((w2.textures t).scale ≠ (w2.tiles owner).m_scale)) t owner w2 hb2 ho2
      refine Or.inr ⟨w3, ?_, Or.inr (Or.inr ?_)⟩
      · have hg1 : guardedAcquire rm (w.textures t).m_owner.isNone t owner w
            = some (false, w1) := by
          simp [guardedAcquire, ho, ha1]
        simp only [layerScan, hp, Bool.false_eq_true, if_false, hg1, e2, e3]
      · rintro ⟨wx, hx | ⟨wj, hj, -, -, hx⟩⟩
        · rw [ha1] at hx; simp at hx
        · rw [ha1] at hj
          simp only [Option.some.injEq, Prod.mk.injEq, true_and] at hj
          subst hj
          obtain ⟨b, w', ha, -, aa⟩ := acquire_false_spec rm t owner w1
          have := aa.busy_fail hb1 ho1
          subst this
          rw [ha] at hx; simp at hx
  · -- owned: line 242 does not call `acquire`
    have hg1 : guardedAcquire rm (w.textures t).m_owner.isNone t owner w = some (false, w) := by
      simp [guardedAcquire, ho]
    by_cases hlev : (w.textures t).m_usedLevel ≠ 0
    · have hg2 : guardedAcquire rm (decide ((w.textures t).m_usedLevel ≠ 0)) t owner w
          = some (b1, w1) := by
        simp [guardedAcquire, hlev, ha1]
      cases b1 with
      | true =>
        exact Or.inl ⟨w1, by simp only [layerScan, hp, Bool.false_eq_true, if_false, hg1, hg2],
          hp, Or.inr (Or.inl hlev), Or.inl ha1⟩
      | false =>
        obtain ⟨ht1, htile1⟩ := acquire_false_frame rm t owner w w1 ha1
        by_cases hsc : (w.textures t).scale ≠ (w.tiles owner).m_scale
        · obtain ⟨b3, w3, ha3, -, -⟩ := acquire_false_spec rm t owner w1
          have hg3 : guardedAcquire rm
              (decide ((w1.textures t).scale ≠ (w1.tiles owner).m_scale)) t owner w1
                = some (b3, w3) := by
            rw [ht1, htile1]
            simp [guardedAcquire, hsc, ha3]
          cases b3 with
          | true =>
            exact Or.inl ⟨w3,
              by simp only [layerScan, hp, Bool.false_eq_true, if_false, hg1, hg2, hg3],
              hp, Or.inr (Or.inl hlev), Or.inr ⟨w1, ha1, hlev, hsc, ha3⟩⟩
          | false =>
            refine Or.inr ⟨w3,
              by simp only [layerScan, hp, Bool.false_eq_true, if_false, hg1, hg2, hg3],
              Or.inr (Or.inr ?_)⟩
            rintro ⟨wx, hx | ⟨wj, hj, -, -, hx⟩⟩
            · rw [ha1] at hx; simp at hx
            · rw [ha1] at hj
              simp only [Option.some.injEq, Prod.mk.injEq, true_and] at hj
              subst hj
              rw [ha3] at hx; simp at hx
        · have hg3 : guardedAcquire rm
              (decide ((w1.textures t).scale ≠ (w1.tiles owner).m_scale)) t owner w1
                = some (false, w1) := by
            rw [ht1, htile1]
            simp [guardedAcquire, hsc]
          refine Or.inr ⟨w1,
            by simp only [layerScan, hp, Bool.false_eq_true, if_false, hg1, hg2, hg3],
            Or.inr (Or.inr ?_)⟩
          rintro ⟨wx, hx | ⟨wj, -, -, hs, -⟩⟩
          · rw [ha1] at hx; simp at hx
          · exact hsc hs
    · have hg2 : guardedAcquire rm (decide ((w.textures t).m_usedLevel ≠ 0)) t owner w
          = some (false, w) := by
        simp [guardedAcquire, hlev]
      by_cases hsc : (w.textures t).scale ≠ (w.tiles owner).m_scale
      · have hg3 : guardedAcquire rm
            (decide ((w.textures t).scale ≠ (w.tiles owner).m_scale)) t owner w
              = some (b1, w1) := by
          simp [guardedAcquire, hsc, ha1]
        cases b1 with
        | true =>
          exact Or.inl ⟨w1,
            by simp only [layerScan, hp, Bool.false_eq_true, if_false, hg1, hg2, hg3],
            hp, Or.inr (Or.inr hsc), Or.inl ha1⟩
        | false =>
          refine Or.inr ⟨w1,
            by simp only [layerScan, hp, Bool.false_eq_true, if_false, hg1, hg2, hg3],
            Or.inr (Or.inr ?_)⟩
          rintro ⟨wx, hx | ⟨wj, -, hl, -, -⟩⟩
          · rw [ha1] at hx; simp at hx
          · exact hlev hl
      · have hg3 : guardedAcquire rm
            (decide ((w.textures t).scale ≠ (w.tiles owner).m_scale)) t owner w
              = some (false, w) := by
          simp [guardedAcquire, hsc]
        refine Or.inr ⟨w,
          by simp only [layerScan, hp, Bool.false_eq_true, if_false, hg1, hg2, hg3],
          Or.inr (Or.inl ?_)⟩
        rintro (h | h | h)
        · rw [ho] at h; simp at h
        · exact hlev h
        · exact hsc h


/-- The scan of a list is the scan of its first texture followed, when that
is passed over, by the scan of the rest. -/
theorem layerScan_cons (rm : RemoveTexture) (owner : TileId) (x : TexId) (rest : List TexId)
    (w : World) :
    layerScan rm owner (x :: rest) w
      = match layerScan rm owner [x] w with
        | none => none
        | some (some t, w1) => some (some t, w1)
        | some (none, w1) => layerScan rm owner rest w1 := by
  by_cases hpend : ownerRepaintPending w x = true
  · simp [layerScan, hpend]
  · have hp : ownerRepaintPending w x = false := by simpa using hpend
    obtain ⟨b1, w1, e1, -⟩ := guardedAcquire_spec rm (w.textures x).m_owner.isNone x owner w
    cases b1 with
    | true => simp only [layerScan, hp, Bool.false_eq_true, if_false, e1]
    | false =>
      obtain ⟨b2, w2, e2, -⟩ :=
        guardedAcquire_spec rm (decide ((w1.textures x).m_usedLevel ≠ 0)) x owner w1
      cases b2 with
      | true => simp only [layerScan, hp, Bool.false_eq_true, if_false, e1, e2]
      | false =>
        obtain ⟨b3, w3, e3, -⟩ := guardedAcquire_spec rm
          (decide ((w2.textures x).scale ≠ (w2.tiles owner).m_scale)) x owner w2
        cases b3 with
        | true => simp only [layerScan, hp, Bool.false_eq_true, if_false, e1, e2, e3]
        | false => simp only [layerScan, hp, Bool.false_eq_true, if_false, e1, e2, e3]

/-- A scan that returns a texture returns the one it is at. -/
theorem layerScan_singleton_result (rm : RemoveTexture) (owner : TileId) (x : TexId)
    (w : World) :
    ∃ (b : Bool) (w1 : World), layerScan rm owner [x] w = some (if b then some x else none, w1) := by
  rcases layerScan_singleton rm owner x w with ⟨w1, h, -⟩ | ⟨w1, h, -⟩
  · exact ⟨true, w1, by simpa using h⟩
  · exact ⟨false, w1, by simpa using h⟩

/-- The scan of a list in two parts. -/
theorem layerScan_append (rm : RemoveTexture) (owner : TileId) (a b : List TexId) :
    ∀ w, layerScan rm owner (a ++ b) w
      = match layerScan rm owner a w with
        | none => none
        | some (some t, w1) => some (some t, w1)
        | some (none, w1) => layerScan rm owner b w1 := by
  induction a with
  | nil => intro w; simp [layerScan]
  | cons x a ih =>
    intro w
    rw [List.cons_append, layerScan_cons rm owner x (a ++ b), layerScan_cons rm owner x a]
    obtain ⟨bx, w1, h⟩ := layerScan_singleton_result rm owner x w
    cases bx with
    | true => simp [h]
    | false => simp [h, ih]

/-- No texture is both taken and passed over. -/
theorem layerTaken_not_passed {rm : RemoveTexture} {owner : TileId} {w : World}
    {pre : List TexId} {t : TexId} {w1 : World} (ht : LayerTaken rm owner w pre t w1) :
    ¬ LayerPassed rm owner w pre t := by
  rintro ⟨wu, hu, hc⟩
  obtain ⟨wp, hp, h1, h2, h3⟩ := ht
  rw [hp] at hu
  simp only [Option.some.injEq, Prod.mk.injEq, true_and] at hu
  subst hu
  rcases hc with hc | hc | hc
  · rw [h1] at hc; simp at hc
  · exact hc h2
  · exact hc ⟨w1, h3⟩

/-- The scan of `pre ++ t :: post` returns `t` when it takes `t` after `pre`. -/
theorem layerScan_of_taken (rm : RemoveTexture) (owner : TileId) (w : World)
    (pre : List TexId) (t : TexId) (post : List TexId) (w1 : World) :
    LayerTaken rm owner w pre t w1 →
      ∃ w2, layerScan rm owner (pre ++ t :: post) w = some (some t, w2) := by
  rintro ⟨wp, hp, h1, h2, h3⟩
  rw [layerScan_append, hp]
  simp only
  rw [layerScan_cons]
  rcases layerScan_singleton rm owner t wp with ⟨w2, h, -⟩ | ⟨w2, -, hc⟩
  · exact ⟨w2, by simp [h]⟩
  · exfalso
    rcases hc with hc | hc | hc
    · rw [h1] at hc; simp at hc
    · exact hc h2
    · exact hc ⟨w1, h3⟩

/-- The layer scan, texture by texture: it returns the first texture of the
list that it takes, having passed over every texture before it; when it
returns none it has passed over all. -/
theorem layerScan_first (rm : RemoveTexture) (owner : TileId) (l : List TexId) :
    ∀ w, ∃ r w', layerScan rm owner l w = some (r, w') ∧
      (∀ t, r = some t → ∃ pre post, l = pre ++ t :: post ∧
        LayerTaken rm owner w pre t w' ∧
        ∀ p u q, pre = p ++ u :: q → LayerPassed rm owner w p u) ∧
      (r = none → ∀ p u q, l = p ++ u :: q → LayerPassed rm owner w p u) := by
  induction l with
  | nil =>
    intro w
    refine ⟨none, w, rfl, by simp, fun _ p u q h => ?_⟩
    simp at h
  | cons x rest ih =>
    intro w
    rw [layerScan_cons]
    rcases layerScan_singleton rm owner x w with ⟨w1, h, h1, h2, h3⟩ | ⟨w1, h, hc⟩
    · refine ⟨some x, w1, by simp [h], fun t ht => ?_, by simp⟩
      cases ht
      refine ⟨[], rest, rfl, ⟨w, rfl, h1, h2, h3⟩, fun p u q hpq => ?_⟩
      simp at hpq
    · have hx : LayerPassed rm owner w [] x := ⟨w, rfl, hc⟩
      have hshift : ∀ p u, LayerPassed rm owner w1 p u → LayerPassed rm owner w (x :: p) u := by
        rintro p u ⟨wu, hu, hcu⟩
        refine ⟨wu, ?_, hcu⟩
        rw [layerScan_cons, h]
        exact hu
      have hsplit : ∀ (l1 : List TexId),
          (∀ p u q, l1 = p ++ u :: q → LayerPassed rm owner w1 p u) →
          ∀ p u q, x :: l1 = p ++ u :: q → LayerPassed rm owner w p u := by
        intro l1 hl1 p u q hpq
        cases p with
        | nil =>
          simp only [List.nil_append, List.cons.injEq] at hpq
          obtain ⟨rfl, -⟩ := hpq
          exact hx
        | cons y p' =>
          simp only [List.cons_append, List.cons.injEq] at hpq
          obtain ⟨rfl, hrest⟩ := hpq
          exact hshift p' u (hl1 p' u q hrest)
      obtain ⟨r, w', hs, g1, g2⟩ := ih w1
      refine ⟨r, w', by simp [h, hs], fun t ht => ?_, fun hr => hsplit rest (g2 hr)⟩
      obtain ⟨pre, post, hl, ⟨wp, hwp, k1, k2, k3⟩, hpass⟩ := g1 t ht
      refine ⟨x :: pre, post, by simp [hl], ⟨wp, ?_, k1, k2, k3⟩, hsplit pre hpass⟩
      rw [layerScan_cons, h]
      exact hwp


/-- The scan makes no call and takes nothing when every texture has an owner
with a repaint pending or meets none of the three tests. -/
theorem layerScan_no_candidate (rm : RemoveTexture) (owner : TileId) (w : World)
    (l : List TexId)
    (h : ∀ u ∈ l, ownerRepaintPending w u = true ∨ ¬ layerCandidate w owner u) :
    layerScan rm owner l w = some (none, w) := by
  induction l with
  | nil => rfl
  | cons x rest ih =>
    have ihr := ih fun u hu => h u (List.mem_cons_of_mem x hu)
    rcases h x (by simp) with hp | hc
    · simp [layerScan, hp, ihr]
    · by_cases hpend : ownerRepaintPending w x = true
      · simp [layerScan, hpend, ihr]
      · have hp : ownerRepaintPending w x = false := by simpa using hpend
        unfold layerCandidate at hc
        simp only [not_or, not_not] at hc
        obtain ⟨h1, h2, h3⟩ := hc
        have g1 : guardedAcquire rm (w.textures x).m_owner.isNone x owner w = some (false, w) := by
          cases ho : (w.textures x).m_owner with
          | none => exact absurd ho h1
          | some o => simp [guardedAcquire]
        have g2 : guardedAcquire rm (decide ((w.textures x).m_usedLevel ≠ 0)) x owner w
            = some (false, w) := by
          simp [guardedAcquire, h2]
        have g3 : guardedAcquire rm
            (decide ((w.textures x).scale ≠ (w.tiles owner).m_scale)) x owner w
              = some (false, w) := by
          simp [guardedAcquire, h3]
        simp only [layerScan, hp, Bool.false_eq_true, if_false, g1, g2, g3, ihr]

/-- C26: for a layer tile that does not already own its texture,
`getAvailableTexture` returns, and it returns the texture `t` exactly when
the scan of the layer snapshot takes `t` at some position: in the world the
scan is in when it reaches `t`, having taken none of the textures before it,
the owner of `t`, if any, has no repaint pending, `t` is unowned or has a used
level other than 0 or a recorded scale other than the tile's, and `acquire` on
`t` succeeds.  Every texture before `t` in the snapshot was passed over: in
the world the scan was in when it reached it, its owner had a repaint pending,
or it met none of the three tests, or `acquire` on it did not succeed.  When
the call returns none, every texture of the snapshot was passed over and no
texture changed; it returns none when no texture qualifies, that is when each
has an owner with a repaint pending or meets none of the tests.  So a texture
that has an owner, used level 0 and the scale of the tile is never returned
and keeps its owner. -/
theorem getAvailableTexture_layer_first (rm : RemoveTexture) (w : World) (tile : TileId)
    (hlayer : (w.tiles tile).m_isLayerTile = true) (hnot : ownsItsTexture w tile = none) :
    ∃ r w', getAvailableTexture rm tile w = some (r, w') ∧
      (∀ t, r = some t ↔ ∃ pre post w1,
        w.manager.m_availableTilesTextures = pre ++ t :: post ∧
        LayerTaken rm tile w pre t w1) ∧
      (∀ t, r = some t → ∃ pre post w1,
        w.manager.m_availableTilesTextures = pre ++ t :: post ∧
        LayerTaken rm tile w pre t w1 ∧
        (∀ p u q, pre = p ++ u :: q → LayerPassed rm tile w p u) ∧
        w'.textures = w1.textures ∧ (w'.textures t).m_owner = some tile ∧
        ownerRepaintPending w t = false ∧ layerCandidate w tile t) ∧
      (r = none →
        (∀ p u q, w.manager.m_availableTilesTextures = p ++ u :: q →
          LayerPassed rm tile w p u) ∧
        w'.textures = w.textures) ∧
      ((∀ u ∈ w.manager.m_availableTilesTextures,
          ownerRepaintPending w u = true ∨ ¬ layerCandidate w tile u) → r = none) ∧
      (∀ t o, (w.textures t).m_owner = some o → (w.textures t).m_usedLevel = 0 →
        (w.textures t).scale = (w.tiles tile).m_scale →
        r ≠ some t ∧ (w'.textures t).m_owner = some o) := by
  obtain ⟨r, w1, hs, h1, h2⟩ := layerScan_first rm tile w.manager.m_availableTilesTextures w
  obtain ⟨r', w1', hs', g1, g2⟩ :=
    layerScan_spec rm tile w w.manager.m_availableTilesTextures w (scanInv_start tile w)
  rw [hs] at hs'
  simp only [Option.some.injEq, Prod.mk.injEq] at hs'
  obtain ⟨rfl, rfl⟩ := hs'
  have hconv : ∀ t, (∃ pre post w2, w.manager.m_availableTilesTextures = pre ++ t :: post ∧
      LayerTaken rm tile w pre t w2) → r = some t := by
    rintro t ⟨pre, post, w2, hl, htk⟩
    obtain ⟨w3, h3⟩ := layerScan_of_taken rm tile w pre t post w2 htk
    rw [← hl, hs] at h3
    simp only [Option.some.injEq, Prod.mk.injEq] at h3
    exact h3.1
  have hclaimed : ∀ t o, (w.textures t).m_owner = some o → (w.textures t).m_usedLevel = 0 →
      (w.textures t).scale = (w.tiles tile).m_scale → ¬ layerCandidate w tile t := by
    intro t o ho hl hsc hc
    rcases hc with hc | hc | hc
    · rw [ho] at hc; simp at hc
    · exact hc hl
    · exact hc hsc
  have hcand : ∀ pre t w2, LayerTaken rm tile w pre t w2 → layerCandidate w tile t := by
    rintro pre t w2 ⟨wp, hp, -, hc, -⟩
    obtain ⟨rp, wp', hsp, -, gp⟩ := layerScan_spec rm tile w pre w (scanInv_start tile w)
    rw [hp] at hsp
    simp only [Option.some.injEq, Prod.mk.injEq] at hsp
    obtain ⟨rfl, rfl⟩ := hsp
    have hinv := gp rfl
    unfold layerCandidate at hc ⊢
    rw [hinv.textures_eq, hinv.owner_tile] at hc
    exact hc
  cases r with
  | none =>
    have hinv := g2 rfl
    refine ⟨none, w1, ?_, fun t => ⟨by simp, fun h => by simpa using hconv t h⟩, by simp,
      fun _ => ⟨h2 rfl, hinv.textures_eq⟩, fun _ => rfl, ?_⟩
    · unfold getAvailableTexture
      simp only [hnot, hlayer, if_true, hs]
    · intro t o ho _ _
      exact ⟨by simp, by rw [hinv.textures_eq]; exact ho⟩
  | some t =>
    obtain ⟨pre, post, hl, htk, hp⟩ := h1 t rfl
    have hh := g1 t rfl
    have hmem : t ∈ w1.manager.m_availableTilesTextures := by
      rw [hh.manager_eq]; exact hh.mem
    refine ⟨some t, { w1 with manager := { w1.manager with
        m_availableTilesTextures := w1.manager.m_availableTilesTextures.erase t } }, ?_,
      fun t' => ⟨fun ht' => ?_, fun h => hconv t' h⟩, ?_, by simp, ?_, ?_⟩
    · unfold getAvailableTexture
      simp only [hnot, hlayer, if_true, hs, removeFound, hmem]
    · cases ht'
      exact ⟨pre, post, w1, hl, htk⟩
    · intro t' ht'
      cases ht'
      exact ⟨pre, post, w1, hl, htk, hp, rfl, hh.owner_eq, hh.not_pending, hcand pre t w1 htk⟩
    · intro hall
      exfalso
      rcases hall t hh.mem with hpd | hnc
      · rw [hh.not_pending] at hpd
        simp at hpd
      · exact hnc (hcand pre t w1 htk)
    · intro u o ho hl0 hsc
      have hne : u ≠ t := by
        rintro rfl
        exact hclaimed u o ho hl0 hsc (hcand pre u w1 htk)
      refine ⟨by simpa using fun h => hne h.symm, ?_⟩
      show (w1.textures u).m_owner = some o
      rw [hh.others u hne]
      exact ho

/-- C26 at work: in `ownedWorld` layer tile 3 passes over texture 10, whose
owner has a repaint pending, and takes texture 11, owned at used level 2 by
tile 5, which gives it up. -/
theorem getAvailableTexture_layer_first_witness :
    ∃ r w', getAvailableTexture removeTextureAlways 3 ownedWorld = some (r, w') ∧
      r = some 11 ∧ (w'.textures 11).m_owner = some 3 ∧
      ownedWorld.manager.m_availableTilesTextures = [10, 11] ∧
      LayerPassed removeTextureAlways 3 ownedWorld [] 10 ∧
      ∃ w1, LayerTaken removeTextureAlways 3 ownedWorld [10] 11 w1 := by
  obtain ⟨r, w', h, -, h1, -, -, -⟩ :=
    getAvailableTexture_layer_first removeTextureAlways ownedWorld 3 (by decide) (by decide)
  have h2 : ∃ w2, getAvailableTexture removeTextureAlways 3 ownedWorld = some (some 11, w2) :=
    ⟨_, rfl⟩
  obtain ⟨w2, h2⟩ := h2
  rw [h] at h2
  simp only [Option.some.injEq, Prod.mk.injEq] at h2
  obtain ⟨hr, -⟩ := h2
  obtain ⟨pre, post, w1, hl, htk, hp, -, ho, -, -⟩ := h1 11 hr
  have hsnap : ownedWorld.manager.m_availableTilesTextures = [10, 11] := rfl
  rw [hsnap] at hl
  have hpre : pre = [10] := by
    cases pre with
    | nil => simp at hl
    | cons a pre' =>
      cases pre' with
      | nil => simp at hl; simp [hl.1]
      | cons b pre'' =>
        simp only [List.cons_append, List.cons.injEq] at hl
        obtain ⟨-, -, hl3⟩ := hl
        cases pre'' <;> simp at hl3
  subst hpre
  exact ⟨r, w', h, hr, ho, hsnap, hp [] 10 [] rfl, w1, htk⟩

/-- The second call of `acquire` on one texture matters: in `ownedWorld` with
an owner that refuses when first asked, layer tile 3 passes over texture 10
and reaches texture 11, owned by tile 5 at used level 2 and at another scale;
the call of line 246 fails, the call of line 250 succeeds, and texture 11 is
returned. -/
theorem layer_scan_asks_owner_twice :
    (∃ w1, acquire removeTextureOnSecondAsk 11 (some 3) false ownedWorld = some (false, w1)) ∧
      ∃ w', getAvailableTexture removeTextureOnSecondAsk 3 ownedWorld = some (some 11, w') ∧
        (w'.textures 11).m_owner = some 3 :=
  ⟨⟨_, rfl⟩, _, rfl, by decide⟩

/-! ## A failed acquire on the base path -/

/-- A non-forcing `acquire` fails only on a busy texture or on one whose
owner, another tile, refuses to give it up. -/
theorem acquire_false_reason (rm : RemoveTexture) (self : TexId) (c : TileId) (w w1 : World)
    (h : acquire rm self (some c) false w = some (false, w1)) :
    (w.textures self).m_busy = true ∨
      ∃ o, (w.textures self).m_owner = some o ∧ o ≠ c ∧ (rm (w.tiles o) self).1 = false := by
  simp only [acquire, setOwner, World.log, Bool.and_false, Bool.false_eq_true, if_false] at h
  by_cases hb : (w.textures self).m_busy = true
  · exact Or.inl hb
  · right
    have hb' : (w.textures self).m_busy = false := by simpa using hb
    rcases Option.eq_none_or_eq_some (w.textures self).m_owner with ho | ⟨o, ho⟩
    · simp [ho, hb'] at h
    · refine ⟨o, ho, ?_, ?_⟩
      · rintro rfl
        simp [ho] at h
        split at h <;> simp at h
      · by_cases hoc : o = c
        · subst hoc
          simp [ho] at h
          split at h <;> simp at h
        · have hne : ¬ (some o = some c) := by simpa using hoc
          simp only [ho, hne, if_false, hb', Bool.not_false, if_true, ne_eq,
            not_false_eq_true] at h
          by_contra hacc
          simp only [Bool.not_eq_false] at hacc
          simp [hacc] at h

/-- C27: for a base tile that does not own its texture, if `acquire` fails on
the texture chosen by the farthest-and-oldest scan, `getAvailableTexture`
returns none and the only `acquire` of the run is the one on the chosen
texture.  The base snapshot and the whole manager are unchanged, and so are
the used level and the owner of every texture (no texture object changes).
The failure has one of two causes: the texture is busy, or its owner, another
tile, refused to give it up. -/
theorem getAvailableTexture_base_acquire_fails (rm : RemoveTexture) (w : World) (tile : TileId)
    (f : TexId) (w1 : World) (hbase : (w.tiles tile).m_isLayerTile = false)
    (hnot : ownsItsTexture w tile = none)
    (hf : farthestScan w w.manager.m_availableTextures (none, 0, UINT_MAX) = some (some f))
    (ha : acquire rm f (some tile) false w = some (false, w1)) :
    getAvailableTexture rm tile w = some (none, w1) ∧
      (∃ evs, w1.trace = w.trace ++ evs ∧ acquireTargets evs = [f]) ∧
      w1.manager.m_availableTextures = w.manager.m_availableTextures ∧
      w1.manager = w.manager ∧
      (∀ u, (w1.textures u).m_usedLevel = (w.textures u).m_usedLevel ∧
        (w1.textures u).m_owner = (w.textures u).m_owner) ∧
      w1.textures = w.textures ∧
      ((w.textures f).m_busy = true ∨
        ∃ o, (w.textures f).m_owner = some o ∧ o ≠ tile ∧ (rm (w.tiles o) f).1 = false) := by
  obtain ⟨b, w', ha', ao, aa⟩ := acquire_false_spec rm f tile w
  rw [ha] at ha'
  simp only [Option.some.injEq, Prod.mk.injEq] at ha'
  obtain ⟨rfl, rfl⟩ := ha'
  obtain ⟨evs, he, ht⟩ := aa.trace_shape
  have htex := ao.fail_same rfl
  refine ⟨?_, ⟨_, he, by simp [acquireTargets, ht]⟩, by rw [ao.manager_eq], ao.manager_eq,
    fun u => by rw [htex]; exact ⟨rfl, rfl⟩, htex, acquire_false_reason rm f tile w w1 ha⟩
  unfold getAvailableTexture
  simp only [hnot, hbase, Bool.false_eq_true, if_false, hf, ha]

/-- C27 at work: in `busyWorld` the base scan chooses texture 0 for tile 1, a
paint is in flight on it, `acquire` fails and tile 1 gets no texture; in
`ownedWorld` with an owner that refuses the same happens. -/
theorem getAvailableTexture_base_acquire_fails_witness :
    (∃ w1, getAvailableTexture removeTextureAlways 1 busyWorld = some (none, w1) ∧
      w1.manager.m_availableTextures = [0] ∧ (w1.textures 0).m_owner = some 2 ∧
      w1.textures = busyWorld.textures) ∧
    (∃ w1, getAvailableTexture removeTextureNever 1 ownedWorld = some (none, w1) ∧
      w1.textures = ownedWorld.textures) :=
  ⟨⟨_, (getAvailableTexture_base_acquire_fails removeTextureAlways busyWorld 1 0 _
      (by decide) (by decide) rfl rfl).1, by decide, by decide,
      (getAvailableTexture_base_acquire_fails removeTextureAlways busyWorld 1 0 _
        (by decide) (by decide) rfl rfl).2.2.2.2.2.1⟩,
    ⟨_, (getAvailableTexture_base_acquire_fails removeTextureNever ownedWorld 1 0 _
      (by decide) (by decide) rfl rfl).1,
      (getAvailableTexture_base_acquire_fails removeTextureNever ownedWorld 1 0 _
        (by decide) (by decide) rfl rfl).2.2.2.2.2.1⟩⟩

/-! ## The flags of a delayed release -/

theorem delayedReleaseSound_fresh : BaseTileTexture.fresh.DelayedReleaseSound := by
  constructor <;> simp [BaseTileTexture.fresh]

theorem delayedReleaseSound_producerLock (t : BaseTileTexture) (h : t.DelayedReleaseSound) :
    t.producerLock.DelayedReleaseSound :=
  ⟨fun _ => rfl, h.owner_eq, h.no_stale⟩

theorem delayedReleaseSound_setNotBusy (t : BaseTileTexture) (h : t.DelayedReleaseSound) :
    t.setNotBusy.DelayedReleaseSound := by
  unfold BaseTileTexture.setNotBusy
  cases hd : t.m_delayedRelease with
  | false =>
    have := h.no_stale hd
    constructor <;> simp [hd, this]
  | true =>
    constructor <;> simp [hd]

theorem delayedReleaseSound_release (t : BaseTileTexture) (caller : Option TileId)
    (h : t.DelayedReleaseSound) : (t.release caller).2.DelayedReleaseSound := by
  unfold BaseTileTexture.release
  by_cases ho : t.m_owner = caller
  · cases hb : t.m_busy with
    | false =>
      have hd : t.m_delayedRelease = false := by
        by_contra hc
        have := h.busy (by simpa using hc)
        simp [hb] at this
      have := h.no_stale hd
      constructor <;> simp [ho, hb, hd, this]
    | true =>
      constructor <;> simp [ho, hb]
  · simpa [ho] using h

theorem setOwner_delayedReleaseSound (rm : RemoveTexture) (self : TexId)
    (c : Option TileId) (force : Bool) (w : World) (r : Bool × World)
    (hr : setOwner rm self c force w = some r) (u : TexId)
    (h : (w.textures u).DelayedReleaseSound) : (r.2.textures u).DelayedReleaseSound := by
  by_cases hb : (w.textures self).m_busy = true
  · have : r.2.textures u = w.textures u := by
      simp only [setOwner, hb, Bool.true_and, Bool.not_true, Bool.false_eq_true, if_false] at hr
      split at hr
      · simp at hr
      · simp only [Option.some.injEq] at hr
        subst hr
        rfl
    rw [this]; exact h
  · have hb' : (w.textures self).m_busy = false := by simpa using hb
    by_cases hus : u = self
    · subst hus
      have hd : (w.textures u).m_delayedRelease = false := by
        by_contra hc
        have := h.busy (by simpa using hc)
        simp [hb'] at this
      have hn := h.no_stale hd
      simp only [setOwner, hb', Bool.false_and, Bool.false_eq_true, if_false, Bool.not_false,
        if_true] at hr
      repeat' split at hr
      all_goals simp only [Option.some.injEq] at hr
      all_goals subst hr
      all_goals
        constructor <;>
          simp [World.setTexture, World.setTile, World.log, hd, hn, hb']
    · have : r.2.textures u = w.textures u := by
        simp only [setOwner, hb', Bool.false_and, Bool.false_eq_true, if_false, Bool.not_false,
          if_true] at hr
        repeat' split at hr
        all_goals simp only [Option.some.injEq] at hr
        all_goals subst hr
        all_goals simp [World.setTexture, World.setTile, World.log, Function.update, hus]
      rw [this]; exact h

theorem acquire_delayedReleaseSound (rm : RemoveTexture) (self : TexId)
    (c : Option TileId) (force : Bool) (w : World) (r : Bool × World)
    (hr : acquire rm self c force w = some r) (u : TexId)
    (h : (w.textures u).DelayedReleaseSound) : (r.2.textures u).DelayedReleaseSound := by
  unfold acquire at hr
  simp only [World.log] at hr
  split at hr
  · split at hr
    · simp only [Option.some.injEq] at hr
      subst hr
      by_cases hus : u = self
      · subst hus
        constructor <;> simp [World.setTexture]
      · simpa [World.setTexture, Function.update, hus] using h
    · simp only [Option.some.injEq] at hr
      subst hr
      exact h
  · exact setOwner_delayedReleaseSound rm self c force _ r hr u h

theorem tryAcquire_delayedReleaseSound (rm : RemoveTexture) (self : TexId)
    (c : TileId) (w : World) (r : Bool × World)
    (hr : tryAcquire rm self c w = some r) (u : TexId)
    (h : (w.textures u).DelayedReleaseSound) : (r.2.textures u).DelayedReleaseSound := by
  unfold tryAcquire at hr
  repeat' split at hr
  · exact acquire_delayedReleaseSound rm self (some c) false w r hr u h
  all_goals simp only [Option.some.injEq] at hr
  all_goals subst hr
  all_goals exact h

theorem setTexture_delayedReleaseSound (w : World) (self : TexId) (t : BaseTileTexture)
    (u : TexId) (ht : u = self → t.DelayedReleaseSound)
    (h : (w.textures u).DelayedReleaseSound) :
    ((w.setTexture self t).textures u).DelayedReleaseSound := by
  by_cases hus : u = self
  · subst hus; simpa [World.setTexture] using ht rfl
  · simpa [World.setTexture, Function.update, hus] using h

/-- A call on the texture `self` keeps the flags of every texture sound. -/
theorem runTextureCall_delayedReleaseSound (rm : RemoveTexture) (self : TexId) (w w1 : World)
    (call : TextureCall) (hr : runTextureCall rm self w call = some w1) (u : TexId)
    (h : (w.textures u).DelayedReleaseSound) : (w1.textures u).DelayedReleaseSound := by
  cases call with
  | producerLock =>
    simp only [runTextureCall, Option.some.injEq] at hr
    subst hr
    exact setTexture_delayedReleaseSound w self _ u
      (fun hus => delayedReleaseSound_producerLock _ (hus ▸ h)) h
  | producerRelease =>
    simp only [runTextureCall, Option.some.injEq] at hr
    subst hr
    exact setTexture_delayedReleaseSound w self _ u
      (fun hus => delayedReleaseSound_setNotBusy _ (hus ▸ h)) h
  | producerReleaseAndSwap =>
    simp only [runTextureCall, Option.some.injEq] at hr
    subst hr
    exact setTexture_delayedReleaseSound w self _ u
      (fun hus => delayedReleaseSound_setNotBusy _ (hus ▸ h)) h
  | producerUpdate width height =>
    simp only [runTextureCall, Option.some.injEq] at hr
    subst hr
    refine setTexture_delayedReleaseSound w self _ u (fun hus => ?_) h
    unfold BaseTileTexture.producerUpdate
    split <;> exact delayedReleaseSound_setNotBusy _ (hus ▸ h)
  | acquire owner force =>
    simp only [runTextureCall, Option.map_eq_some'] at hr
    obtain ⟨r, hr, rfl⟩ := hr
    exact acquire_delayedReleaseSound rm self owner force w r hr u h
  | tryAcquire owner =>
    simp only [runTextureCall, Option.map_eq_some'] at hr
    obtain ⟨r, hr, rfl⟩ := hr
    exact tryAcquire_delayedReleaseSound rm self owner w r hr u h
  | setOwner owner =>
    simp only [runTextureCall, Option.map_eq_some'] at hr
    obtain ⟨r, hr, rfl⟩ := hr
    exact setOwner_delayedReleaseSound rm self owner false w r hr u h
  | release owner =>
    simp only [runTextureCall, Option.some.injEq] at hr
    subst hr
    exact setTexture_delayedReleaseSound w self _ u
      (fun hus => delayedReleaseSound_release _ owner (hus ▸ h)) h

/-- Any sequence of calls that returns keeps the flags of a texture sound. -/
theorem runTextureCalls_delayedReleaseSound (rm : RemoveTexture)
    (calls : List (TexId × TextureCall)) (u : TexId) :
    ∀ (w w1 : World), runTextureCalls rm calls w = some w1 →
      (w.textures u).DelayedReleaseSound → (w1.textures u).DelayedReleaseSound := by
  induction calls with
  | nil =>
    intro w w1 hr h
    simp only [runTextureCalls, Option.some.injEq] at hr
    subst hr; exact h
  | cons c cs ih =>
    intro w w1 hr h
    simp only [runTextureCalls] at hr
    cases h1 : runTextureCall rm c.1 w c.2 with
    | none => simp [h1] at hr
    | some w2 =>
      rw [h1] at hr
      exact ih w2 w1 hr (runTextureCall_delayedReleaseSound rm c.1 w w2 c.2 h1 u h)

/-- C28: in every state of a texture reached from a freshly constructed one
by any sequence of `producerLock`, `producerRelease`, `producerReleaseAndSwap`,
`producerUpdate`, `acquire`, `tryAcquire`, `setOwner` without force and
`release` (calls on other textures may come in between), a pending delayed
release implies that the texture is busy and that the recorded owner of the
delayed release is the current owner; and when no delayed release is pending
no owner is recorded for one.  Hence the test of line 125 in `setNotBusy`
never fails: with a delayed release pending `setNotBusy` clears the owner. -/
theorem delayedRelease_flags_sound (rm : RemoveTexture) (calls : List (TexId × TextureCall))
    (w w1 : World) (self : TexId) (hfresh : w.textures self = BaseTileTexture.fresh)
    (hrun : runTextureCalls rm calls w = some w1) :
    ((w1.textures self).m_delayedRelease = true →
      (w1.textures self).m_busy = true ∧
        (w1.textures self).m_delayedReleaseOwner = (w1.textures self).m_owner) ∧
    ((w1.textures self).m_delayedRelease = false →
      (w1.textures self).m_delayedReleaseOwner = none) ∧
    ((w1.textures self).m_delayedRelease = true →
      (w1.textures self).m_owner = (w1.textures self).m_delayedReleaseOwner ∧
        (w1.textures self).setNotBusy.m_owner = none) := by
  have h := runTextureCalls_delayedReleaseSound rm calls self w w1 hrun
    (by rw [hfresh]; exact delayedReleaseSound_fresh)
  refine ⟨fun hd => ⟨h.busy hd, h.owner_eq hd⟩, h.no_stale, fun hd => ⟨(h.owner_eq hd).symm, ?_⟩⟩
  simp [BaseTileTexture.setNotBusy, hd, h.owner_eq hd]

/-- C28 at work on texture 0 of `exampleWorld`: tile 1 acquires it, the paint
worker locks it, tile 1 releases it; the delayed release is pending on a busy
texture for its owner, tile 1, and the producer's release will clear the
owner. -/
theorem delayedRelease_flags_sound_witness :
    ∃ w1, runTextureCalls removeTextureAlways
        [(0, TextureCall.acquire (some 1) false), (0, TextureCall.producerLock),
          (0, TextureCall.release (some 1))] exampleWorld = some w1 ∧
      (w1.textures 0).m_delayedRelease = true ∧ (w1.textures 0).m_owner = some 1 ∧
      (((w1.textures 0).m_delayedRelease = true →
        (w1.textures 0).m_busy = true ∧
          (w1.textures 0).m_delayedReleaseOwner = (w1.textures 0).m_owner) ∧
      ((w1.textures 0).m_delayedRelease = false →
        (w1.textures 0).m_delayedReleaseOwner = none) ∧
      ((w1.textures 0).m_delayedRelease = true →
        (w1.textures 0).m_owner = (w1.textures 0).m_delayedReleaseOwner ∧
          (w1.textures 0).setNotBusy.m_owner = none)) :=
  ⟨_, rfl, by decide, by decide,
    delayedRelease_flags_sound removeTextureAlways
      [(0, TextureCall.acquire (some 1) false), (0, TextureCall.producerLock),
        (0, TextureCall.release (some 1))] exampleWorld _ 0 rfl rfl⟩

/-! ## Faults of `getAvailableTexture` in reachable states -/

set_option maxRecDepth 100000 in
/-- C29 fails for a tile that asks twice between two gathers: in `frameWorld`
(a new manager after `setMaxTextureCount(1)`, a registration and
`gatherTextures`) base tile 1 reserves a texture and gets texture 1, which
leaves the base snapshot; when tile 1 asks again it holds texture 1 and owns
it, so the same-owner branch runs, `find` at line 231 answers `notFound`
because texture 1 is not in the snapshot, and `remove` is called out of
range: the call has no defined result. -/
theorem getAvailableTexture_second_request_not_found :
    ∃ w1, reserveTexture removeTextureAlways 1 frameWorld = some w1 ∧
      (w1.tiles 1).m_texture = some 1 ∧ (w1.textures 1).m_owner = some 1 ∧
      1 ∉ w1.manager.m_availableTextures ∧
      getAvailableTexture removeTextureAlways 1 w1 = none :=
  ⟨_, rfl, by decide, by decide, by decide, rfl⟩

set_option maxRecDepth 100000 in
/-- C30 fails after a release: in `frameWorld` base tile 1 gets texture 1
(used level 0) and releases it, which clears the owner and leaves the used
level; after the next `gatherTextures` texture 1 is in the base snapshot with
used level 0 and no owner, and when base tile 2 asks, the scan dereferences
the null owner at line 278: the call has no defined result. -/
theorem base_scan_dereferences_null_owner :
    ∃ w1, getAvailableTexture removeTextureAlways 1 frameWorld = some (some 1, w1) ∧
      (gatherTextures (release 1 (some 1) w1).2).manager.m_availableTextures = [1] ∧
      ((gatherTextures (release 1 (some 1) w1).2).textures 1).m_usedLevel = 0 ∧
      ((gatherTextures (release 1 (some 1) w1).2).textures 1).m_owner = none ∧
      getAvailableTexture removeTextureAlways 2 (gatherTextures (release 1 (some 1) w1).2)
        = none :=
  ⟨_, rfl, by decide, by decide, by decide, rfl⟩

end WebCore
